import Mathlib

/-!
# UE4Math: the geometric transform core (FMatrix, FRotator)

A shallow embedding of `UE4-Math/Math/Matrix.h`, `Math/Rotator.h` and
`Math/Vector4.h`.

Conventions of the embedding
* `float` and `double` values are exact rationals (`ℚ`): a result stated over exact
  arithmetic is a statement about the arithmetic the code writes down, evaluated without
  rounding, overflow, infinities or NaN.
* `float M[4][4]` is a function `Fin 4 → Fin 4 → ℚ` (`M row col`); the flat
  `float*` / `double*` views of sixteen entries are functions `Fin 16 → ℚ`,
  entry `4 * row + col` being `M row col` (row-major storage).
* Mutating members return the new value of what they mutate.
* Members guarded by `PLATFORM_ENABLE_VECTORINTRINSICS` are embedded by their
  scalar `#else` branch.
* The section "Rounded arithmetic" gives, for the functions whose floating-point behaviour
  matters to a claim, a second definition in which every operation is rounded to binary32
  (`float`) or binary64 (`double`); the statements about "the binary32 code" are about those.
-/

namespace UE4Math

/-! ## Scalar helpers (`FMath`, `Math/UnrealMathUtility.h`) -/

/-- Modelled from the spec: the macro `SMALL_NUMBER` of `Math/UnrealMathUtility.h`, a header
that is not among the sources. Spec section 8 gives the value used by the axis check of
`Inverse` as `1e-8`. -/
def SMALL_NUMBER : ℚ := 1 / 100000000

/-- Modelled from the spec: the macro `KINDA_SMALL_NUMBER` of `Math/UnrealMathUtility.h`, a
header that is not among the sources; the default tolerance of the `Equals` predicates,
`1e-4` in spec section 8. -/
def KINDA_SMALL_NUMBER : ℚ := 1 / 10000

namespace FMath

/-- Modelled from the spec: `FMath::Abs` of `Math/UnrealMathUtility.h`, a header that is not
among the sources. Spec section 6 lists `Abs` among the scalar contracts: the absolute
value. -/
def Abs (A : ℚ) : ℚ := if 0 ≤ A then A else -A

/-- Modelled from the spec: truncation toward zero, the integer quotient that the
floating-point modulo of spec section 6 is defined with. -/
def TruncToInt (Q : ℚ) : ℤ := if 0 ≤ Q then ⌊Q⌋ else ⌈Q⌉

/-- Modelled from the spec: `FMath::Fmod` of `Math/UnrealMathUtility.h`, a header that is not
among the sources. Spec section 6: `Fmod` matches the IEEE-754 floating-point modulo, that
is `X - Y * n` with `n` the quotient `X / Y` truncated toward zero (the result has the
sign of `X` and a magnitude below that of `Y`). -/
def Fmod (X Y : ℚ) : ℚ := X - Y * (TruncToInt (X / Y) : ℚ)

/-- Modelled from the spec: `FMath::RoundToInt` of `Math/UnrealMathUtility.h`, a header that is
not among the sources. Spec section 6: rounding to the nearest integer, a half away from
zero. -/
def RoundToInt (F : ℚ) : ℤ := if 0 ≤ F then ⌊F + 1 / 2⌋ else ⌈F - 1 / 2⌉

/-- Modelled from the spec: `FMath::FloatSelect` of `Math/UnrealMathUtility.h`, a header that
is not among the sources. Spec section 6: `FloatSelect(cmp,a,b)` is `a` if `cmp >= 0`, else
`b`. -/
def FloatSelect (Comparand ValueGEZero ValueLTZero : ℚ) : ℚ :=
  if Comparand ≥ 0 then ValueGEZero else ValueLTZero

end FMath

/-! ## Vectors -/

/-- Modelled from the spec: the type `FVector` of `Math/Vector.h`, a header that is not among
the sources: a 3-component tuple (spec section 2, Vector3). -/
structure FVector where
  X : ℚ
  Y : ℚ
  Z : ℚ
deriving DecidableEq

/-- The type `FVector4` of `Math/Vector4.h`: a 4-component tuple. -/
structure FVector4 where
  X : ℚ
  Y : ℚ
  Z : ℚ
  W : ℚ
deriving DecidableEq

/-- `FVector4::IsNearlyZero3` (Vector4.h): each of X, Y, Z is within `Tolerance` of zero. -/
def FVector4.IsNearlyZero3 (V : FVector4) (Tolerance : ℚ) : Bool :=
  decide (FMath.Abs V.X ≤ Tolerance)
    && decide (FMath.Abs V.Y ≤ Tolerance)
    && decide (FMath.Abs V.Z ≤ Tolerance)

/-- Modelled from the spec: the constant `FVector::ZeroVector` of `Math/Vector.h`, a header
that is not among the sources. Spec section 3: the vector with three zero components. -/
def FVector.ZeroVector : FVector := ⟨0, 0, 0⟩

/-- Modelled from the spec: `FVector::SizeSquared` of `Math/Vector.h`, a header that is not
among the sources. Spec glossary: the squared length of a row of the 3x3 submatrix. -/
def FVector.SizeSquared (V : FVector) : ℚ := V.X * V.X + V.Y * V.Y + V.Z * V.Z

/-- Modelled from the spec: `FVector::IsNearlyZero` of `Math/Vector.h`, a header that is not
among the sources; the test `FMatrix::Inverse` applies to each scaled axis. Spec section 8:
the axes are nearly zero when they are "below 1e-8 squared length"; spec glossary: a
near-zero-scale axis is a row "whose squared length is below a small tolerance". -/
def FVector.IsNearlyZero (V : FVector) (Tolerance : ℚ) : Bool :=
  decide (V.SizeSquared < Tolerance)

/-- Modelled from the spec: `FVector::operator[]` for reading, of `Math/Vector.h`, a header that
is not among the sources. Spec section 9: indexed component access, index 0, 1, 2 for X, Y,
Z. -/
def FVector.Component (V : FVector) (Index : Fin 3) : ℚ :=
  match Index with
  | 0 => V.X
  | 1 => V.Y
  | 2 => V.Z

/-- Modelled from the spec: `FVector::operator[]` used as the target of an assignment
(`Scale3D[i] = value`); returns the new value of the vector. -/
def FVector.setComponent (V : FVector) (Index : Fin 3) (Value : ℚ) : FVector :=
  match Index with
  | 0 => ⟨Value, V.Y, V.Z⟩
  | 1 => ⟨V.X, Value, V.Z⟩
  | 2 => ⟨V.X, V.Y, Value⟩

/-- Modelled from the spec: the type `FPlane` of `Math/Plane.h`, a header that is not among the
sources. Spec section 3: a normal (X, Y, Z) plus a scalar W; the constructor takes them in
this order. -/
structure FPlane where
  X : ℚ
  Y : ℚ
  Z : ℚ
  W : ℚ
deriving DecidableEq

/-- Modelled from the spec: `FVector::operator|` of `Math/Vector.h`, a header that is not among
the sources. Spec section 2 and 4.1: the dot product. -/
def FVector.dot (V W : FVector) : ℚ := V.X * W.X + V.Y * W.Y + V.Z * W.Z

/-- Modelled from the spec: `FVector::operator^` of `Math/Vector.h`, a header that is not among
the sources. Spec section 2 and 4.1: the cross product. -/
def FVector.cross (V W : FVector) : FVector :=
  ⟨V.Y * W.Z - V.Z * W.Y, V.Z * W.X - V.X * W.Z, V.X * W.Y - V.Y * W.X⟩

/-- Modelled from the spec: the binary `FVector::operator-` of `Math/Vector.h`: the
componentwise difference. -/
def FVector.sub (V W : FVector) : FVector := ⟨V.X - W.X, V.Y - W.Y, V.Z - W.Z⟩

/-- Modelled from the spec: the unary `FVector::operator-` of `Math/Vector.h`: the
componentwise negation. -/
def FVector.neg (V : FVector) : FVector := ⟨-V.X, -V.Y, -V.Z⟩

/-- Modelled from the spec: `FVector::GetSafeNormal` of `Math/Vector.h`, a header that is not
among the sources. Spec section 4.1: the safe-normalize contract of the library, the zero
vector for a vector that cannot be normalized and the vector scaled to unit length otherwise;
written as its sibling `FVector4::GetSafeNormal` (Vector4.h) is. `InvSqrt` stands for
`FMath::InvSqrt`. -/
def FVector.GetSafeNormal (InvSqrt : ℚ → ℚ) (V : FVector) (Tolerance : ℚ) : FVector :=
  let SquareSum := V.X * V.X + V.Y * V.Y + V.Z * V.Z
  if SquareSum > Tolerance then
    let Scale := InvSqrt SquareSum
    ⟨V.X * Scale, V.Y * Scale, V.Z * Scale⟩
  else
    FVector.ZeroVector

/-- `FVector::FVector(const FVector4&)` (Vector4.h): the first three components. -/
def FVector.ofFVector4 (V : FVector4) : FVector := ⟨V.X, V.Y, V.Z⟩

/-- The call `FVector4(InX)` of the constructor
`explicit FVector4(float InX = 0.0f, float InY = 0.0f, float InZ = 0.0f, float InW = 1.0f)`
(Vector4.h): the arguments left out take their defaults. -/
def FVector4.ofFloat (InX : ℚ) : FVector4 := ⟨InX, 0, 0, 1⟩

/-- `FVector4::GetSafeNormal` (Vector4.h). `InvSqrt` stands for `FMath::InvSqrt`. -/
def FVector4.GetSafeNormal (InvSqrt : ℚ → ℚ) (V : FVector4) (Tolerance : ℚ) : FVector4 :=
  let SquareSum := V.X * V.X + V.Y * V.Y + V.Z * V.Z
  if SquareSum > Tolerance then
    let Scale := InvSqrt SquareSum
    ⟨V.X * Scale, V.Y * Scale, V.Z * Scale, 0⟩
  else
    FVector4.ofFloat 0

/-- The call `FVector4(InX, InY, InZ)` of the same constructor (Vector4.h): `InW` takes its
default `1.0f`. -/
def FVector4.ofFloat3 (InX InY InZ : ℚ) : FVector4 := ⟨InX, InY, InZ, 1⟩

/-- The friend function `Dot3` of `FVector4` (Vector4.h): the dot product of the first three
components. -/
def Dot3 (V1 V2 : FVector4) : ℚ := V1.X * V2.X + V1.Y * V2.Y + V1.Z * V2.Z

/-- `FVector4::operator-(const FVector4&)` (Vector4.h). -/
def FVector4.sub (a V : FVector4) : FVector4 :=
  ⟨a.X - V.X, a.Y - V.Y, a.Z - V.Z, a.W - V.W⟩

/-- `FVector4::operator*(float)` (Vector4.h). -/
def FVector4.scale (a : FVector4) (Scale : ℚ) : FVector4 :=
  ⟨a.X * Scale, a.Y * Scale, a.Z * Scale, a.W * Scale⟩

/-- `FVector4::operator^` (Vector4.h): the cross product of the first three components, with
`W = 0`. -/
def FVector4.cross (a V : FVector4) : FVector4 :=
  ⟨a.Y * V.Z - a.Z * V.Y,
   a.Z * V.X - a.X * V.Z,
   a.X * V.Y - a.Y * V.X,
   0⟩

/-- The seed axis of `FVector4::FindBestAxisVectors3` (Vector4.h): the value the `if`/`else`
statement assigns to `Axis1`. -/
def FVector4.FindBestAxisVectors3.Seed (N : FVector4) : FVector4 :=
  let NX := FMath.Abs N.X
  let NY := FMath.Abs N.Y
  let NZ := FMath.Abs N.Z
  -- Find best basis vectors.
  if NZ > NX ∧ NZ > NY then FVector4.ofFloat3 1 0 0
  else FVector4.ofFloat3 0 0 1

/-- The argument `Axis1 - *this * Dot3(Axis1, *this)` that `FVector4::FindBestAxisVectors3`
(Vector4.h) passes to `GetSafeNormal`. -/
def FVector4.FindBestAxisVectors3.Projected (N : FVector4) : FVector4 :=
  let Axis1 := FVector4.FindBestAxisVectors3.Seed N
  Axis1.sub (N.scale (Dot3 Axis1 N))

/-- `FVector4::FindBestAxisVectors3` (Vector4.h); returns the values written to the reference
arguments `Axis1` and `Axis2`. `GetSafeNormal` is called with its default tolerance
`SMALL_NUMBER`; `InvSqrt` stands for `FMath::InvSqrt`. -/
def FVector4.FindBestAxisVectors3 (InvSqrt : ℚ → ℚ) (N : FVector4) : FVector4 × FVector4 :=
  let Axis1 :=
    FVector4.GetSafeNormal InvSqrt (FVector4.FindBestAxisVectors3.Projected N) SMALL_NUMBER
  let Axis2 := Axis1.cross N
  (Axis1, Axis2)

/-- The type `FIntVector4` (IntVector.h): four `int32` components. -/
structure FIntVector4 where
  X : ℤ
  Y : ℤ
  Z : ℤ
  W : ℤ
deriving DecidableEq

/-- `FIntVector4::operator==` (IntVector.h). -/
def FIntVector4.eq (a Other : FIntVector4) : Bool :=
  decide (a.X = Other.X) && decide (a.Y = Other.Y) && decide (a.Z = Other.Z)

/-- `FIntVector4::operator!=` (IntVector.h). -/
def FIntVector4.ne (a Other : FIntVector4) : Bool :=
  decide (a.X ≠ Other.X) || decide (a.Y ≠ Other.Y) || decide (a.Z ≠ Other.Z)
    || decide (a.W ≠ Other.W)

/-- The enumeration `EAxis::Type` of `Math/Axis.h`. -/
inductive EAxis where
  | None
  | X
  | Y
  | Z
deriving DecidableEq

/-! ## FMatrix -/

/-- The type `FMatrix`: `float M[4][4]`, accessed as `M row col`. -/
@[ext] structure FMatrix where
  M : Fin 4 → Fin 4 → ℚ

namespace FMatrix

/-- Modelled from the spec: the constant `FMatrix::Identity`, declared in Matrix.h and
initialised in a translation unit that is not among the sources. Spec section 4.1: the 4x4
identity matrix (the entries `SetIdentity` writes). -/
def Identity : FMatrix :=
  ⟨![![1, 0, 0, 0],
     ![0, 1, 0, 0],
     ![0, 0, 1, 0],
     ![0, 0, 0, 1]]⟩

/-- The flat `const float*` view of a matrix: entry `4 * row + col` is `M row col`. -/
def flat (m : FMatrix) : Fin 16 → ℚ :=
  fun k => m.M ⟨k.val / 4, by omega⟩ ⟨k.val % 4, by omega⟩

/-- The matrix stored in a flat array of sixteen entries (row-major). -/
def ofFlat (d : Fin 16 → ℚ) : FMatrix :=
  ⟨fun i j => d ⟨4 * i.val + j.val, by omega⟩⟩

/-- `FMatrix::Determinant` (Matrix.h). -/
def Determinant (m : FMatrix) : ℚ :=
  m.M 0 0 * (
    m.M 1 1 * (m.M 2 2 * m.M 3 3 - m.M 2 3 * m.M 3 2) -
    m.M 2 1 * (m.M 1 2 * m.M 3 3 - m.M 1 3 * m.M 3 2) +
    m.M 3 1 * (m.M 1 2 * m.M 2 3 - m.M 1 3 * m.M 2 2)
    ) -
  m.M 1 0 * (
    m.M 0 1 * (m.M 2 2 * m.M 3 3 - m.M 2 3 * m.M 3 2) -
    m.M 2 1 * (m.M 0 2 * m.M 3 3 - m.M 0 3 * m.M 3 2) +
    m.M 3 1 * (m.M 0 2 * m.M 2 3 - m.M 0 3 * m.M 2 2)
    ) +
  m.M 2 0 * (
    m.M 0 1 * (m.M 1 2 * m.M 3 3 - m.M 1 3 * m.M 3 2) -
    m.M 1 1 * (m.M 0 2 * m.M 3 3 - m.M 0 3 * m.M 3 2) +
    m.M 3 1 * (m.M 0 2 * m.M 1 3 - m.M 0 3 * m.M 1 2)
    ) -
  m.M 3 0 * (
    m.M 0 1 * (m.M 1 2 * m.M 2 3 - m.M 1 3 * m.M 2 2) -
    m.M 1 1 * (m.M 0 2 * m.M 2 3 - m.M 0 3 * m.M 2 2) +
    m.M 2 1 * (m.M 0 2 * m.M 1 3 - m.M 0 3 * m.M 1 2)
    )

/-- `FMatrix::GetScaledAxis` (Matrix.h): row 0, 1 or 2 restricted to columns 0-2; the
`default` case returns `FVector::ZeroVector`. -/
def GetScaledAxis (m : FMatrix) (InAxis : EAxis) : FVector :=
  match InAxis with
  | EAxis.X => ⟨m.M 0 0, m.M 0 1, m.M 0 2⟩
  | EAxis.Y => ⟨m.M 1 0, m.M 1 1, m.M 1 2⟩
  | EAxis.Z => ⟨m.M 2 0, m.M 2 1, m.M 2 2⟩
  | EAxis.None => FVector.ZeroVector

/-- `FMatrix::GetTransposed` (Matrix.h). -/
def GetTransposed (m : FMatrix) : FMatrix :=
  ⟨![![m.M 0 0, m.M 1 0, m.M 2 0, m.M 3 0],
     ![m.M 0 1, m.M 1 1, m.M 2 1, m.M 3 1],
     ![m.M 0 2, m.M 1 2, m.M 2 2, m.M 3 2],
     ![m.M 0 3, m.M 1 3, m.M 2 3, m.M 3 3]]⟩

/-- `FMatrix::RotDeterminant` (Matrix.h). -/
def RotDeterminant (m : FMatrix) : ℚ :=
  m.M 0 0 * (m.M 1 1 * m.M 2 2 - m.M 1 2 * m.M 2 1) -
  m.M 1 0 * (m.M 0 1 * m.M 2 2 - m.M 0 2 * m.M 2 1) +
  m.M 2 0 * (m.M 0 1 * m.M 1 2 - m.M 0 2 * m.M 1 1)

/-- `FMatrix::TransposeAdjoint` (Matrix.h). -/
def TransposeAdjoint (m : FMatrix) : FMatrix :=
  ⟨![![m.M 1 1 * m.M 2 2 - m.M 1 2 * m.M 2 1,
       m.M 1 2 * m.M 2 0 - m.M 1 0 * m.M 2 2,
       m.M 1 0 * m.M 2 1 - m.M 1 1 * m.M 2 0,
       0],
     ![m.M 2 1 * m.M 0 2 - m.M 2 2 * m.M 0 1,
       m.M 2 2 * m.M 0 0 - m.M 2 0 * m.M 0 2,
       m.M 2 0 * m.M 0 1 - m.M 2 1 * m.M 0 0,
       0],
     ![m.M 0 1 * m.M 1 2 - m.M 0 2 * m.M 1 1,
       m.M 0 2 * m.M 1 0 - m.M 0 0 * m.M 1 2,
       m.M 0 0 * m.M 1 1 - m.M 0 1 * m.M 1 0,
       0],
     ![0, 0, 0, 1]]⟩

/-- The upper-left 3x3 block of a matrix (rows 0-2, columns 0-2), as a matrix over `Fin 3`. -/
def block3 (m : FMatrix) : Matrix (Fin 3) (Fin 3) ℚ :=
  Matrix.of fun i j => m.M i.castSucc j.castSucc

end FMatrix

/-- The adjugate entries `inv[0..15]` that `Inverse4x4` (Matrix.h) computes from `src`. -/
def Inverse4x4.inv (src : Fin 16 → ℚ) : Fin 16 → ℚ :=
  let s0 := src 0; let s1 := src 1; let s2 := src 2; let s3 := src 3
  let s4 := src 4; let s5 := src 5; let s6 := src 6; let s7 := src 7
  let s8 := src 8; let s9 := src 9; let s10 := src 10; let s11 := src 11
  let s12 := src 12; let s13 := src 13; let s14 := src 14; let s15 := src 15
  ![s5 * s10 * s15 - s5 * s11 * s14 - s9 * s6 * s15 + s9 * s7 * s14 + s13 * s6 * s11 - s13 * s7 * s10,
    -s1 * s10 * s15 + s1 * s11 * s14 + s9 * s2 * s15 - s9 * s3 * s14 - s13 * s2 * s11 + s13 * s3 * s10,
    s1 * s6 * s15 - s1 * s7 * s14 - s5 * s2 * s15 + s5 * s3 * s14 + s13 * s2 * s7 - s13 * s3 * s6,
    -s1 * s6 * s11 + s1 * s7 * s10 + s5 * s2 * s11 - s5 * s3 * s10 - s9 * s2 * s7 + s9 * s3 * s6,
    -s4 * s10 * s15 + s4 * s11 * s14 + s8 * s6 * s15 - s8 * s7 * s14 - s12 * s6 * s11 + s12 * s7 * s10,
    s0 * s10 * s15 - s0 * s11 * s14 - s8 * s2 * s15 + s8 * s3 * s14 + s12 * s2 * s11 - s12 * s3 * s10,
    -s0 * s6 * s15 + s0 * s7 * s14 + s4 * s2 * s15 - s4 * s3 * s14 - s12 * s2 * s7 + s12 * s3 * s6,
    s0 * s6 * s11 - s0 * s7 * s10 - s4 * s2 * s11 + s4 * s3 * s10 + s8 * s2 * s7 - s8 * s3 * s6,
    s4 * s9 * s15 - s4 * s11 * s13 - s8 * s5 * s15 + s8 * s7 * s13 + s12 * s5 * s11 - s12 * s7 * s9,
    -s0 * s9 * s15 + s0 * s11 * s13 + s8 * s1 * s15 - s8 * s3 * s13 - s12 * s1 * s11 + s12 * s3 * s9,
    s0 * s5 * s15 - s0 * s7 * s13 - s4 * s1 * s15 + s4 * s3 * s13 + s12 * s1 * s7 - s12 * s3 * s5,
    -s0 * s5 * s11 + s0 * s7 * s9 + s4 * s1 * s11 - s4 * s3 * s9 - s8 * s1 * s7 + s8 * s3 * s5,
    -s4 * s9 * s14 + s4 * s10 * s13 + s8 * s5 * s14 - s8 * s6 * s13 - s12 * s5 * s10 + s12 * s6 * s9,
    s0 * s9 * s14 - s0 * s10 * s13 - s8 * s1 * s14 + s8 * s2 * s13 + s12 * s1 * s10 - s12 * s2 * s9,
    -s0 * s5 * s14 + s0 * s6 * s13 + s4 * s1 * s14 - s4 * s2 * s13 - s12 * s1 * s6 + s12 * s2 * s5,
    s0 * s5 * s10 - s0 * s6 * s9 - s4 * s1 * s10 + s4 * s2 * s9 + s8 * s1 * s6 - s8 * s2 * s5]

/-- The scalar `det` of `Inverse4x4` (Matrix.h) at the loop: the expansion
`s0 * inv[0] + s1 * inv[4] + s2 * inv[8] + s3 * inv[12]`, replaced by its reciprocal when it
is not zero. -/
def Inverse4x4.det (src : Fin 16 → ℚ) : ℚ :=
  let inv := Inverse4x4.inv src
  let det := src 0 * inv 0 + src 1 * inv 4 + src 2 * inv 8 + src 3 * inv 12
  if det ≠ 0 then 1 / det else det

/-- `Inverse4x4` (Matrix.h): `dst[i] = inv[i] * det` for the sixteen entries. -/
def Inverse4x4 (src : Fin 16 → ℚ) : Fin 16 → ℚ :=
  fun i => Inverse4x4.inv src i * Inverse4x4.det src

/-- Modelled from the spec: `VectorMatrixInverse`, declared in the vector-intrinsics header,
which is not among the sources. Spec section 4.1: the inversion is the general 4x4
cofactor/adjugate algorithm of `Inverse4x4`, run on the sixteen entries of the source and
stored as the sixteen entries of the result. -/
def VectorMatrixInverse (SrcMatrix : FMatrix) : FMatrix :=
  FMatrix.ofFlat (Inverse4x4 SrcMatrix.flat)

/-- Modelled from the spec: `VectorMatrixMultiply`, declared in the vector-intrinsics header,
which is not among the sources. Spec section 4.1 and glossary: `A * B` applies A first and
then B to a row vector on the left (`v·A·B`), so entry (i, j) of the result is row i of
`Matrix1` times column j of `Matrix2`. -/
def VectorMatrixMultiply (Matrix1 Matrix2 : FMatrix) : FMatrix :=
  ⟨fun i j => Matrix1.M i 0 * Matrix2.M 0 j + Matrix1.M i 1 * Matrix2.M 1 j
      + Matrix1.M i 2 * Matrix2.M 2 j + Matrix1.M i 3 * Matrix2.M 3 j⟩

/-- Modelled from the spec: `VectorTransformVector`, declared in the vector-intrinsics header,
which is not among the sources. Glossary: a row vector is transformed as `v·M`. -/
def VectorTransformVector (VecP : FVector4) (MatrixM : FMatrix) : FVector4 :=
  ⟨VecP.X * MatrixM.M 0 0 + VecP.Y * MatrixM.M 1 0 + VecP.Z * MatrixM.M 2 0 + VecP.W * MatrixM.M 3 0,
   VecP.X * MatrixM.M 0 1 + VecP.Y * MatrixM.M 1 1 + VecP.Z * MatrixM.M 2 1 + VecP.W * MatrixM.M 3 1,
   VecP.X * MatrixM.M 0 2 + VecP.Y * MatrixM.M 1 2 + VecP.Z * MatrixM.M 2 2 + VecP.W * MatrixM.M 3 2,
   VecP.X * MatrixM.M 0 3 + VecP.Y * MatrixM.M 1 3 + VecP.Z * MatrixM.M 2 3 + VecP.W * MatrixM.M 3 3⟩

namespace FMatrix

/-- `FMatrix::operator*` (Matrix.h): delegates to `VectorMatrixMultiply(&Result, this, &Other)`. -/
def mul (m Other : FMatrix) : FMatrix := VectorMatrixMultiply m Other

instance : Mul FMatrix := ⟨FMatrix.mul⟩

/-- `FMatrix::Equals` (Matrix.h): no entry differs by more than `Tolerance`. -/
def Equals (m Other : FMatrix) (Tolerance : ℚ) : Bool :=
  decide (∀ X Y : Fin 4, ¬ (FMath.Abs (m.M X Y - Other.M X Y) > Tolerance))

/-- `FMatrix::TransformFVector4` (Matrix.h): loads P, applies `VectorTransformVector`, stores
the result. -/
def TransformFVector4 (m : FMatrix) (P : FVector4) : FVector4 := VectorTransformVector P m

/-- The test that opens `FMatrix::Inverse` and `FMatrix::InverseFast` (Matrix.h): the three
scaled axes are all nearly zero at `SMALL_NUMBER`. -/
def IsNilMatrix (m : FMatrix) : Bool :=
  (m.GetScaledAxis EAxis.X).IsNearlyZero SMALL_NUMBER &&
  (m.GetScaledAxis EAxis.Y).IsNearlyZero SMALL_NUMBER &&
  (m.GetScaledAxis EAxis.Z).IsNearlyZero SMALL_NUMBER

/-- `FMatrix::Inverse` (Matrix.h). -/
def Inverse (m : FMatrix) : FMatrix :=
  if (m.GetScaledAxis EAxis.X).IsNearlyZero SMALL_NUMBER &&
     (m.GetScaledAxis EAxis.Y).IsNearlyZero SMALL_NUMBER &&
     (m.GetScaledAxis EAxis.Z).IsNearlyZero SMALL_NUMBER then
    -- just set to zero - avoids unsafe inverse of zero
    FMatrix.Identity
  else
    let Det := m.Determinant
    if Det = 0 then
      FMatrix.Identity
    else
      VectorMatrixInverse m

/-- The quantity `SquareSum0`, `SquareSum1`, `SquareSum2` that `RemoveScaling`,
`ExtractScaling` and `GetScaleVector` (Matrix.h) compute for row `i`: the squared length of
the row restricted to columns 0-2. -/
def SquareSum (m : FMatrix) (i : Fin 4) : ℚ :=
  (m.M i 0 * m.M i 0) + (m.M i 1 * m.M i 1) + (m.M i 2 * m.M i 2)

/-- The assignment `M[i][j] = Value`; returns the new value of the matrix. -/
def set (m : FMatrix) (i j : Fin 4) (Value : ℚ) : FMatrix :=
  ⟨fun a b => if a = i ∧ b = j then Value else m.M a b⟩

/-- `FMatrix::RemoveScaling` (Matrix.h); returns the new value of the matrix. `InvSqrt` stands
for `FMath::InvSqrt`, which is not among the sources and has no rational model: it is a
parameter. -/
def RemoveScaling (InvSqrt : ℚ → ℚ) (m : FMatrix) (Tolerance : ℚ) : FMatrix :=
  -- For each row, find magnitude, and if its non-zero re-scale so its unit length.
  let SquareSum0 := (m.M 0 0 * m.M 0 0) + (m.M 0 1 * m.M 0 1) + (m.M 0 2 * m.M 0 2)
  let SquareSum1 := (m.M 1 0 * m.M 1 0) + (m.M 1 1 * m.M 1 1) + (m.M 1 2 * m.M 1 2)
  let SquareSum2 := (m.M 2 0 * m.M 2 0) + (m.M 2 1 * m.M 2 1) + (m.M 2 2 * m.M 2 2)
  let Scale0 := FMath.FloatSelect (SquareSum0 - Tolerance) (InvSqrt SquareSum0) 1
  let Scale1 := FMath.FloatSelect (SquareSum1 - Tolerance) (InvSqrt SquareSum1) 1
  let Scale2 := FMath.FloatSelect (SquareSum2 - Tolerance) (InvSqrt SquareSum2) 1
  let m := m.set 0 0 (m.M 0 0 * Scale0)
  let m := m.set 0 1 (m.M 0 1 * Scale0)
  let m := m.set 0 2 (m.M 0 2 * Scale0)
  let m := m.set 1 0 (m.M 1 0 * Scale1)
  let m := m.set 1 1 (m.M 1 1 * Scale1)
  let m := m.set 1 2 (m.M 1 2 * Scale1)
  let m := m.set 2 0 (m.M 2 0 * Scale2)
  let m := m.set 2 1 (m.M 2 1 * Scale2)
  let m := m.set 2 2 (m.M 2 2 * Scale2)
  m

/-- `FMatrix::ExtractScaling` (Matrix.h); returns the scale vector and the new value of the
matrix. `Sqrt` stands for `FMath::Sqrt`, which is not among the sources and has no rational
model: it is a parameter. -/
def ExtractScaling (Sqrt : ℚ → ℚ) (m : FMatrix) (Tolerance : ℚ) : FVector × FMatrix :=
  let Scale3D : FVector := ⟨0, 0, 0⟩
  -- For each row, find magnitude, and if its non-zero re-scale so its unit length.
  let SquareSum0 := (m.M 0 0 * m.M 0 0) + (m.M 0 1 * m.M 0 1) + (m.M 0 2 * m.M 0 2)
  let SquareSum1 := (m.M 1 0 * m.M 1 0) + (m.M 1 1 * m.M 1 1) + (m.M 1 2 * m.M 1 2)
  let SquareSum2 := (m.M 2 0 * m.M 2 0) + (m.M 2 1 * m.M 2 1) + (m.M 2 2 * m.M 2 2)
  let step0 : FVector × FMatrix :=
    if SquareSum0 > Tolerance then
      let Scale0 := Sqrt SquareSum0
      let Scale3D := Scale3D.setComponent 0 Scale0
      let InvScale0 := 1 / Scale0
      let m := m.set 0 0 (m.M 0 0 * InvScale0)
      let m := m.set 0 1 (m.M 0 1 * InvScale0)
      let m := m.set 0 2 (m.M 0 2 * InvScale0)
      (Scale3D, m)
    else
      (Scale3D.setComponent 0 0, m)
  let Scale3D := step0.1
  let m := step0.2
  let step1 : FVector × FMatrix :=
    if SquareSum1 > Tolerance then
      let Scale1 := Sqrt SquareSum1
      let Scale3D := Scale3D.setComponent 1 Scale1
      let InvScale1 := 1 / Scale1
      let m := m.set 1 0 (m.M 1 0 * InvScale1)
      let m := m.set 1 1 (m.M 1 1 * InvScale1)
      let m := m.set 1 2 (m.M 1 2 * InvScale1)
      (Scale3D, m)
    else
      (Scale3D.setComponent 1 0, m)
  let Scale3D := step1.1
  let m := step1.2
  let step2 : FVector × FMatrix :=
    if SquareSum2 > Tolerance then
      let Scale2 := Sqrt SquareSum2
      let Scale3D := Scale3D.setComponent 2 Scale2
      let InvScale2 := 1 / Scale2
      let m := m.set 2 0 (m.M 2 0 * InvScale2)
      let m := m.set 2 1 (m.M 2 1 * InvScale2)
      let m := m.set 2 2 (m.M 2 2 * InvScale2)
      (Scale3D, m)
    else
      (Scale3D.setComponent 2 0, m)
  step2

/-- `FMatrix::GetScaleVector` (Matrix.h): the loop over `i = 0, 1, 2`. `Sqrt` stands for
`FMath::Sqrt`. -/
def GetScaleVector (Sqrt : ℚ → ℚ) (m : FMatrix) (Tolerance : ℚ) : FVector :=
  let Scale3D : FVector := ⟨1, 1, 1⟩
  -- For each row, find magnitude, and if its non-zero re-scale so its unit length.
  ([0, 1, 2] : List (Fin 3)).foldl (fun Scale3D i =>
    let SquareSum := (m.M i.castSucc 0 * m.M i.castSucc 0) + (m.M i.castSucc 1 * m.M i.castSucc 1)
      + (m.M i.castSucc 2 * m.M i.castSucc 2)
    if SquareSum > Tolerance then
      Scale3D.setComponent i (Sqrt SquareSum)
    else
      Scale3D.setComponent i 0) Scale3D

/-- `FMatrix::ConcatTranslation` (Matrix.h): `Dest`, `Src` are the flat views of the result and
of the matrix, `Trans` the three components of `Translation` starting at `X`. -/
def ConcatTranslation (m : FMatrix) (Translation : FVector) : FMatrix :=
  let Src := m.flat
  let Trans : Fin 3 → ℚ := ![Translation.X, Translation.Y, Translation.Z]
  FMatrix.ofFlat
    ![Src 0, Src 1, Src 2, Src 3,
      Src 4, Src 5, Src 6, Src 7,
      Src 8, Src 9, Src 10, Src 11,
      Src 12 + Trans 0, Src 13 + Trans 1, Src 14 + Trans 2, Src 15]

end FMatrix

/-- `MakeFrustumPlane` (Matrix.h); returns the boolean and the new value of `OutPlane`.
`InvSqrt` stands for `FMath::InvSqrt` and `DELTA` for the macro `DELTA`; neither is among the
sources and the spec gives no value for `DELTA` (a small epsilon): both are parameters. -/
def MakeFrustumPlane (InvSqrt : ℚ → ℚ) (DELTA : ℚ) (A B C D : ℚ) (OutPlane : FPlane) :
    Bool × FPlane :=
  let LengthSquared := A * A + B * B + C * C
  if LengthSquared > DELTA * DELTA then
    let InvLength := InvSqrt LengthSquared
    (true, ⟨-A * InvLength, -B * InvLength, -C * InvLength, D * InvLength⟩)
  else
    (false, OutPlane)

namespace FMatrix

/-- `FMatrix::GetFrustumNearPlane` (Matrix.h). -/
def GetFrustumNearPlane (InvSqrt : ℚ → ℚ) (DELTA : ℚ) (m : FMatrix) (OutPlane : FPlane) :
    Bool × FPlane :=
  MakeFrustumPlane InvSqrt DELTA
    (m.M 0 2)
    (m.M 1 2)
    (m.M 2 2)
    (m.M 3 2)
    OutPlane

/-- `FMatrix::GetFrustumFarPlane` (Matrix.h). -/
def GetFrustumFarPlane (InvSqrt : ℚ → ℚ) (DELTA : ℚ) (m : FMatrix) (OutPlane : FPlane) :
    Bool × FPlane :=
  MakeFrustumPlane InvSqrt DELTA
    (m.M 0 3 - m.M 0 2)
    (m.M 1 3 - m.M 1 2)
    (m.M 2 3 - m.M 2 2)
    (m.M 3 3 - m.M 3 2)
    OutPlane

/-- `FMatrix::GetFrustumLeftPlane` (Matrix.h). -/
def GetFrustumLeftPlane (InvSqrt : ℚ → ℚ) (DELTA : ℚ) (m : FMatrix) (OutPlane : FPlane) :
    Bool × FPlane :=
  MakeFrustumPlane InvSqrt DELTA
    (m.M 0 3 + m.M 0 0)
    (m.M 1 3 + m.M 1 0)
    (m.M 2 3 + m.M 2 0)
    (m.M 3 3 + m.M 3 0)
    OutPlane

/-- `FMatrix::GetFrustumRightPlane` (Matrix.h). -/
def GetFrustumRightPlane (InvSqrt : ℚ → ℚ) (DELTA : ℚ) (m : FMatrix) (OutPlane : FPlane) :
    Bool × FPlane :=
  MakeFrustumPlane InvSqrt DELTA
    (m.M 0 3 - m.M 0 0)
    (m.M 1 3 - m.M 1 0)
    (m.M 2 3 - m.M 2 0)
    (m.M 3 3 - m.M 3 0)
    OutPlane

/-- `FMatrix::GetFrustumTopPlane` (Matrix.h). -/
def GetFrustumTopPlane (InvSqrt : ℚ → ℚ) (DELTA : ℚ) (m : FMatrix) (OutPlane : FPlane) :
    Bool × FPlane :=
  MakeFrustumPlane InvSqrt DELTA
    (m.M 0 3 - m.M 0 1)
    (m.M 1 3 - m.M 1 1)
    (m.M 2 3 - m.M 2 1)
    (m.M 3 3 - m.M 3 1)
    OutPlane

/-- `FMatrix::GetFrustumBottomPlane` (Matrix.h). -/
def GetFrustumBottomPlane (InvSqrt : ℚ → ℚ) (DELTA : ℚ) (m : FMatrix) (OutPlane : FPlane) :
    Bool × FPlane :=
  MakeFrustumPlane InvSqrt DELTA
    (m.M 0 3 + m.M 0 1)
    (m.M 1 3 + m.M 1 1)
    (m.M 2 3 + m.M 2 1)
    (m.M 3 3 + m.M 3 1)
    OutPlane

/-- `FMatrix::TransformPosition` (Matrix.h). -/
def TransformPosition (m : FMatrix) (V : FVector) : FVector4 :=
  m.TransformFVector4 ⟨V.X, V.Y, V.Z, 1⟩

/-- `FMatrix::TransformVector` (Matrix.h). -/
def TransformVector (m : FMatrix) (V : FVector) : FVector4 :=
  m.TransformFVector4 ⟨V.X, V.Y, V.Z, 0⟩

/-- `FMatrix::InverseFast` (Matrix.h): the checks of non-shipping builds only raise a
diagnostic (`ErrorEnsure`); in every build the result is `VectorMatrixInverse`. -/
def InverseFast (m : FMatrix) : FMatrix :=
  VectorMatrixInverse m

/-- `FMatrix::InverseTransformPosition` (Matrix.h); the `FVector4` that `TransformPosition`
returns is converted to the `FVector` result. -/
def InverseTransformPosition (m : FMatrix) (V : FVector) : FVector :=
  let InvSelf := m.InverseFast
  FVector.ofFVector4 (InvSelf.TransformPosition V)

/-- `FMatrix::InverseTransformVector` (Matrix.h). -/
def InverseTransformVector (m : FMatrix) (V : FVector) : FVector :=
  let InvSelf := m.InverseFast
  FVector.ofFVector4 (InvSelf.TransformVector V)

/-- `FMatrix::Mirror` (Matrix.h); returns the new value of the matrix. -/
def Mirror (m : FMatrix) (MirrorAxis FlipAxis : EAxis) : FMatrix :=
  let m :=
    if MirrorAxis = EAxis.X then
      let m := m.set 0 0 (m.M 0 0 * -1)
      let m := m.set 1 0 (m.M 1 0 * -1)
      let m := m.set 2 0 (m.M 2 0 * -1)
      let m := m.set 3 0 (m.M 3 0 * -1)
      m
    else if MirrorAxis = EAxis.Y then
      let m := m.set 0 1 (m.M 0 1 * -1)
      let m := m.set 1 1 (m.M 1 1 * -1)
      let m := m.set 2 1 (m.M 2 1 * -1)
      let m := m.set 3 1 (m.M 3 1 * -1)
      m
    else if MirrorAxis = EAxis.Z then
      let m := m.set 0 2 (m.M 0 2 * -1)
      let m := m.set 1 2 (m.M 1 2 * -1)
      let m := m.set 2 2 (m.M 2 2 * -1)
      let m := m.set 3 2 (m.M 3 2 * -1)
      m
    else
      m
  if FlipAxis = EAxis.X then
    let m := m.set 0 0 (m.M 0 0 * -1)
    let m := m.set 0 1 (m.M 0 1 * -1)
    let m := m.set 0 2 (m.M 0 2 * -1)
    m
  else if FlipAxis = EAxis.Y then
    let m := m.set 1 0 (m.M 1 0 * -1)
    let m := m.set 1 1 (m.M 1 1 * -1)
    let m := m.set 1 2 (m.M 1 2 * -1)
    m
  else if FlipAxis = EAxis.Z then
    let m := m.set 2 0 (m.M 2 0 * -1)
    let m := m.set 2 1 (m.M 2 1 * -1)
    let m := m.set 2 2 (m.M 2 2 * -1)
    m
  else
    m

/-- The value the default constructor `FMatrix::FMatrix()` leaves in `M`: the constructor
writes nothing, and the embedding starts from zeros. The two constructors below write all
sixteen entries. -/
def uninitialized : FMatrix := ⟨fun _ _ => 0⟩

end FMatrix

/-- `FBasisVectorMatrix::FBasisVectorMatrix` (Matrix.h): the constructor of a struct that
derives from `FMatrix`; `(&XAxis.X)[RowIndex]` is component `RowIndex` of `XAxis`. -/
def FBasisVectorMatrix (XAxis YAxis ZAxis Origin : FVector) : FMatrix :=
  let m := FMatrix.uninitialized
  let m := ([0, 1, 2] : List (Fin 3)).foldl (fun m RowIndex =>
    let m := m.set RowIndex.castSucc 0 (XAxis.Component RowIndex)
    let m := m.set RowIndex.castSucc 1 (YAxis.Component RowIndex)
    let m := m.set RowIndex.castSucc 2 (ZAxis.Component RowIndex)
    let m := m.set RowIndex.castSucc 3 0
    m) m
  let m := m.set 3 0 (Origin.dot XAxis)
  let m := m.set 3 1 (Origin.dot YAxis)
  let m := m.set 3 2 (Origin.dot ZAxis)
  let m := m.set 3 3 1
  m

/-- The constant `ZAxis` of `FLookAtMatrix::FLookAtMatrix` (Matrix.h). -/
def FLookAtMatrix.ZAxis (InvSqrt : ℚ → ℚ) (EyePosition LookAtPosition : FVector) : FVector :=
  (LookAtPosition.sub EyePosition).GetSafeNormal InvSqrt SMALL_NUMBER

/-- The constant `XAxis` of `FLookAtMatrix::FLookAtMatrix` (Matrix.h). -/
def FLookAtMatrix.XAxis (InvSqrt : ℚ → ℚ) (EyePosition LookAtPosition UpVector : FVector) :
    FVector :=
  (UpVector.cross (FLookAtMatrix.ZAxis InvSqrt EyePosition LookAtPosition)).GetSafeNormal
    InvSqrt SMALL_NUMBER

/-- The constant `YAxis` of `FLookAtMatrix::FLookAtMatrix` (Matrix.h). -/
def FLookAtMatrix.YAxis (InvSqrt : ℚ → ℚ) (EyePosition LookAtPosition UpVector : FVector) :
    FVector :=
  (FLookAtMatrix.ZAxis InvSqrt EyePosition LookAtPosition).cross
    (FLookAtMatrix.XAxis InvSqrt EyePosition LookAtPosition UpVector)

/-- `FLookAtMatrix::FLookAtMatrix` (Matrix.h): the constructor of a struct that derives from
`FMatrix`. `GetSafeNormal()` is called with its default tolerance `SMALL_NUMBER`; `InvSqrt`
stands for `FMath::InvSqrt`. -/
def FLookAtMatrix (InvSqrt : ℚ → ℚ) (EyePosition LookAtPosition UpVector : FVector) : FMatrix :=
  let ZAxis := (LookAtPosition.sub EyePosition).GetSafeNormal InvSqrt SMALL_NUMBER
  let XAxis := (UpVector.cross ZAxis).GetSafeNormal InvSqrt SMALL_NUMBER
  let YAxis := ZAxis.cross XAxis
  let m := FMatrix.uninitialized
  let m := ([0, 1, 2] : List (Fin 3)).foldl (fun m RowIndex =>
    let m := m.set RowIndex.castSucc 0 (XAxis.Component RowIndex)
    let m := m.set RowIndex.castSucc 1 (YAxis.Component RowIndex)
    let m := m.set RowIndex.castSucc 2 (ZAxis.Component RowIndex)
    let m := m.set RowIndex.castSucc 3 0
    m) m
  let m := m.set 3 0 (EyePosition.neg.dot XAxis)
  let m := m.set 3 1 (EyePosition.neg.dot YAxis)
  let m := m.set 3 2 (EyePosition.neg.dot ZAxis)
  let m := m.set 3 3 1
  m

/-! ## FRotator -/

/-- The type `FRotator` (Rotator.h): Pitch, Yaw and Roll in degrees; the constructor takes them
in this order. -/
structure FRotator where
  Pitch : ℚ
  Yaw : ℚ
  Roll : ℚ
deriving DecidableEq

namespace FRotator

/-- `FRotator::operator==` (Rotator.h): the stored values are compared as they are. -/
def eq (r R : FRotator) : Bool :=
  decide (r.Pitch = R.Pitch) && decide (r.Yaw = R.Yaw) && decide (r.Roll = R.Roll)

/-- `FRotator::operator!=` (Rotator.h). -/
def ne (r V : FRotator) : Bool :=
  decide (r.Pitch ≠ V.Pitch) || decide (r.Yaw ≠ V.Yaw) || decide (r.Roll ≠ V.Roll)

/-- `FRotator::ClampAxis` (Rotator.h), read over exact arithmetic: the sum `Angle + 360` is
not rounded. `Rounded.FRotator.ClampAxis` is the same function with the sum rounded, as the
`float` addition `Angle += 360.f` is. -/
def ClampAxis (Angle : ℚ) : ℚ :=
  -- returns Angle in the range (-360,360)
  let Angle := FMath.Fmod Angle 360
  if Angle < 0 then
    -- shift to [0,360) range
    Angle + 360
  else
    Angle

/-- `FRotator::NormalizeAxis` (Rotator.h), read over exact arithmetic;
`Rounded.FRotator.NormalizeAxis` is the same function in rounded arithmetic. -/
def NormalizeAxis (Angle : ℚ) : ℚ :=
  -- returns Angle in the range [0,360)
  let Angle := ClampAxis Angle
  if Angle > 180 then
    -- shift to (-180,180]
    Angle - 360
  else
    Angle

/-- `FRotator::Equals` (Rotator.h), scalar branch. -/
def Equals (r R : FRotator) (Tolerance : ℚ) : Bool :=
  decide (FMath.Abs (NormalizeAxis (r.Pitch - R.Pitch)) ≤ Tolerance)
    && decide (FMath.Abs (NormalizeAxis (r.Yaw - R.Yaw)) ≤ Tolerance)
    && decide (FMath.Abs (NormalizeAxis (r.Roll - R.Roll)) ≤ Tolerance)

/-- `FRotator::GetEquivalentRotator` (Rotator.h). -/
def GetEquivalentRotator (r : FRotator) : FRotator :=
  ⟨180 - r.Pitch, r.Yaw + 180, r.Roll + 180⟩

/-- `FRotator::operator+` (Rotator.h). -/
def add (r R : FRotator) : FRotator :=
  ⟨r.Pitch + R.Pitch, r.Yaw + R.Yaw, r.Roll + R.Roll⟩

/-- `FRotator::operator-` (Rotator.h). -/
def sub (r R : FRotator) : FRotator :=
  ⟨r.Pitch - R.Pitch, r.Yaw - R.Yaw, r.Roll - R.Roll⟩

/-- `FRotator::operator*` by a scalar (Rotator.h). -/
def scale (r : FRotator) (Scale : ℚ) : FRotator :=
  ⟨r.Pitch * Scale, r.Yaw * Scale, r.Roll * Scale⟩

/-- `FRotator::Normalize` (Rotator.h), scalar branch; returns the new value of the rotator. -/
def Normalize (r : FRotator) : FRotator :=
  let r : FRotator := ⟨NormalizeAxis r.Pitch, r.Yaw, r.Roll⟩
  let r : FRotator := ⟨r.Pitch, NormalizeAxis r.Yaw, r.Roll⟩
  let r : FRotator := ⟨r.Pitch, r.Yaw, NormalizeAxis r.Roll⟩
  r

/-- `FRotator::GetNormalized` (Rotator.h). -/
def GetNormalized (r : FRotator) : FRotator :=
  let Rot := r
  Rot.Normalize

/-- `FRotator::GetManhattanDistance` (Rotator.h). -/
def GetManhattanDistance (r Rotator : FRotator) : ℚ :=
  FMath.Abs (r.Yaw - Rotator.Yaw) + FMath.Abs (r.Pitch - Rotator.Pitch)
    + FMath.Abs (r.Roll - Rotator.Roll)

/-- `FRotator::SetClosestToMe` (Rotator.h): a `const` member that writes its reference
argument; returns the new value of `MakeClosest`. -/
def SetClosestToMe (r MakeClosest : FRotator) : FRotator :=
  let OtherChoice := MakeClosest.GetEquivalentRotator
  let FirstDiff := r.GetManhattanDistance MakeClosest
  let SecondDiff := r.GetManhattanDistance OtherChoice
  if SecondDiff < FirstDiff then
    OtherChoice
  else
    MakeClosest

/-- `FRotator::CompressAxisToByte` (Rotator.h), read over exact arithmetic: the product and
the quotient are not rounded and the `int32` is an unbounded integer, which agrees with the
source where `Angle * 256.f / 360.f` is computed without rounding and fits an `int32`
(`Rounded.FRotator.CompressAxisToByte` rounds them). The `uint8` result is a natural number
below 256; `& 0xFF` on the two-complement `int32` is the remainder modulo 256. -/
def CompressAxisToByte (Angle : ℚ) : ℕ :=
  -- map [0->360) to [0->256) and mask off any winding
  (FMath.RoundToInt (Angle * 256 / 360) % 256).toNat

/-- `FRotator::DecompressAxisFromByte` (Rotator.h). -/
def DecompressAxisFromByte (Angle : ℕ) : ℚ :=
  -- map [0->256) to [0->360)
  (Angle : ℚ) * 360 / 256

/-- `FRotator::CompressAxisToShort` (Rotator.h), read over exact arithmetic: the product and
the quotient are not rounded and the `int32` is an unbounded integer, which agrees with the
source where `Angle * 65536.f / 360.f` is computed without rounding and fits an `int32`
(`Rounded.FRotator.CompressAxisToShort` rounds them). The `uint16` result is a natural number
below 65536; `& 0xFFFF` is the remainder modulo 65536. -/
def CompressAxisToShort (Angle : ℚ) : ℕ :=
  -- map [0->360) to [0->65536) and mask off any winding
  (FMath.RoundToInt (Angle * 65536 / 360) % 65536).toNat

/-- `FRotator::DecompressAxisFromShort` (Rotator.h). -/
def DecompressAxisFromShort (Angle : ℕ) : ℚ :=
  -- map [0->65536) to [0->360)
  (Angle : ℚ) * 360 / 65536

end FRotator

/-- `FMath::Lerp` for rotators (Rotator.h). -/
def FMath.Lerp (A B : FRotator) (Alpha : ℚ) : FRotator :=
  A.add (((B.sub A).GetNormalized).scale Alpha)

/-- `FMath::LerpRange` for rotators (Rotator.h). -/
def FMath.LerpRange (A B : FRotator) (Alpha : ℚ) : FRotator :=
  -- Similar to Lerp, but does not take the shortest path.
  ((A.scale (1 - Alpha)).add (B.scale Alpha)).GetNormalized

/-! ## Rounded arithmetic

The definitions above read `float` and `double` as exact rationals. The definitions of this
section take a rounding function `rnd : ℚ → ℚ` and pass the result of every floating-point
operation of the source through it. With `rnd = id` they are the exact reading; with
`rnd = F32.round` they compute what the `float` code computes in IEEE 754 binary32 (round to
nearest, ties to even, gradual underflow), and with `rnd = F64.round` what `double` code
computes in binary64. A finite floating-point value is a rational number, and comparisons,
negation and `FMath::Abs` are exact. Overflow to infinity is not represented: the inputs used
below stay far from it. -/

/-- Rounding of a rational to the nearest integer, ties to the even one. -/
def roundHalfEven (x : ℚ) : ℤ :=
  if x - (⌊x⌋ : ℚ) < 1 / 2 then ⌊x⌋
  else if 1 / 2 < x - (⌊x⌋ : ℚ) then ⌊x⌋ + 1
  else if ⌊x⌋ % 2 = 0 then ⌊x⌋ else ⌊x⌋ + 1

/-- The exponent of the unit in the last place at `q`, in the binary format with `p` bits of
precision and least normal exponent `emin`: `q` lies in the binade of `2 ^ Int.log 2 |q|`,
and below `2 ^ emin` the spacing is that of the subnormal numbers. -/
def ulpExponent (p : ℕ) (emin : ℤ) (q : ℚ) : ℤ :=
  max (Int.log 2 |q|) emin - ((p : ℤ) - 1)

/-- Rounding to the nearest value of the binary format with `p` bits of precision and least
normal exponent `emin`, ties to even. -/
def roundTo (p : ℕ) (emin : ℤ) (q : ℚ) : ℚ :=
  (roundHalfEven (q / (2 : ℚ) ^ ulpExponent p emin q) : ℚ) * (2 : ℚ) ^ ulpExponent p emin q

/-- Rounding to IEEE 754 binary32 (`float`): 24 bits of precision, least normal exponent
`-126`. -/
def F32.round (q : ℚ) : ℚ := roundTo 24 (-126) q

/-- Rounding to IEEE 754 binary64 (`double`): 53 bits of precision, least normal exponent
`-1022`. -/
def F64.round (q : ℚ) : ℚ := roundTo 53 (-1022) q

/-- `FRotator::ClampAxis` (Rotator.h) with the addition rounded. `FMath::Fmod` is exact, as
the C function `fmodf` is: its result is a value of the format. -/
def Rounded.FRotator.ClampAxis (rnd : ℚ → ℚ) (Angle : ℚ) : ℚ :=
  -- returns Angle in the range (-360,360)
  let Angle := FMath.Fmod Angle 360
  if Angle < 0 then
    -- shift to [0,360) range
    rnd (Angle + 360)
  else
    Angle

/-- `FRotator::NormalizeAxis` (Rotator.h) with the subtraction rounded. -/
def Rounded.FRotator.NormalizeAxis (rnd : ℚ → ℚ) (Angle : ℚ) : ℚ :=
  -- returns Angle in the range [0,360)
  let Angle := Rounded.FRotator.ClampAxis rnd Angle
  if Angle > 180 then
    -- shift to (-180,180]
    rnd (Angle - 360)
  else
    Angle

/-- `FRotator::Equals` (Rotator.h), scalar branch, with the three subtractions rounded. -/
def Rounded.FRotator.Equals (rnd : ℚ → ℚ) (r R : FRotator) (Tolerance : ℚ) : Bool :=
  decide (FMath.Abs (Rounded.FRotator.NormalizeAxis rnd (rnd (r.Pitch - R.Pitch))) ≤ Tolerance)
    && decide (FMath.Abs (Rounded.FRotator.NormalizeAxis rnd (rnd (r.Yaw - R.Yaw))) ≤ Tolerance)
    && decide (FMath.Abs (Rounded.FRotator.NormalizeAxis rnd (rnd (r.Roll - R.Roll)))
        ≤ Tolerance)

/-- `FRotator::GetEquivalentRotator` (Rotator.h) with the three operations rounded. -/
def Rounded.FRotator.GetEquivalentRotator (rnd : ℚ → ℚ) (r : FRotator) : FRotator :=
  ⟨rnd (180 - r.Pitch), rnd (r.Yaw + 180), rnd (r.Roll + 180)⟩

/-- `FRotator::operator+` (Rotator.h) with the three additions rounded. -/
def Rounded.FRotator.add (rnd : ℚ → ℚ) (r R : FRotator) : FRotator :=
  ⟨rnd (r.Pitch + R.Pitch), rnd (r.Yaw + R.Yaw), rnd (r.Roll + R.Roll)⟩

/-- `FRotator::operator-` (Rotator.h) with the three subtractions rounded. -/
def Rounded.FRotator.sub (rnd : ℚ → ℚ) (r R : FRotator) : FRotator :=
  ⟨rnd (r.Pitch - R.Pitch), rnd (r.Yaw - R.Yaw), rnd (r.Roll - R.Roll)⟩

/-- `FRotator::operator*` by a scalar (Rotator.h) with the three products rounded. -/
def Rounded.FRotator.scale (rnd : ℚ → ℚ) (r : FRotator) (Scale : ℚ) : FRotator :=
  ⟨rnd (r.Pitch * Scale), rnd (r.Yaw * Scale), rnd (r.Roll * Scale)⟩

/-- `FRotator::Normalize` (Rotator.h), scalar branch, over the rounded `NormalizeAxis`. -/
def Rounded.FRotator.Normalize (rnd : ℚ → ℚ) (r : FRotator) : FRotator :=
  let r : FRotator := ⟨Rounded.FRotator.NormalizeAxis rnd r.Pitch, r.Yaw, r.Roll⟩
  let r : FRotator := ⟨r.Pitch, Rounded.FRotator.NormalizeAxis rnd r.Yaw, r.Roll⟩
  let r : FRotator := ⟨r.Pitch, r.Yaw, Rounded.FRotator.NormalizeAxis rnd r.Roll⟩
  r

/-- `FRotator::GetNormalized` (Rotator.h) over the rounded `Normalize`. -/
def Rounded.FRotator.GetNormalized (rnd : ℚ → ℚ) (r : FRotator) : FRotator :=
  let Rot := r
  Rounded.FRotator.Normalize rnd Rot

/-- `FMath::Lerp` for rotators (Rotator.h) over the rounded operators. -/
def Rounded.FMath.Lerp (rnd : ℚ → ℚ) (A B : FRotator) (Alpha : ℚ) : FRotator :=
  Rounded.FRotator.add rnd A
    (Rounded.FRotator.scale rnd
      (Rounded.FRotator.GetNormalized rnd (Rounded.FRotator.sub rnd B A)) Alpha)

/-- `FMatrix::Determinant` (Matrix.h) with every product, difference and sum rounded, in the
order the expression is evaluated. -/
def Rounded.FMatrix.Determinant (rnd : ℚ → ℚ) (m : FMatrix) : ℚ :=
  rnd (rnd (rnd (
    rnd (m.M 0 0 * rnd (rnd (
      rnd (m.M 1 1 * rnd (rnd (m.M 2 2 * m.M 3 3) - rnd (m.M 2 3 * m.M 3 2))) -
      rnd (m.M 2 1 * rnd (rnd (m.M 1 2 * m.M 3 3) - rnd (m.M 1 3 * m.M 3 2)))) +
      rnd (m.M 3 1 * rnd (rnd (m.M 1 2 * m.M 2 3) - rnd (m.M 1 3 * m.M 2 2))))) -
    rnd (m.M 1 0 * rnd (rnd (
      rnd (m.M 0 1 * rnd (rnd (m.M 2 2 * m.M 3 3) - rnd (m.M 2 3 * m.M 3 2))) -
      rnd (m.M 2 1 * rnd (rnd (m.M 0 2 * m.M 3 3) - rnd (m.M 0 3 * m.M 3 2)))) +
      rnd (m.M 3 1 * rnd (rnd (m.M 0 2 * m.M 2 3) - rnd (m.M 0 3 * m.M 2 2)))))) +
    rnd (m.M 2 0 * rnd (rnd (
      rnd (m.M 0 1 * rnd (rnd (m.M 1 2 * m.M 3 3) - rnd (m.M 1 3 * m.M 3 2))) -
      rnd (m.M 1 1 * rnd (rnd (m.M 0 2 * m.M 3 3) - rnd (m.M 0 3 * m.M 3 2)))) +
      rnd (m.M 3 1 * rnd (rnd (m.M 0 2 * m.M 1 3) - rnd (m.M 0 3 * m.M 1 2)))))) -
    rnd (m.M 3 0 * rnd (rnd (
      rnd (m.M 0 1 * rnd (rnd (m.M 1 2 * m.M 2 3) - rnd (m.M 1 3 * m.M 2 2))) -
      rnd (m.M 1 1 * rnd (rnd (m.M 0 2 * m.M 2 3) - rnd (m.M 0 3 * m.M 2 2)))) +
      rnd (m.M 2 1 * rnd (rnd (m.M 0 2 * m.M 1 3) - rnd (m.M 0 3 * m.M 1 2))))))

/-- `FMatrix::RotDeterminant` (Matrix.h) with every product, difference and sum rounded. -/
def Rounded.FMatrix.RotDeterminant (rnd : ℚ → ℚ) (m : FMatrix) : ℚ :=
  rnd (rnd (
    rnd (m.M 0 0 * rnd (rnd (m.M 1 1 * m.M 2 2) - rnd (m.M 1 2 * m.M 2 1))) -
    rnd (m.M 1 0 * rnd (rnd (m.M 0 1 * m.M 2 2) - rnd (m.M 0 2 * m.M 2 1)))) +
    rnd (m.M 2 0 * rnd (rnd (m.M 0 1 * m.M 1 2) - rnd (m.M 0 2 * m.M 1 1))))

/-- `FMatrix::TransposeAdjoint` (Matrix.h) with every product and difference rounded. -/
def Rounded.FMatrix.TransposeAdjoint (rnd : ℚ → ℚ) (m : FMatrix) : FMatrix :=
  ⟨![![rnd (rnd (m.M 1 1 * m.M 2 2) - rnd (m.M 1 2 * m.M 2 1)),
       rnd (rnd (m.M 1 2 * m.M 2 0) - rnd (m.M 1 0 * m.M 2 2)),
       rnd (rnd (m.M 1 0 * m.M 2 1) - rnd (m.M 1 1 * m.M 2 0)),
       0],
     ![rnd (rnd (m.M 2 1 * m.M 0 2) - rnd (m.M 2 2 * m.M 0 1)),
       rnd (rnd (m.M 2 2 * m.M 0 0) - rnd (m.M 2 0 * m.M 0 2)),
       rnd (rnd (m.M 2 0 * m.M 0 1) - rnd (m.M 2 1 * m.M 0 0)),
       0],
     ![rnd (rnd (m.M 0 1 * m.M 1 2) - rnd (m.M 0 2 * m.M 1 1)),
       rnd (rnd (m.M 0 2 * m.M 1 0) - rnd (m.M 0 0 * m.M 1 2)),
       rnd (rnd (m.M 0 0 * m.M 1 1) - rnd (m.M 0 1 * m.M 1 0)),
       0],
     ![0,
       0,
       0,
       1]]⟩

/-- Modelled from the spec: `FVector::IsNearlyZero` of `Math/Vector.h`, which is not among the
sources (see `FVector.IsNearlyZero`), with the squared length computed in rounded
arithmetic. -/
def Rounded.FVector.IsNearlyZero (rnd : ℚ → ℚ) (V : FVector) (Tolerance : ℚ) : Bool :=
  decide (rnd (rnd (rnd (V.X * V.X) + rnd (V.Y * V.Y)) + rnd (V.Z * V.Z)) < Tolerance)

/-- `FMatrix::Inverse` (Matrix.h) over the rounded `Determinant`. `VectorMatrixInverse` is
declared in the vector-intrinsics header, which is not among the sources: here it is a
parameter. -/
def Rounded.FMatrix.Inverse (rnd : ℚ → ℚ) (VectorMatrixInverse : FMatrix → FMatrix)
    (m : FMatrix) : FMatrix :=
  if Rounded.FVector.IsNearlyZero rnd (m.GetScaledAxis EAxis.X) SMALL_NUMBER &&
     Rounded.FVector.IsNearlyZero rnd (m.GetScaledAxis EAxis.Y) SMALL_NUMBER &&
     Rounded.FVector.IsNearlyZero rnd (m.GetScaledAxis EAxis.Z) SMALL_NUMBER then
    -- just set to zero - avoids unsafe inverse of zero
    FMatrix.Identity
  else
    let Det := Rounded.FMatrix.Determinant rnd m
    if Det = 0 then
      FMatrix.Identity
    else
      VectorMatrixInverse m

/-- Modelled from the spec: `VectorMatrixMultiply` of the vector-intrinsics header, which is
not among the sources (see `VectorMatrixMultiply`), with every product and sum rounded, the
four products of an entry added from left to right. -/
def Rounded.VectorMatrixMultiply (rnd : ℚ → ℚ) (Matrix1 Matrix2 : FMatrix) : FMatrix :=
  ⟨fun i j =>
    rnd (rnd (rnd (rnd (Matrix1.M i 0 * Matrix2.M 0 j) + rnd (Matrix1.M i 1 * Matrix2.M 1 j))
      + rnd (Matrix1.M i 2 * Matrix2.M 2 j)) + rnd (Matrix1.M i 3 * Matrix2.M 3 j))⟩

/-- The adjugate entries `inv[0..15]` of `Inverse4x4` (Matrix.h) with every product,
difference and sum rounded, in the order the expressions are evaluated; the conversions
`(double)(src[k])` are exact. -/
def Rounded.Inverse4x4.inv (rnd : ℚ → ℚ) (src : Fin 16 → ℚ) : Fin 16 → ℚ :=
  let s0 := src 0; let s1 := src 1; let s2 := src 2; let s3 := src 3
  let s4 := src 4; let s5 := src 5; let s6 := src 6; let s7 := src 7
  let s8 := src 8; let s9 := src 9; let s10 := src 10; let s11 := src 11
  let s12 := src 12; let s13 := src 13; let s14 := src 14; let s15 := src 15
  ![rnd (rnd (rnd (rnd (rnd (rnd (rnd (s5 * s10) * s15) - rnd (rnd (s5 * s11) * s14)) - rnd (rnd (s9 * s6) * s15)) + rnd (rnd (s9 * s7) * s14)) + rnd (rnd (s13 * s6) * s11)) - rnd (rnd (s13 * s7) * s10)),
    rnd (rnd (rnd (rnd (rnd (rnd (rnd (-s1 * s10) * s15) + rnd (rnd (s1 * s11) * s14)) + rnd (rnd (s9 * s2) * s15)) - rnd (rnd (s9 * s3) * s14)) - rnd (rnd (s13 * s2) * s11)) + rnd (rnd (s13 * s3) * s10)),
    rnd (rnd (rnd (rnd (rnd (rnd (rnd (s1 * s6) * s15) - rnd (rnd (s1 * s7) * s14)) - rnd (rnd (s5 * s2) * s15)) + rnd (rnd (s5 * s3) * s14)) + rnd (rnd (s13 * s2) * s7)) - rnd (rnd (s13 * s3) * s6)),
    rnd (rnd (rnd (rnd (rnd (rnd (rnd (-s1 * s6) * s11) + rnd (rnd (s1 * s7) * s10)) + rnd (rnd (s5 * s2) * s11)) - rnd (rnd (s5 * s3) * s10)) - rnd (rnd (s9 * s2) * s7)) + rnd (rnd (s9 * s3) * s6)),
    rnd (rnd (rnd (rnd (rnd (rnd (rnd (-s4 * s10) * s15) + rnd (rnd (s4 * s11) * s14)) + rnd (rnd (s8 * s6) * s15)) - rnd (rnd (s8 * s7) * s14)) - rnd (rnd (s12 * s6) * s11)) + rnd (rnd (s12 * s7) * s10)),
    rnd (rnd (rnd (rnd (rnd (rnd (rnd (s0 * s10) * s15) - rnd (rnd (s0 * s11) * s14)) - rnd (rnd (s8 * s2) * s15)) + rnd (rnd (s8 * s3) * s14)) + rnd (rnd (s12 * s2) * s11)) - rnd (rnd (s12 * s3) * s10)),
    rnd (rnd (rnd (rnd (rnd (rnd (rnd (-s0 * s6) * s15) + rnd (rnd (s0 * s7) * s14)) + rnd (rnd (s4 * s2) * s15)) - rnd (rnd (s4 * s3) * s14)) - rnd (rnd (s12 * s2) * s7)) + rnd (rnd (s12 * s3) * s6)),
    rnd (rnd (rnd (rnd (rnd (rnd (rnd (s0 * s6) * s11) - rnd (rnd (s0 * s7) * s10)) - rnd (rnd (s4 * s2) * s11)) + rnd (rnd (s4 * s3) * s10)) + rnd (rnd (s8 * s2) * s7)) - rnd (rnd (s8 * s3) * s6)),
    rnd (rnd (rnd (rnd (rnd (rnd (rnd (s4 * s9) * s15) - rnd (rnd (s4 * s11) * s13)) - rnd (rnd (s8 * s5) * s15)) + rnd (rnd (s8 * s7) * s13)) + rnd (rnd (s12 * s5) * s11)) - rnd (rnd (s12 * s7) * s9)),
    rnd (rnd (rnd (rnd (rnd (rnd (rnd (-s0 * s9) * s15) + rnd (rnd (s0 * s11) * s13)) + rnd (rnd (s8 * s1) * s15)) - rnd (rnd (s8 * s3) * s13)) - rnd (rnd (s12 * s1) * s11)) + rnd (rnd (s12 * s3) * s9)),
    rnd (rnd (rnd (rnd (rnd (rnd (rnd (s0 * s5) * s15) - rnd (rnd (s0 * s7) * s13)) - rnd (rnd (s4 * s1) * s15)) + rnd (rnd (s4 * s3) * s13)) + rnd (rnd (s12 * s1) * s7)) - rnd (rnd (s12 * s3) * s5)),
    rnd (rnd (rnd (rnd (rnd (rnd (rnd (-s0 * s5) * s11) + rnd (rnd (s0 * s7) * s9)) + rnd (rnd (s4 * s1) * s11)) - rnd (rnd (s4 * s3) * s9)) - rnd (rnd (s8 * s1) * s7)) + rnd (rnd (s8 * s3) * s5)),
    rnd (rnd (rnd (rnd (rnd (rnd (rnd (-s4 * s9) * s14) + rnd (rnd (s4 * s10) * s13)) + rnd (rnd (s8 * s5) * s14)) - rnd (rnd (s8 * s6) * s13)) - rnd (rnd (s12 * s5) * s10)) + rnd (rnd (s12 * s6) * s9)),
    rnd (rnd (rnd (rnd (rnd (rnd (rnd (s0 * s9) * s14) - rnd (rnd (s0 * s10) * s13)) - rnd (rnd (s8 * s1) * s14)) + rnd (rnd (s8 * s2) * s13)) + rnd (rnd (s12 * s1) * s10)) - rnd (rnd (s12 * s2) * s9)),
    rnd (rnd (rnd (rnd (rnd (rnd (rnd (-s0 * s5) * s14) + rnd (rnd (s0 * s6) * s13)) + rnd (rnd (s4 * s1) * s14)) - rnd (rnd (s4 * s2) * s13)) - rnd (rnd (s12 * s1) * s6)) + rnd (rnd (s12 * s2) * s5)),
    rnd (rnd (rnd (rnd (rnd (rnd (rnd (s0 * s5) * s10) - rnd (rnd (s0 * s6) * s9)) - rnd (rnd (s4 * s1) * s10)) + rnd (rnd (s4 * s2) * s9)) + rnd (rnd (s8 * s1) * s6)) - rnd (rnd (s8 * s2) * s5))]

/-- The determinant `det` of `Inverse4x4` (Matrix.h) as it is first computed,
`s0 * inv[0] + s1 * inv[4] + s2 * inv[8] + s3 * inv[12]`, in rounded arithmetic. -/
def Rounded.Inverse4x4.det (rnd : ℚ → ℚ) (src : Fin 16 → ℚ) : ℚ :=
  let inv := Rounded.Inverse4x4.inv rnd src
  rnd (rnd (rnd (rnd (src 0 * inv 0) + rnd (src 1 * inv 4)) + rnd (src 2 * inv 8))
    + rnd (src 3 * inv 12))

/-- The division `1.0 / det` as a partial operation: it has no value when the divisor is
zero. -/
def Rounded.reciprocal (rnd : ℚ → ℚ) (det : ℚ) : Option ℚ :=
  if det = 0 then none else some (rnd (1 / det))

/-- `Inverse4x4` (Matrix.h) in rounded arithmetic, with the division as a partial operation:
the result is `none` when the code divides by zero, and the sixteen entries of `dst`
otherwise. -/
def Rounded.Inverse4x4 (rnd : ℚ → ℚ) (src : Fin 16 → ℚ) : Option (Fin 16 → ℚ) :=
  let inv := Rounded.Inverse4x4.inv rnd src
  let det := Rounded.Inverse4x4.det rnd src
  let det := if det ≠ 0 then Rounded.reciprocal rnd det else some det
  det.map fun det => fun i => rnd (inv i * det)

/-- `FMath::LerpRange` for rotators (Rotator.h) over the rounded operators, the difference
`1 - Alpha` rounded. -/
def Rounded.FMath.LerpRange (rnd : ℚ → ℚ) (A B : FRotator) (Alpha : ℚ) : FRotator :=
  -- Similar to Lerp, but does not take the shortest path.
  Rounded.FRotator.GetNormalized rnd
    (Rounded.FRotator.add rnd (Rounded.FRotator.scale rnd A (rnd (1 - Alpha)))
      (Rounded.FRotator.scale rnd B Alpha))

/-- `FRotator::CompressAxisToByte` (Rotator.h) with the product and the quotient rounded. The
conversion to `int32` is taken for values that fit an `int32`. -/
def Rounded.FRotator.CompressAxisToByte (rnd : ℚ → ℚ) (Angle : ℚ) : ℕ :=
  -- map [0->360) to [0->256) and mask off any winding
  (FMath.RoundToInt (rnd (rnd (Angle * 256) / 360)) % 256).toNat

/-- `FRotator::DecompressAxisFromByte` (Rotator.h) with the product and the quotient
rounded. -/
def Rounded.FRotator.DecompressAxisFromByte (rnd : ℚ → ℚ) (Angle : ℕ) : ℚ :=
  -- map [0->256) to [0->360)
  rnd (rnd ((Angle : ℚ) * 360) / 256)

/-- `FRotator::CompressAxisToShort` (Rotator.h) with the product and the quotient rounded. The
conversion to `int32` is taken for values that fit an `int32`. -/
def Rounded.FRotator.CompressAxisToShort (rnd : ℚ → ℚ) (Angle : ℚ) : ℕ :=
  -- map [0->360) to [0->65536) and mask off any winding
  (FMath.RoundToInt (rnd (rnd (Angle * 65536) / 360)) % 65536).toNat

/-- `FRotator::DecompressAxisFromShort` (Rotator.h) with the product and the quotient
rounded. -/
def Rounded.FRotator.DecompressAxisFromShort (rnd : ℚ → ℚ) (Angle : ℕ) : ℚ :=
  -- map [0->65536) to [0->360)
  rnd (rnd ((Angle : ℚ) * 360) / 65536)

/-! ## Sample values -/

/-- An invertible affine matrix: a shear and non-uniform scale with a translation row. -/
def sampleAffine : FMatrix :=
  ⟨![![2, 0, 0, 0],
     ![1, 1, 0, 0],
     ![0, 0, 4, 0],
     ![3, 5, 7, 1]]⟩

/-- The uniform scale by `1e-5`: every scaled axis has squared length `1e-10`. -/
def sampleSmallScale : FMatrix :=
  ⟨![![1 / 100000, 0, 0, 0],
     ![0, 1 / 100000, 0, 0],
     ![0, 0, 1 / 100000, 0],
     ![0, 0, 0, 1]]⟩

/-- A singular matrix with axes of ordinary size: row 1 is twice row 0. -/
def sampleSingular : FMatrix :=
  ⟨![![1, 2, 3, 0],
     ![2, 4, 6, 0],
     ![0, 0, 1, 0],
     ![0, 0, 0, 1]]⟩

/-- A square-root table, exact at the squared lengths the samples below use (4, 9 and 25);
it stands for `FMath::Sqrt` where a sample is evaluated. -/
def sampleSqrt (x : ℚ) : ℚ :=
  if x = 4 then 2 else if x = 9 then 3 else if x = 25 then 5 else 0

/-- The reciprocal of `sampleSqrt`; it stands for `FMath::InvSqrt` where a sample is
evaluated. -/
def sampleInvSqrt (x : ℚ) : ℚ := 1 / sampleSqrt x

/-- The uniform scale by 2: every scaled axis has squared length 4. -/
def sampleUniform2 : FMatrix :=
  ⟨![![2, 0, 0, 0],
     ![0, 2, 0, 0],
     ![0, 0, 2, 0],
     ![0, 0, 0, 1]]⟩

/-- The function `sampleInvSqrt` extended by the value 1 at 1; it stands for `FMath::InvSqrt`
where a sample with unit vectors is evaluated. -/
def sampleInvSqrtUnit (x : ℚ) : ℚ := if x = 1 then 1 else sampleInvSqrt x

/-- A matrix with sixteen different entries. -/
def sampleDistinct : FMatrix :=
  ⟨![![1, 2, 3, 4],
     ![5, 6, 7, 8],
     ![9, 10, 11, 12],
     ![13, 14, 15, 16]]⟩

/-- The diagonal matrix with entries `1, 2^-80, 2^-80, 1`: its determinant, `2^-160`, is
not zero and is below the least positive binary32 number, `2^-149`. -/
def sampleUnderflow : FMatrix :=
  ⟨![![1, 0, 0, 0],
     ![0, 1 / 2 ^ 80, 0, 0],
     ![0, 0, 1 / 2 ^ 80, 0],
     ![0, 0, 0, 1]]⟩

/-- A matrix of small integers whose upper 3x3 block has determinant `-1`, the difference of
the products `10000 * 10002` and `10001 * 10001`. -/
def sampleCancel : FMatrix :=
  ⟨![![10000, 10001, 0, 0],
     ![10001, 10002, 0, 0],
     ![0, 0, 1, 0],
     ![0, 0, 0, 1]]⟩

/-- A singular source of sixteen `float` entries: rows 0 and 1 are equal. -/
def sampleSingularFloat : Fin 16 → ℚ :=
  ![8388611, 3, 0, 0,
    8388611, 3, 0, 0,
    0, 0, 65537, 0,
    0, 0, 0, 65537]

section Flat
variable (a0 a1 a2 a3 a4 a5 a6 a7 a8 a9 a10 a11 a12 a13 a14 a15 : ℚ)

theorem vec16_0 : (![a0, a1, a2, a3, a4, a5, a6, a7, a8, a9, a10, a11, a12, a13, a14, a15] : Fin 16 → ℚ) 0 = a0 := rfl
theorem vec16_1 : (![a0, a1, a2, a3, a4, a5, a6, a7, a8, a9, a10, a11, a12, a13, a14, a15] : Fin 16 → ℚ) 1 = a1 := rfl
theorem vec16_2 : (![a0, a1, a2, a3, a4, a5, a6, a7, a8, a9, a10, a11, a12, a13, a14, a15] : Fin 16 → ℚ) 2 = a2 := rfl
theorem vec16_3 : (![a0, a1, a2, a3, a4, a5, a6, a7, a8, a9, a10, a11, a12, a13, a14, a15] : Fin 16 → ℚ) 3 = a3 := rfl
theorem vec16_4 : (![a0, a1, a2, a3, a4, a5, a6, a7, a8, a9, a10, a11, a12, a13, a14, a15] : Fin 16 → ℚ) 4 = a4 := rfl
theorem vec16_5 : (![a0, a1, a2, a3, a4, a5, a6, a7, a8, a9, a10, a11, a12, a13, a14, a15] : Fin 16 → ℚ) 5 = a5 := rfl
theorem vec16_6 : (![a0, a1, a2, a3, a4, a5, a6, a7, a8, a9, a10, a11, a12, a13, a14, a15] : Fin 16 → ℚ) 6 = a6 := rfl
theorem vec16_7 : (![a0, a1, a2, a3, a4, a5, a6, a7, a8, a9, a10, a11, a12, a13, a14, a15] : Fin 16 → ℚ) 7 = a7 := rfl
theorem vec16_8 : (![a0, a1, a2, a3, a4, a5, a6, a7, a8, a9, a10, a11, a12, a13, a14, a15] : Fin 16 → ℚ) 8 = a8 := rfl
theorem vec16_9 : (![a0, a1, a2, a3, a4, a5, a6, a7, a8, a9, a10, a11, a12, a13, a14, a15] : Fin 16 → ℚ) 9 = a9 := rfl
theorem vec16_10 : (![a0, a1, a2, a3, a4, a5, a6, a7, a8, a9, a10, a11, a12, a13, a14, a15] : Fin 16 → ℚ) 10 = a10 := rfl
theorem vec16_11 : (![a0, a1, a2, a3, a4, a5, a6, a7, a8, a9, a10, a11, a12, a13, a14, a15] : Fin 16 → ℚ) 11 = a11 := rfl
theorem vec16_12 : (![a0, a1, a2, a3, a4, a5, a6, a7, a8, a9, a10, a11, a12, a13, a14, a15] : Fin 16 → ℚ) 12 = a12 := rfl
theorem vec16_13 : (![a0, a1, a2, a3, a4, a5, a6, a7, a8, a9, a10, a11, a12, a13, a14, a15] : Fin 16 → ℚ) 13 = a13 := rfl
theorem vec16_14 : (![a0, a1, a2, a3, a4, a5, a6, a7, a8, a9, a10, a11, a12, a13, a14, a15] : Fin 16 → ℚ) 14 = a14 := rfl
theorem vec16_15 : (![a0, a1, a2, a3, a4, a5, a6, a7, a8, a9, a10, a11, a12, a13, a14, a15] : Fin 16 → ℚ) 15 = a15 := rfl

end Flat

theorem flat_0 (m : FMatrix) : m.flat 0 = m.M 0 0 := rfl
theorem flat_1 (m : FMatrix) : m.flat 1 = m.M 0 1 := rfl
theorem flat_2 (m : FMatrix) : m.flat 2 = m.M 0 2 := rfl
theorem flat_3 (m : FMatrix) : m.flat 3 = m.M 0 3 := rfl
theorem flat_4 (m : FMatrix) : m.flat 4 = m.M 1 0 := rfl
theorem flat_5 (m : FMatrix) : m.flat 5 = m.M 1 1 := rfl
theorem flat_6 (m : FMatrix) : m.flat 6 = m.M 1 2 := rfl
theorem flat_7 (m : FMatrix) : m.flat 7 = m.M 1 3 := rfl
theorem flat_8 (m : FMatrix) : m.flat 8 = m.M 2 0 := rfl
theorem flat_9 (m : FMatrix) : m.flat 9 = m.M 2 1 := rfl
theorem flat_10 (m : FMatrix) : m.flat 10 = m.M 2 2 := rfl
theorem flat_11 (m : FMatrix) : m.flat 11 = m.M 2 3 := rfl
theorem flat_12 (m : FMatrix) : m.flat 12 = m.M 3 0 := rfl
theorem flat_13 (m : FMatrix) : m.flat 13 = m.M 3 1 := rfl
theorem flat_14 (m : FMatrix) : m.flat 14 = m.M 3 2 := rfl
theorem flat_15 (m : FMatrix) : m.flat 15 = m.M 3 3 := rfl

theorem ofFlat_0 (d : Fin 16 → ℚ) : (FMatrix.ofFlat d).M 0 0 = d 0 := rfl
theorem ofFlat_1 (d : Fin 16 → ℚ) : (FMatrix.ofFlat d).M 0 1 = d 1 := rfl
theorem ofFlat_2 (d : Fin 16 → ℚ) : (FMatrix.ofFlat d).M 0 2 = d 2 := rfl
theorem ofFlat_3 (d : Fin 16 → ℚ) : (FMatrix.ofFlat d).M 0 3 = d 3 := rfl
theorem ofFlat_4 (d : Fin 16 → ℚ) : (FMatrix.ofFlat d).M 1 0 = d 4 := rfl
theorem ofFlat_5 (d : Fin 16 → ℚ) : (FMatrix.ofFlat d).M 1 1 = d 5 := rfl
theorem ofFlat_6 (d : Fin 16 → ℚ) : (FMatrix.ofFlat d).M 1 2 = d 6 := rfl
theorem ofFlat_7 (d : Fin 16 → ℚ) : (FMatrix.ofFlat d).M 1 3 = d 7 := rfl
theorem ofFlat_8 (d : Fin 16 → ℚ) : (FMatrix.ofFlat d).M 2 0 = d 8 := rfl
theorem ofFlat_9 (d : Fin 16 → ℚ) : (FMatrix.ofFlat d).M 2 1 = d 9 := rfl
theorem ofFlat_10 (d : Fin 16 → ℚ) : (FMatrix.ofFlat d).M 2 2 = d 10 := rfl
theorem ofFlat_11 (d : Fin 16 → ℚ) : (FMatrix.ofFlat d).M 2 3 = d 11 := rfl
theorem ofFlat_12 (d : Fin 16 → ℚ) : (FMatrix.ofFlat d).M 3 0 = d 12 := rfl
theorem ofFlat_13 (d : Fin 16 → ℚ) : (FMatrix.ofFlat d).M 3 1 = d 13 := rfl
theorem ofFlat_14 (d : Fin 16 → ℚ) : (FMatrix.ofFlat d).M 3 2 = d 14 := rfl
theorem ofFlat_15 (d : Fin 16 → ℚ) : (FMatrix.ofFlat d).M 3 3 = d 15 := rfl

/-! ## Helper lemmas: inversion -/

theorem Inverse4x4_det_expansion (m : FMatrix) :
    m.flat 0 * Inverse4x4.inv m.flat 0 + m.flat 1 * Inverse4x4.inv m.flat 4
      + m.flat 2 * Inverse4x4.inv m.flat 8 + m.flat 3 * Inverse4x4.inv m.flat 12
      = m.Determinant := by
  simp only [Inverse4x4.inv, FMatrix.Determinant,
    flat_0, flat_1, flat_2, flat_3, flat_4, flat_5, flat_6, flat_7, flat_8, flat_9, flat_10,
    flat_11, flat_12, flat_13, flat_14, flat_15, ofFlat_0, ofFlat_1, ofFlat_2, ofFlat_3,
    ofFlat_4, ofFlat_5, ofFlat_6, ofFlat_7, ofFlat_8, ofFlat_9, ofFlat_10, ofFlat_11,
    ofFlat_12, ofFlat_13, ofFlat_14, ofFlat_15, vec16_0, vec16_1, vec16_2, vec16_3, vec16_4,
    vec16_5, vec16_6, vec16_7, vec16_8, vec16_9, vec16_10, vec16_11, vec16_12, vec16_13,
    vec16_14, vec16_15]
  ring

theorem Inverse4x4_det_of_ne_zero (m : FMatrix) (h : m.Determinant ≠ 0) :
    Inverse4x4.det m.flat = 1 / m.Determinant := by
  unfold Inverse4x4.det
  simp only [Inverse4x4_det_expansion]
  rw [if_pos h]

theorem adj_row_col (m : FMatrix) (i j : Fin 4) :
    m.M i 0 * (FMatrix.ofFlat (Inverse4x4.inv m.flat)).M 0 j
      + m.M i 1 * (FMatrix.ofFlat (Inverse4x4.inv m.flat)).M 1 j
      + m.M i 2 * (FMatrix.ofFlat (Inverse4x4.inv m.flat)).M 2 j
      + m.M i 3 * (FMatrix.ofFlat (Inverse4x4.inv m.flat)).M 3 j
      = if i = j then m.Determinant else 0 := by
  fin_cases i <;> fin_cases j <;>
    simp only [Fin.zero_eta, Fin.mk_one, Fin.reduceFinMk, Fin.isValue, Inverse4x4.inv,
      FMatrix.Determinant, if_true, if_false, Fin.reduceEq,
    flat_0, flat_1, flat_2, flat_3, flat_4, flat_5, flat_6, flat_7, flat_8, flat_9, flat_10,
    flat_11, flat_12, flat_13, flat_14, flat_15, ofFlat_0, ofFlat_1, ofFlat_2, ofFlat_3,
    ofFlat_4, ofFlat_5, ofFlat_6, ofFlat_7, ofFlat_8, ofFlat_9, ofFlat_10, ofFlat_11,
    ofFlat_12, ofFlat_13, ofFlat_14, ofFlat_15, vec16_0, vec16_1, vec16_2, vec16_3, vec16_4,
    vec16_5, vec16_6, vec16_7, vec16_8, vec16_9, vec16_10, vec16_11, vec16_12, vec16_13,
    vec16_14, vec16_15] <;>
    ring

theorem Identity_M (i j : Fin 4) : FMatrix.Identity.M i j = if i = j then 1 else 0 := by
  fin_cases i <;> fin_cases j <;> rfl

theorem VectorMatrixInverse_M (m : FMatrix) (i j : Fin 4) :
    (VectorMatrixInverse m).M i j
      = (FMatrix.ofFlat (Inverse4x4.inv m.flat)).M i j * Inverse4x4.det m.flat := rfl

theorem mul_M (a b : FMatrix) (i j : Fin 4) :
    (a * b).M i j = a.M i 0 * b.M 0 j + a.M i 1 * b.M 1 j + a.M i 2 * b.M 2 j + a.M i 3 * b.M 3 j :=
  rfl

theorem mul_VectorMatrixInverse (m : FMatrix) (h : m.Determinant ≠ 0) :
    m * VectorMatrixInverse m = FMatrix.Identity := by
  apply FMatrix.ext
  funext i j
  rw [mul_M, Identity_M]
  simp only [VectorMatrixInverse_M, Inverse4x4_det_of_ne_zero m h]
  have key := adj_row_col m i j
  calc _ = (m.M i 0 * (FMatrix.ofFlat (Inverse4x4.inv m.flat)).M 0 j
      + m.M i 1 * (FMatrix.ofFlat (Inverse4x4.inv m.flat)).M 1 j
      + m.M i 2 * (FMatrix.ofFlat (Inverse4x4.inv m.flat)).M 2 j
      + m.M i 3 * (FMatrix.ofFlat (Inverse4x4.inv m.flat)).M 3 j) * (1 / m.Determinant) := by ring
    _ = (if i = j then m.Determinant else 0) * (1 / m.Determinant) := by rw [key]
    _ = if i = j then 1 else 0 := by
      split_ifs
      · field_simp
      · simp

theorem Abs_eq_abs (a : ℚ) : FMath.Abs a = |a| := by
  unfold FMath.Abs
  split_ifs with h
  · exact (abs_of_nonneg h).symm
  · exact (abs_of_neg (not_le.mp h)).symm

theorem Equals_self (m : FMatrix) (t : ℚ) (ht : 0 ≤ t) : m.Equals m t = true := by
  simp [FMatrix.Equals, Abs_eq_abs, ht]

theorem Inverse_of_nil (m : FMatrix) (h : m.IsNilMatrix = true) : m.Inverse = FMatrix.Identity := by
  unfold FMatrix.IsNilMatrix at h
  unfold FMatrix.Inverse
  rw [if_pos h]

theorem Inverse_of_regular (m : FMatrix) (hAxes : m.IsNilMatrix = false)
    (hDet : m.Determinant ≠ 0) : m.Inverse = VectorMatrixInverse m := by
  unfold FMatrix.IsNilMatrix at hAxes
  unfold FMatrix.Inverse
  rw [hAxes]
  simp [hDet]

/-! ## Sample evaluations -/

theorem sampleAffine_Determinant : sampleAffine.Determinant = 8 := by
  norm_num [FMatrix.Determinant, sampleAffine]

theorem sampleAffine_not_nil : sampleAffine.IsNilMatrix = false := by
  norm_num [FMatrix.IsNilMatrix, FMatrix.GetScaledAxis, FVector.IsNearlyZero,
    FVector.SizeSquared, SMALL_NUMBER, sampleAffine]

theorem sampleSingular_Determinant : sampleSingular.Determinant = 0 := by
  norm_num [FMatrix.Determinant, sampleSingular]

theorem sampleSmallScale_Determinant :
    sampleSmallScale.Determinant = 1 / 1000000000000000 := by
  norm_num [FMatrix.Determinant, sampleSmallScale]

theorem IsNilMatrix_iff (m : FMatrix) :
    m.IsNilMatrix = true ↔
      (m.GetScaledAxis EAxis.X).SizeSquared < SMALL_NUMBER
        ∧ (m.GetScaledAxis EAxis.Y).SizeSquared < SMALL_NUMBER
        ∧ (m.GetScaledAxis EAxis.Z).SizeSquared < SMALL_NUMBER := by
  unfold FMatrix.IsNilMatrix FVector.IsNearlyZero
  simp only [Bool.and_eq_true, decide_eq_true_eq, and_assoc]

theorem sampleSmallScale_SizeSquared :
    (sampleSmallScale.GetScaledAxis EAxis.X).SizeSquared = 1 / 10000000000
      ∧ (sampleSmallScale.GetScaledAxis EAxis.Y).SizeSquared = 1 / 10000000000
      ∧ (sampleSmallScale.GetScaledAxis EAxis.Z).SizeSquared = 1 / 10000000000 := by
  refine ⟨?_, ?_, ?_⟩ <;>
    norm_num [FMatrix.GetScaledAxis, FVector.SizeSquared, sampleSmallScale, Matrix.vecHead,
      Matrix.vecTail]

/-- In every rounded arithmetic `Inverse()` returns `Identity` when the axis test holds of the
three scaled axes, whatever the determinant and whatever `VectorMatrixInverse` does. -/
theorem Rounded_Inverse_of_nil (rnd : ℚ → ℚ) (V : FMatrix → FMatrix) (m : FMatrix)
    (hX : Rounded.FVector.IsNearlyZero rnd (m.GetScaledAxis EAxis.X) SMALL_NUMBER = true)
    (hY : Rounded.FVector.IsNearlyZero rnd (m.GetScaledAxis EAxis.Y) SMALL_NUMBER = true)
    (hZ : Rounded.FVector.IsNearlyZero rnd (m.GetScaledAxis EAxis.Z) SMALL_NUMBER = true) :
    Rounded.FMatrix.Inverse rnd V m = FMatrix.Identity := by
  unfold Rounded.FMatrix.Inverse
  rw [hX, hY, hZ]
  simp only [Bool.and_self, if_true]

/-! ## Claims on FMatrix -/

/-- C1, amended. Over exact arithmetic, for every matrix `M` whose `Determinant()` is not zero
and whose three scaled axes are not all nearly zero (the test `Inverse` makes), the product
`M * M.Inverse()`, in the multiplication order of the library, is exactly `Identity`; hence it
equals `Identity` within `1e-3` per element under `FMatrix::Equals`. -/
theorem FMatrix.mul_Inverse_eq_Identity (m : FMatrix) (hDet : m.Determinant ≠ 0)
    (hAxes : m.IsNilMatrix = false) :
    m * m.Inverse = FMatrix.Identity
      ∧ (m * m.Inverse).Equals FMatrix.Identity (1 / 1000) = true := by
  have h : m * m.Inverse = FMatrix.Identity := by
    rw [Inverse_of_regular m hAxes hDet]
    exact mul_VectorMatrixInverse m hDet
  refine ⟨h, ?_⟩
  rw [h]
  exact Equals_self _ _ (by norm_num)

/-- Witness of the amended C1 at `sampleAffine`, whose determinant is 8. -/
theorem FMatrix.mul_Inverse_eq_Identity_witness :
    sampleAffine.Determinant ≠ 0 ∧ sampleAffine.IsNilMatrix = false
      ∧ sampleAffine * sampleAffine.Inverse = FMatrix.Identity :=
  ⟨by rw [sampleAffine_Determinant]; norm_num, sampleAffine_not_nil,
    (FMatrix.mul_Inverse_eq_Identity sampleAffine
      (by rw [sampleAffine_Determinant]; norm_num) sampleAffine_not_nil).1⟩

/-- C2. For every matrix whose three scaled axes (rows 0, 1, 2 restricted to columns 0-2) each
have squared length below `1e-8`, `Inverse()` returns exactly `Identity`, whatever the value
of its determinant. -/
theorem FMatrix.Inverse_of_nearly_zero_axes (m : FMatrix)
    (hX : (m.GetScaledAxis EAxis.X).SizeSquared < 1 / 100000000)
    (hY : (m.GetScaledAxis EAxis.Y).SizeSquared < 1 / 100000000)
    (hZ : (m.GetScaledAxis EAxis.Z).SizeSquared < 1 / 100000000) :
    m.Inverse = FMatrix.Identity :=
  Inverse_of_nil m ((IsNilMatrix_iff m).mpr ⟨hX, hY, hZ⟩)

/-- Witness of C2 at `sampleSmallScale`, whose axes have squared length `1e-10` and whose
determinant is `1e-15`, not zero. -/
theorem FMatrix.Inverse_of_nearly_zero_axes_witness :
    (sampleSmallScale.GetScaledAxis EAxis.X).SizeSquared < 1 / 100000000
      ∧ (sampleSmallScale.GetScaledAxis EAxis.Y).SizeSquared < 1 / 100000000
      ∧ (sampleSmallScale.GetScaledAxis EAxis.Z).SizeSquared < 1 / 100000000
      ∧ sampleSmallScale.Determinant ≠ 0 ∧ sampleSmallScale.Inverse = FMatrix.Identity := by
  obtain ⟨hx, hy, hz⟩ := sampleSmallScale_SizeSquared
  have gx : (sampleSmallScale.GetScaledAxis EAxis.X).SizeSquared < 1 / 100000000 := by
    rw [hx]; norm_num
  have gy : (sampleSmallScale.GetScaledAxis EAxis.Y).SizeSquared < 1 / 100000000 := by
    rw [hy]; norm_num
  have gz : (sampleSmallScale.GetScaledAxis EAxis.Z).SizeSquared < 1 / 100000000 := by
    rw [hz]; norm_num
  exact ⟨gx, gy, gz, by rw [sampleSmallScale_Determinant]; norm_num,
    FMatrix.Inverse_of_nearly_zero_axes sampleSmallScale gx gy gz⟩

/-- C3. For every matrix `M` whose `Determinant()` is exactly zero, `Inverse()` returns exactly
`Identity`: either the axis check or the `Det == 0` check answers, and the general inversion
is not reached. -/
theorem FMatrix.Inverse_of_Determinant_eq_zero (m : FMatrix) (hDet : m.Determinant = 0) :
    m.Inverse = FMatrix.Identity := by
  unfold FMatrix.Inverse
  split_ifs with hNil
  · rfl
  · simp [hDet]

/-- Witness of C3 at `sampleSingular`, a singular matrix whose axes are not nearly zero. -/
theorem FMatrix.Inverse_of_Determinant_eq_zero_witness :
    sampleSingular.Determinant = 0 ∧ sampleSingular.Inverse = FMatrix.Identity :=
  ⟨sampleSingular_Determinant,
    FMatrix.Inverse_of_Determinant_eq_zero sampleSingular sampleSingular_Determinant⟩

/-- C4. Over exact arithmetic, `Determinant()` of every matrix is the determinant of the 4x4
matrix of its sixteen entries. -/
theorem FMatrix.Determinant_eq_det (m : FMatrix) :
    m.Determinant = Matrix.det (Matrix.of m.M) := by
  have h3 : (Fin.succ 2 : Fin 4) = 3 := rfl
  have h2 : (Fin.castSucc 2 : Fin 4) = 2 := rfl
  have h1 : (1 : Fin 4) < 3 := by decide
  rw [Matrix.det_succ_row_zero]
  simp [Fin.sum_univ_succ, Matrix.det_fin_three, Matrix.submatrix, Fin.succAbove,
    FMatrix.Determinant, h3, h2, h1]
  ring

/-- C5. For every pair of matrices `A`, `B` and every 4-vector `v`, transforming `v` by
`A * B` equals transforming it by `A` first and then by `B`. -/
theorem FMatrix.TransformFVector4_mul (A B : FMatrix) (v : FVector4) :
    (A * B).TransformFVector4 v = B.TransformFVector4 (A.TransformFVector4 v) := by
  simp only [FMatrix.TransformFVector4, VectorTransformVector, mul_M, FVector4.mk.injEq]
  refine ⟨?_, ?_, ?_, ?_⟩ <;> ring

/-! ## Helper lemmas: angle wrapping -/

theorem Fmod_360_bounds (a : ℚ) :
    -360 < FMath.Fmod a 360 ∧ FMath.Fmod a 360 < 360 := by
  have ha : a = 360 * (a / 360) := by field_simp
  unfold FMath.Fmod FMath.TruncToInt
  split_ifs with hq
  · have h1 := Int.floor_le (a / 360)
    have h2 := Int.lt_floor_add_one (a / 360)
    constructor <;> linarith
  · have h1 := Int.le_ceil (a / 360)
    have h2 := Int.ceil_lt_add_one (a / 360)
    constructor <;> linarith

theorem Fmod_360_mul_int (k : ℤ) : FMath.Fmod (360 * (k : ℚ)) 360 = 0 := by
  have hq : 360 * (k : ℚ) / 360 = (k : ℚ) := by field_simp
  unfold FMath.Fmod FMath.TruncToInt
  rw [hq]
  split_ifs <;> simp

theorem ClampAxis_360_mul_int (k : ℤ) : FRotator.ClampAxis (360 * (k : ℚ)) = 0 := by
  simp [FRotator.ClampAxis, Fmod_360_mul_int]

theorem NormalizeAxis_360_mul_int (k : ℤ) : FRotator.NormalizeAxis (360 * (k : ℚ)) = 0 := by
  simp [FRotator.NormalizeAxis, ClampAxis_360_mul_int]

theorem ClampAxis_range (a : ℚ) : 0 ≤ FRotator.ClampAxis a ∧ FRotator.ClampAxis a < 360 := by
  obtain ⟨h1, h2⟩ := Fmod_360_bounds a
  unfold FRotator.ClampAxis
  simp only
  split_ifs with h
  · constructor <;> linarith
  · exact ⟨not_lt.mp h, h2⟩

theorem NormalizeAxis_range (a : ℚ) :
    -180 < FRotator.NormalizeAxis a ∧ FRotator.NormalizeAxis a ≤ 180 := by
  obtain ⟨h1, h2⟩ := ClampAxis_range a
  unfold FRotator.NormalizeAxis
  simp only
  split_ifs with h
  · constructor <;> linarith
  · exact ⟨by linarith, not_lt.mp h⟩

theorem Equals_add_turns (R : FRotator) (k1 k2 k3 : ℤ) (Tolerance : ℚ) (hT : 0 ≤ Tolerance) :
    FRotator.Equals ⟨R.Pitch + 360 * k1, R.Yaw + 360 * k2, R.Roll + 360 * k3⟩ R Tolerance
      = true := by
  have e : ∀ (x : ℚ) (k : ℤ), x + 360 * (k : ℚ) - x = 360 * (k : ℚ) := fun x k => by ring
  simp [FRotator.Equals, e, NormalizeAxis_360_mul_int, FMath.Abs, hT]

/-! ## Claims on FRotator -/

/-- Over exact arithmetic, for every angle `a`, `ClampAxis(a)` lies in the half-open range
`[0, 360)` its doc comment states. -/
theorem FRotator.ClampAxis_mem_Ico (a : ℚ) :
    0 ≤ FRotator.ClampAxis a ∧ FRotator.ClampAxis a < 360 :=
  ClampAxis_range a

/-- C7. Over exact arithmetic: for every angle `a`, `NormalizeAxis(a)` lies in the half-open
range `(-180, 180]`. -/
theorem FRotator.NormalizeAxis_mem_Ioc (a : ℚ) :
    -180 < FRotator.NormalizeAxis a ∧ FRotator.NormalizeAxis a ≤ 180 :=
  NormalizeAxis_range a

/-- C8. The boundary placement of the angle wrappers: `ClampAxis(0) = 0`, `ClampAxis(360) = 0`,
`ClampAxis(-1) = 359`, `NormalizeAxis(180) = 180`, `NormalizeAxis(181) = -179` and
`NormalizeAxis(-180) = 180`. -/
theorem FRotator.axis_boundary_values :
    FRotator.ClampAxis 0 = 0 ∧ FRotator.ClampAxis 360 = 0 ∧ FRotator.ClampAxis (-1) = 359
      ∧ FRotator.NormalizeAxis 180 = 180 ∧ FRotator.NormalizeAxis 181 = -179
      ∧ FRotator.NormalizeAxis (-180) = 180 := by
  have c1 : ⌈-(1 / 360 : ℚ)⌉ = 0 := by rw [Int.ceil_eq_iff]; norm_num
  have c2 : ⌈-(1 / 2 : ℚ)⌉ = 0 := by rw [Int.ceil_eq_iff]; norm_num
  refine ⟨?_, ?_, ?_, ?_, ?_, ?_⟩ <;>
    norm_num [FRotator.NormalizeAxis, FRotator.ClampAxis, FMath.Fmod, FMath.TruncToInt, c1, c2]

/-- C9, amended. Over exact arithmetic, for every rotator `R`, every triple of integers
`(k1, k2, k3)` and every tolerance `>= 0`, the rotator `(R.Pitch + 360*k1, R.Yaw + 360*k2, R.Roll + 360*k3)` is `Equals` to `R`
at that tolerance, while the raw `operator!=` reports the two as different whenever some `k`
is not zero. -/
theorem FRotator.Equals_of_whole_turns (R : FRotator) (k1 k2 k3 : ℤ) (Tolerance : ℚ)
    (hT : 0 ≤ Tolerance) :
    FRotator.Equals ⟨R.Pitch + 360 * k1, R.Yaw + 360 * k2, R.Roll + 360 * k3⟩ R Tolerance = true
      ∧ ((k1 ≠ 0 ∨ k2 ≠ 0 ∨ k3 ≠ 0) →
        FRotator.ne ⟨R.Pitch + 360 * k1, R.Yaw + 360 * k2, R.Roll + 360 * k3⟩ R = true) := by
  refine ⟨Equals_add_turns R k1 k2 k3 Tolerance hT, ?_⟩
  intro hk
  simpa [FRotator.ne, or_assoc] using hk

/-- Witness of the amended C9: `FRotator(0,0,360)` against `FRotator(0,0,0)` at tolerance
`1e-4`. -/
theorem FRotator.Equals_of_whole_turns_witness :
    (0 : ℚ) ≤ 1 / 10000
      ∧ FRotator.Equals ⟨0, 0, 360⟩ ⟨0, 0, 0⟩ (1 / 10000) = true
      ∧ FRotator.ne ⟨0, 0, 360⟩ ⟨0, 0, 0⟩ = true := by
  have h := FRotator.Equals_of_whole_turns ⟨0, 0, 0⟩ 0 0 1 (1 / 10000) (by norm_num)
  norm_num at h
  exact ⟨by norm_num, h⟩

/-- C10, amended. Over exact arithmetic, for every rotator `R` and every tolerance `>= 0`,
`R.GetEquivalentRotator().GetEquivalentRotator()` is `(Pitch, Yaw + 360, Roll + 360)` and is
`Equals` to `R` at that tolerance. -/
theorem FRotator.GetEquivalentRotator_twice (R : FRotator) (Tolerance : ℚ)
    (hT : 0 ≤ Tolerance) :
    R.GetEquivalentRotator.GetEquivalentRotator = ⟨R.Pitch, R.Yaw + 360, R.Roll + 360⟩
      ∧ FRotator.Equals R.GetEquivalentRotator.GetEquivalentRotator R Tolerance = true := by
  have h : R.GetEquivalentRotator.GetEquivalentRotator = ⟨R.Pitch, R.Yaw + 360, R.Roll + 360⟩ := by
    simp only [FRotator.GetEquivalentRotator, FRotator.mk.injEq]
    refine ⟨?_, ?_, ?_⟩ <;> ring
  refine ⟨h, ?_⟩
  rw [h]
  have := Equals_add_turns R 0 1 1 Tolerance hT
  simpa using this

/-- Witness of the amended C10 at `FRotator(10, 20, 30)` and tolerance `1e-4`. -/
theorem FRotator.GetEquivalentRotator_twice_witness :
    (0 : ℚ) ≤ 1 / 10000
      ∧ (FRotator.mk 10 20 30).GetEquivalentRotator.GetEquivalentRotator = ⟨10, 380, 390⟩
      ∧ FRotator.Equals (FRotator.mk 10 20 30).GetEquivalentRotator.GetEquivalentRotator
          ⟨10, 20, 30⟩ (1 / 10000) = true := by
  have h := FRotator.GetEquivalentRotator_twice ⟨10, 20, 30⟩ (1 / 10000) (by norm_num)
  norm_num at h
  exact ⟨by norm_num, h⟩

/-! ## Helper lemmas: rotator arithmetic -/

theorem ClampAxis_eq_sub (a : ℚ) : ∃ t : ℤ, FRotator.ClampAxis a = a - 360 * (t : ℚ) := by
  unfold FRotator.ClampAxis FMath.Fmod
  simp only
  split_ifs
  · exact ⟨FMath.TruncToInt (a / 360) - 1, by push_cast; ring⟩
  · exact ⟨FMath.TruncToInt (a / 360), rfl⟩

theorem NormalizeAxis_eq_sub (a : ℚ) : ∃ k : ℤ, FRotator.NormalizeAxis a = a - 360 * (k : ℚ) := by
  obtain ⟨t, ht⟩ := ClampAxis_eq_sub a
  unfold FRotator.NormalizeAxis
  simp only
  split_ifs
  · exact ⟨t + 1, by rw [ht]; push_cast; ring⟩
  · exact ⟨t, ht⟩

theorem NormalizeAxis_abs_le (a : ℚ) : |FRotator.NormalizeAxis a| ≤ 180 := by
  obtain ⟨h1, h2⟩ := NormalizeAxis_range a
  exact abs_le.mpr ⟨by linarith, h2⟩

theorem NormalizeAxis_of_gt (d : ℚ) (h1 : 180 < d) (h2 : d < 540) :
    FRotator.NormalizeAxis d = d - 360 := by
  obtain ⟨k, hk⟩ := NormalizeAxis_eq_sub d
  obtain ⟨r1, r2⟩ := NormalizeAxis_range d
  rw [hk] at r1 r2
  have hk0 : (0 : ℚ) < (k : ℚ) := by linarith
  have hk2 : (k : ℚ) < 2 := by linarith
  have e : k = 1 := by
    have a1 : 0 < k := by exact_mod_cast hk0
    have a2 : k < 2 := by exact_mod_cast hk2
    omega
  rw [hk, e]; push_cast; ring

theorem NormalizeAxis_of_lt (d : ℚ) (h1 : d < -180) (h2 : -540 < d) :
    FRotator.NormalizeAxis d = d + 360 := by
  obtain ⟨k, hk⟩ := NormalizeAxis_eq_sub d
  obtain ⟨r1, r2⟩ := NormalizeAxis_range d
  rw [hk] at r1 r2
  have hk0 : (k : ℚ) < 0 := by linarith
  have hk2 : (-2 : ℚ) < (k : ℚ) := by linarith
  have e : k = -1 := by
    have a1 : k < 0 := by exact_mod_cast hk0
    have a2 : -2 < k := by exact_mod_cast hk2
    omega
  rw [hk, e]; push_cast; ring

theorem Lerp_components (A B : FRotator) (Alpha : ℚ) :
    FMath.Lerp A B Alpha
      = ⟨A.Pitch + FRotator.NormalizeAxis (B.Pitch - A.Pitch) * Alpha,
         A.Yaw + FRotator.NormalizeAxis (B.Yaw - A.Yaw) * Alpha,
         A.Roll + FRotator.NormalizeAxis (B.Roll - A.Roll) * Alpha⟩ := rfl

theorem LerpRange_components (A B : FRotator) (Alpha : ℚ) :
    FMath.LerpRange A B Alpha
      = ⟨FRotator.NormalizeAxis (A.Pitch * (1 - Alpha) + B.Pitch * Alpha),
         FRotator.NormalizeAxis (A.Yaw * (1 - Alpha) + B.Yaw * Alpha),
         FRotator.NormalizeAxis (A.Roll * (1 - Alpha) + B.Roll * Alpha)⟩ := rfl

theorem no_int_strictly_between (m : ℤ) (x : ℚ) (h0 : 0 < x) (h1 : x < 1) :
    (m : ℚ) ≠ x ∧ (m : ℚ) ≠ -x := by
  constructor
  · intro h
    rw [← h] at h0 h1
    have a1 : 0 < m := by exact_mod_cast h0
    have a2 : m < 1 := by exact_mod_cast h1
    omega
  · intro h
    have h0x : (m : ℚ) < 0 := by linarith
    have h1x : (-1 : ℚ) < (m : ℚ) := by linarith
    have a1 : m < 0 := by exact_mod_cast h0x
    have a2 : -1 < m := by exact_mod_cast h1x
    omega

theorem axis_Lerp_ne_LerpRange (a b Alpha : ℚ) (h0 : 0 < Alpha) (h1 : Alpha < 1)
    (hd : 180 < |b - a|) (hd2 : |b - a| < 540) :
    a + FRotator.NormalizeAxis (b - a) * Alpha
      ≠ FRotator.NormalizeAxis (a * (1 - Alpha) + b * Alpha) := by
  obtain ⟨m, hm⟩ := NormalizeAxis_eq_sub (a * (1 - Alpha) + b * Alpha)
  rw [hm]
  intro h
  rcases le_or_lt 0 (b - a) with hpos | hneg
  · rw [abs_of_nonneg hpos] at hd hd2
    rw [NormalizeAxis_of_gt _ hd hd2] at h
    have : (m : ℚ) = Alpha := by linarith
    exact (no_int_strictly_between m Alpha h0 h1).1 this
  · rw [abs_of_neg hneg] at hd hd2
    rw [NormalizeAxis_of_lt _ (by linarith) (by linarith)] at h
    have : (m : ℚ) = -Alpha := by linarith
    exact (no_int_strictly_between m Alpha h0 h1).2 this

theorem RoundToInt_near (x : ℚ) : |((FMath.RoundToInt x : ℤ) : ℚ) - x| ≤ 1 / 2 := by
  unfold FMath.RoundToInt
  rw [abs_le]
  split_ifs
  · have h1 := Int.floor_le (x + 1 / 2)
    have h2 := Int.lt_floor_add_one (x + 1 / 2)
    constructor <;> linarith
  · have h1 := Int.le_ceil (x - 1 / 2)
    have h2 := Int.ceil_lt_add_one (x - 1 / 2)
    constructor <;> linarith

theorem compress_core (N : ℤ) (hN : 0 < N) (a : ℚ) (n : ℤ)
    (hn : |(n : ℚ) - a * (N : ℚ) / 360| ≤ 1 / 2) :
    |((n % N : ℤ) : ℚ) * 360 / (N : ℚ) - FRotator.ClampAxis a| ≤ 180 / (N : ℚ)
      ∨ (n % N = 0 ∧ 360 - 180 / (N : ℚ) ≤ FRotator.ClampAxis a) := by
  obtain ⟨t, ht⟩ := ClampAxis_eq_sub a
  obtain ⟨c0, c1⟩ := ClampAxis_range a
  have hNq : (0 : ℚ) < (N : ℚ) := by exact_mod_cast hN
  rw [abs_le] at hn
  obtain ⟨hn1, hn2⟩ := hn
  -- the scaled clamped angle
  have hc : FRotator.ClampAxis a * (N : ℚ) / 360 = a * (N : ℚ) / 360 - (N : ℚ) * (t : ℚ) := by
    rw [ht]; ring
  have hc0 : 0 ≤ FRotator.ClampAxis a * (N : ℚ) / 360 := by positivity
  have hc1 : FRotator.ClampAxis a * (N : ℚ) / 360 < (N : ℚ) := by
    rw [div_lt_iff₀ (by norm_num : (0 : ℚ) < 360)]
    nlinarith
  have hlo : (-1 : ℚ) < ((n - N * t : ℤ) : ℚ) := by push_cast; linarith
  have hhi : ((n - N * t : ℤ) : ℚ) < ((N + 1 : ℤ) : ℚ) := by push_cast; linarith
  have ilo : -1 < n - N * t := by exact_mod_cast hlo
  have ihi : n - N * t < N + 1 := by exact_mod_cast hhi
  have hmod : n % N = (n - N * t) % N := by
    have e0 : n - N * t = n + N * (-t) := by ring
    rw [e0, Int.add_mul_emod_self_left]
  rcases lt_or_ge (n - N * t) N with hlt | hge
  · left
    have e : n % N = n - N * t := by
      rw [hmod]
      exact Int.emod_eq_of_lt (by omega) hlt
    rw [e]
    have key : ((n - N * t : ℤ) : ℚ) * 360 / (N : ℚ) - FRotator.ClampAxis a
        = (((n : ℚ) - a * (N : ℚ) / 360)) * (360 / (N : ℚ)) := by
      rw [ht]; push_cast; field_simp; ring
    rw [key, abs_le]
    have hpos : (0 : ℚ) < 360 / (N : ℚ) := by positivity
    have e180 : (180 : ℚ) / (N : ℚ) = (1 / 2) * (360 / (N : ℚ)) := by ring
    rw [e180]
    constructor <;> nlinarith
  · right
    have e : n - N * t = N := by omega
    refine ⟨?_, ?_⟩
    · rw [hmod, e]; exact Int.emod_self
    · have hq : ((n - N * t : ℤ) : ℚ) = (N : ℚ) := by exact_mod_cast e
      push_cast at hq
      have h3 : (N : ℚ) - 1 / 2 ≤ FRotator.ClampAxis a * (N : ℚ) / 360 := by
        rw [hc]; linarith
      rw [le_div_iff₀ (by norm_num : (0 : ℚ) < 360)] at h3
      have h4 : (360 - 180 / (N : ℚ)) * (N : ℚ) ≤ FRotator.ClampAxis a * (N : ℚ) := by
        rw [sub_mul, div_mul_cancel₀ _ (ne_of_gt hNq)]
        linarith
      exact le_of_mul_le_mul_right h4 hNq

theorem toNat_emod_cast (n N : ℤ) (hN : 0 < N) : (((n % N).toNat : ℕ) : ℚ) = ((n % N : ℤ) : ℚ) := by
  have h : ((n % N).toNat : ℤ) = n % N := Int.toNat_of_nonneg (Int.emod_nonneg n (by omega))
  exact_mod_cast congrArg (fun z : ℤ => (z : ℚ)) h

theorem byte_round_trip (a : ℚ) :
    |FRotator.DecompressAxisFromByte (FRotator.CompressAxisToByte a) - FRotator.ClampAxis a|
        ≤ 180 / 256
      ∨ (FRotator.DecompressAxisFromByte (FRotator.CompressAxisToByte a) = 0
          ∧ 360 - 180 / 256 ≤ FRotator.ClampAxis a) := by
  have h := compress_core 256 (by norm_num) a (FMath.RoundToInt (a * 256 / 360))
    (by simpa using RoundToInt_near (a * 256 / 360))
  unfold FRotator.DecompressAxisFromByte FRotator.CompressAxisToByte
  rw [toNat_emod_cast _ _ (by norm_num)]
  rcases h with h | ⟨h1, h2⟩
  · left; simpa using h
  · right
    refine ⟨by rw [h1]; simp, by simpa using h2⟩

theorem short_round_trip (a : ℚ) :
    |FRotator.DecompressAxisFromShort (FRotator.CompressAxisToShort a) - FRotator.ClampAxis a|
        ≤ 180 / 65536
      ∨ (FRotator.DecompressAxisFromShort (FRotator.CompressAxisToShort a) = 0
          ∧ 360 - 180 / 65536 ≤ FRotator.ClampAxis a) := by
  have h := compress_core 65536 (by norm_num) a (FMath.RoundToInt (a * 65536 / 360))
    (by simpa using RoundToInt_near (a * 65536 / 360))
  unfold FRotator.DecompressAxisFromShort FRotator.CompressAxisToShort
  rw [toNat_emod_cast _ _ (by norm_num)]
  rcases h with h | ⟨h1, h2⟩
  · left; simpa using h
  · right
    refine ⟨by rw [h1]; simp, by simpa using h2⟩

/-! ## Claims on FRotator: closest rotator, interpolation, compression -/

/-- C11. For every rotator `T` and every rotator `O`, the value `T.SetClosestToMe(O)` leaves in
`O` is the old `O` or the old `O.GetEquivalentRotator()`; its Manhattan distance to `T` is
the minimum of the distances of the two candidates; it is the equivalent rotator exactly when
that one is strictly closer, so that a tie keeps the original. (`T` is the receiver of a
`const` member and is not written.) -/
theorem FRotator.SetClosestToMe_picks_nearest (T O : FRotator) :
    (T.SetClosestToMe O = O ∨ T.SetClosestToMe O = O.GetEquivalentRotator)
      ∧ T.GetManhattanDistance (T.SetClosestToMe O)
          = min (T.GetManhattanDistance O) (T.GetManhattanDistance O.GetEquivalentRotator)
      ∧ (T.GetManhattanDistance O.GetEquivalentRotator < T.GetManhattanDistance O →
          T.SetClosestToMe O = O.GetEquivalentRotator)
      ∧ (T.GetManhattanDistance O ≤ T.GetManhattanDistance O.GetEquivalentRotator →
          T.SetClosestToMe O = O) := by
  unfold FRotator.SetClosestToMe
  simp only
  split_ifs with h
  · refine ⟨Or.inr rfl, ?_, fun _ => rfl, fun h2 => absurd h (not_lt.mpr h2)⟩
    rw [min_eq_right (le_of_lt h)]
  · refine ⟨Or.inl rfl, ?_, fun h2 => absurd h2 h, fun _ => rfl⟩
    rw [min_eq_left (not_lt.mp h)]

/-- C12, amended. Over exact arithmetic, for every rotators `A`, `B` and every `alpha` with
`0 <= alpha <= 1`, each component of `FMath::Lerp(A, B, alpha)` is `A_i + NormalizeAxis(B_i - A_i) * alpha`, and so differs from
`A_i` by at most `180 * alpha` degrees. -/
theorem FMath.Lerp_shortest_path (A B : FRotator) (Alpha : ℚ) (h0 : 0 ≤ Alpha)
    (_h1 : Alpha ≤ 1) :
    FMath.Lerp A B Alpha
        = ⟨A.Pitch + FRotator.NormalizeAxis (B.Pitch - A.Pitch) * Alpha,
           A.Yaw + FRotator.NormalizeAxis (B.Yaw - A.Yaw) * Alpha,
           A.Roll + FRotator.NormalizeAxis (B.Roll - A.Roll) * Alpha⟩
      ∧ |(FMath.Lerp A B Alpha).Pitch - A.Pitch| ≤ 180 * Alpha
      ∧ |(FMath.Lerp A B Alpha).Yaw - A.Yaw| ≤ 180 * Alpha
      ∧ |(FMath.Lerp A B Alpha).Roll - A.Roll| ≤ 180 * Alpha := by
  have key : ∀ a d : ℚ, |a + FRotator.NormalizeAxis d * Alpha - a| ≤ 180 * Alpha := by
    intro a d
    have e : a + FRotator.NormalizeAxis d * Alpha - a = FRotator.NormalizeAxis d * Alpha := by
      ring
    rw [e, abs_mul, abs_of_nonneg h0]
    exact mul_le_mul_of_nonneg_right (NormalizeAxis_abs_le d) h0
  refine ⟨Lerp_components A B Alpha, ?_, ?_, ?_⟩ <;> rw [Lerp_components] <;> exact key _ _

/-- Witness of the amended C12: from `(0,0,0)` to `(0,270,0)` at `alpha = 1/2` the yaw goes
the short way, to `-45`. -/
theorem FMath.Lerp_shortest_path_witness :
    (0 : ℚ) ≤ 1 / 2 ∧ (1 / 2 : ℚ) ≤ 1
      ∧ (FMath.Lerp ⟨0, 0, 0⟩ ⟨0, 270, 0⟩ (1 / 2)).Yaw = -45
      ∧ |(FMath.Lerp ⟨0, 0, 0⟩ ⟨0, 270, 0⟩ (1 / 2)).Yaw - 0| ≤ 180 * (1 / 2) := by
  have h := FMath.Lerp_shortest_path ⟨0, 0, 0⟩ ⟨0, 270, 0⟩ (1 / 2) (by norm_num) (by norm_num)
  refine ⟨by norm_num, by norm_num, ?_, h.2.2.1⟩
  rw [h.1]
  have e : FRotator.NormalizeAxis (270 - 0) = -90 := by
    rw [NormalizeAxis_of_gt _ (by norm_num) (by norm_num)]; norm_num
  simp only [e]
  norm_num

theorem Lerp_eq_LerpRange_at_ends :
    180 < |(270 : ℚ) - 0|
      ∧ FMath.Lerp ⟨0, 0, 0⟩ ⟨0, 270, 0⟩ 1 = ⟨0, -90, 0⟩
      ∧ FMath.LerpRange ⟨0, 0, 0⟩ ⟨0, 270, 0⟩ 1 = ⟨0, -90, 0⟩
      ∧ FMath.Lerp ⟨0, 0, 0⟩ ⟨0, 270, 0⟩ 0 = FMath.LerpRange ⟨0, 0, 0⟩ ⟨0, 270, 0⟩ 0 := by
  have e270 : FRotator.NormalizeAxis 270 = -90 := by
    rw [NormalizeAxis_of_gt _ (by norm_num) (by norm_num)]; norm_num
  have e0 : FRotator.NormalizeAxis 0 = 0 := by
    simpa using NormalizeAxis_360_mul_int 0
  refine ⟨by norm_num, ?_, ?_, ?_⟩
  · rw [Lerp_components]; norm_num [e270, e0]
  · rw [LerpRange_components]; norm_num [e270, e0]
  · rw [Lerp_components, LerpRange_components]; norm_num [e270, e0]

/-- C13, amended. Over exact arithmetic, for every rotators `A`, `B` and every `alpha` with
`0 < alpha < 1` such that `180 < |B - A| < 540` on at least one axis, `FMath::Lerp(A, B, alpha)`
and `FMath::LerpRange(A, B, alpha)` produce different results. -/
theorem FMath.Lerp_ne_LerpRange (A B : FRotator) (Alpha : ℚ) (h0 : 0 < Alpha) (h1 : Alpha < 1)
    (hAxis : (180 < |B.Pitch - A.Pitch| ∧ |B.Pitch - A.Pitch| < 540)
      ∨ (180 < |B.Yaw - A.Yaw| ∧ |B.Yaw - A.Yaw| < 540)
      ∨ (180 < |B.Roll - A.Roll| ∧ |B.Roll - A.Roll| < 540)) :
    FMath.Lerp A B Alpha ≠ FMath.LerpRange A B Alpha := by
  rw [Lerp_components, LerpRange_components]
  intro h
  rw [FRotator.mk.injEq] at h
  obtain ⟨hP, hY, hR⟩ := h
  rcases hAxis with ⟨a, b⟩ | ⟨a, b⟩ | ⟨a, b⟩
  · exact axis_Lerp_ne_LerpRange _ _ Alpha h0 h1 a b hP
  · exact axis_Lerp_ne_LerpRange _ _ Alpha h0 h1 a b hY
  · exact axis_Lerp_ne_LerpRange _ _ Alpha h0 h1 a b hR

/-- Witness of the amended C13: from `(0,0,0)` to `(0,270,0)` at `alpha = 1/2`. -/
theorem FMath.Lerp_ne_LerpRange_witness :
    (0 : ℚ) < 1 / 2 ∧ (1 / 2 : ℚ) < 1 ∧ 180 < |(270 : ℚ) - 0| ∧ |(270 : ℚ) - 0| < 540
      ∧ FMath.Lerp ⟨0, 0, 0⟩ ⟨0, 270, 0⟩ (1 / 2) ≠ FMath.LerpRange ⟨0, 0, 0⟩ ⟨0, 270, 0⟩ (1 / 2) :=
  ⟨by norm_num, by norm_num, by norm_num, by norm_num,
    FMath.Lerp_ne_LerpRange ⟨0, 0, 0⟩ ⟨0, 270, 0⟩ (1 / 2) (by norm_num) (by norm_num)
      (Or.inr (Or.inl ⟨by norm_num, by norm_num⟩))⟩

theorem compress_wraps_at_top :
    FRotator.ClampAxis (719 / 2) = 719 / 2
      ∧ FRotator.CompressAxisToByte (719 / 2) = 0
      ∧ FRotator.DecompressAxisFromByte (FRotator.CompressAxisToByte (719 / 2)) = 0
      ∧ ¬ (|FRotator.DecompressAxisFromByte (FRotator.CompressAxisToByte (719 / 2))
            - FRotator.ClampAxis (719 / 2)| ≤ 360 / 256)
      ∧ FRotator.ClampAxis (359999 / 1000) = 359999 / 1000
      ∧ FRotator.CompressAxisToShort (359999 / 1000) = 0
      ∧ ¬ (|FRotator.DecompressAxisFromShort (FRotator.CompressAxisToShort (359999 / 1000))
            - FRotator.ClampAxis (359999 / 1000)| ≤ 360 / 65536) := by
  have f1 : ⌊(719 / 2 : ℚ) / 360⌋ = 0 := by rw [Int.floor_eq_iff]; norm_num
  have f2 : ⌊(719 / 2 : ℚ) * 256 / 360 + 1 / 2⌋ = 256 := by rw [Int.floor_eq_iff]; norm_num
  have f3 : ⌊(359999 / 1000 : ℚ) / 360⌋ = 0 := by rw [Int.floor_eq_iff]; norm_num
  have f4 : ⌊(359999 / 1000 : ℚ) * 65536 / 360 + 1 / 2⌋ = 65536 := by
    rw [Int.floor_eq_iff]; norm_num
  have c1 : FRotator.ClampAxis (719 / 2) = 719 / 2 := by
    norm_num [FRotator.ClampAxis, FMath.Fmod, FMath.TruncToInt, f1]
  have c2 : FRotator.ClampAxis (359999 / 1000) = 359999 / 1000 := by
    norm_num [FRotator.ClampAxis, FMath.Fmod, FMath.TruncToInt, f3]
  have b1 : FRotator.CompressAxisToByte (719 / 2) = 0 := by
    have p : (0 : ℚ) ≤ 719 / 2 * 256 / 360 := by norm_num
    simp only [FRotator.CompressAxisToByte, FMath.RoundToInt, if_pos p, f2]
    rfl
  have b2 : FRotator.CompressAxisToShort (359999 / 1000) = 0 := by
    have p : (0 : ℚ) ≤ 359999 / 1000 * 65536 / 360 := by norm_num
    simp only [FRotator.CompressAxisToShort, FMath.RoundToInt, if_pos p, f4]
    rfl
  refine ⟨c1, b1, ?_, ?_, c2, b2, ?_⟩
  · rw [b1]; norm_num [FRotator.DecompressAxisFromByte]
  · rw [b1, c1]; norm_num [FRotator.DecompressAxisFromByte, abs_of_pos]
  · rw [b2, c2]; norm_num [FRotator.DecompressAxisFromShort, abs_of_pos]

/-- C14, amended. Over exact arithmetic (the scaled angle computed without rounding and
within the range of `int32`), for every angle `a`,
`DecompressAxisFromByte(CompressAxisToByte(a))` differs from `ClampAxis(a)` by at most
`360/256` degrees, unless it is 0 while `ClampAxis(a)` is
within `360/256` of 360 (the top of the range wraps to 0); likewise
`DecompressAxisFromShort(CompressAxisToShort(a))` with `360/65536`. -/
theorem FRotator.compress_round_trip (a : ℚ) :
    (|FRotator.DecompressAxisFromByte (FRotator.CompressAxisToByte a) - FRotator.ClampAxis a|
          ≤ 360 / 256
        ∨ (FRotator.DecompressAxisFromByte (FRotator.CompressAxisToByte a) = 0
            ∧ 360 - 360 / 256 ≤ FRotator.ClampAxis a))
      ∧ (|FRotator.DecompressAxisFromShort (FRotator.CompressAxisToShort a)
            - FRotator.ClampAxis a| ≤ 360 / 65536
        ∨ (FRotator.DecompressAxisFromShort (FRotator.CompressAxisToShort a) = 0
            ∧ 360 - 360 / 65536 ≤ FRotator.ClampAxis a)) := by
  constructor
  · rcases byte_round_trip a with h | ⟨h1, h2⟩
    · left; linarith
    · right; exact ⟨h1, by linarith⟩
  · rcases short_round_trip a with h | ⟨h1, h2⟩
    · left; linarith
    · right; exact ⟨h1, by linarith⟩

/-! ## Helper lemmas: scaling -/

theorem ExtractScaling_scale (Sqrt : ℚ → ℚ) (m : FMatrix) (Tolerance : ℚ) :
    (m.ExtractScaling Sqrt Tolerance).1
      = ⟨if m.SquareSum 0 > Tolerance then Sqrt (m.SquareSum 0) else 0,
         if m.SquareSum 1 > Tolerance then Sqrt (m.SquareSum 1) else 0,
         if m.SquareSum 2 > Tolerance then Sqrt (m.SquareSum 2) else 0⟩ := by
  unfold FMatrix.ExtractScaling FMatrix.SquareSum
  by_cases h0 : m.M 0 0 * m.M 0 0 + m.M 0 1 * m.M 0 1 + m.M 0 2 * m.M 0 2 > Tolerance <;>
  by_cases h1 : m.M 1 0 * m.M 1 0 + m.M 1 1 * m.M 1 1 + m.M 1 2 * m.M 1 2 > Tolerance <;>
  by_cases h2 : m.M 2 0 * m.M 2 0 + m.M 2 1 * m.M 2 1 + m.M 2 2 * m.M 2 2 > Tolerance <;>
  simp only [h0, h1, h2, if_true, if_false] <;> rfl

theorem GetScaleVector_eq (Sqrt : ℚ → ℚ) (m : FMatrix) (Tolerance : ℚ) :
    m.GetScaleVector Sqrt Tolerance
      = ⟨if m.SquareSum 0 > Tolerance then Sqrt (m.SquareSum 0) else 0,
         if m.SquareSum 1 > Tolerance then Sqrt (m.SquareSum 1) else 0,
         if m.SquareSum 2 > Tolerance then Sqrt (m.SquareSum 2) else 0⟩ := by
  have c0 : (Fin.castSucc (0 : Fin 3) : Fin 4) = 0 := rfl
  have c1 : (Fin.castSucc (1 : Fin 3) : Fin 4) = 1 := rfl
  have c2 : (Fin.castSucc (2 : Fin 3) : Fin 4) = 2 := rfl
  unfold FMatrix.GetScaleVector FMatrix.SquareSum
  simp only [List.foldl, c0, c1, c2]
  by_cases h0 : m.M 0 0 * m.M 0 0 + m.M 0 1 * m.M 0 1 + m.M 0 2 * m.M 0 2 > Tolerance <;>
  by_cases h1 : m.M 1 0 * m.M 1 0 + m.M 1 1 * m.M 1 1 + m.M 1 2 * m.M 1 2 > Tolerance <;>
  by_cases h2 : m.M 2 0 * m.M 2 0 + m.M 2 1 * m.M 2 1 + m.M 2 2 * m.M 2 2 > Tolerance <;>
  simp only [h0, h1, h2, if_true, if_false] <;> rfl

theorem ExtractScaling_row_scaled (Sqrt : ℚ → ℚ) (m : FMatrix) (Tolerance : ℚ) (i j : Fin 4)
    (hi : i ≠ 3) (hj : j ≠ 3) (h : m.SquareSum i > Tolerance) :
    (m.ExtractScaling Sqrt Tolerance).2.M i j = m.M i j * (1 / Sqrt (m.SquareSum i)) := by
  unfold FMatrix.ExtractScaling
  unfold FMatrix.SquareSum at h ⊢
  by_cases h0 : m.M 0 0 * m.M 0 0 + m.M 0 1 * m.M 0 1 + m.M 0 2 * m.M 0 2 > Tolerance <;>
  by_cases h1 : m.M 1 0 * m.M 1 0 + m.M 1 1 * m.M 1 1 + m.M 1 2 * m.M 1 2 > Tolerance <;>
  by_cases h2 : m.M 2 0 * m.M 2 0 + m.M 2 1 * m.M 2 1 + m.M 2 2 * m.M 2 2 > Tolerance <;>
  simp only [h0, h1, h2, if_true, if_false] <;>
  fin_cases i <;> fin_cases j <;>
  first
    | rfl
    | exact absurd h h0
    | exact absurd h h1
    | exact absurd h h2
    | exact absurd rfl hi
    | exact absurd rfl hj

theorem ExtractScaling_row_kept (Sqrt : ℚ → ℚ) (m : FMatrix) (Tolerance : ℚ) (i j : Fin 4)
    (h : i ≠ 3 → j ≠ 3 → ¬ m.SquareSum i > Tolerance) :
    (m.ExtractScaling Sqrt Tolerance).2.M i j = m.M i j := by
  unfold FMatrix.ExtractScaling
  unfold FMatrix.SquareSum at h
  by_cases h0 : m.M 0 0 * m.M 0 0 + m.M 0 1 * m.M 0 1 + m.M 0 2 * m.M 0 2 > Tolerance <;>
  by_cases h1 : m.M 1 0 * m.M 1 0 + m.M 1 1 * m.M 1 1 + m.M 1 2 * m.M 1 2 > Tolerance <;>
  by_cases h2 : m.M 2 0 * m.M 2 0 + m.M 2 1 * m.M 2 1 + m.M 2 2 * m.M 2 2 > Tolerance <;>
  simp only [h0, h1, h2, if_true, if_false] <;>
  fin_cases i <;> fin_cases j <;>
  first
    | rfl
    | exact absurd h0 (h (of_decide_eq_true rfl) (of_decide_eq_true rfl))
    | exact absurd h1 (h (of_decide_eq_true rfl) (of_decide_eq_true rfl))
    | exact absurd h2 (h (of_decide_eq_true rfl) (of_decide_eq_true rfl))

theorem RemoveScaling_row_scaled (InvSqrt : ℚ → ℚ) (m : FMatrix) (Tolerance : ℚ) (i j : Fin 4)
    (hi : i ≠ 3) (hj : j ≠ 3) (h : m.SquareSum i - Tolerance ≥ 0) :
    (m.RemoveScaling InvSqrt Tolerance).M i j = m.M i j * InvSqrt (m.SquareSum i) := by
  unfold FMatrix.RemoveScaling FMath.FloatSelect
  unfold FMatrix.SquareSum at h ⊢
  by_cases h0 : m.M 0 0 * m.M 0 0 + m.M 0 1 * m.M 0 1 + m.M 0 2 * m.M 0 2 - Tolerance ≥ 0 <;>
  by_cases h1 : m.M 1 0 * m.M 1 0 + m.M 1 1 * m.M 1 1 + m.M 1 2 * m.M 1 2 - Tolerance ≥ 0 <;>
  by_cases h2 : m.M 2 0 * m.M 2 0 + m.M 2 1 * m.M 2 1 + m.M 2 2 * m.M 2 2 - Tolerance ≥ 0 <;>
  simp only [h0, h1, h2, if_true, if_false] <;>
  fin_cases i <;> fin_cases j <;>
  first
    | rfl
    | exact absurd h h0
    | exact absurd h h1
    | exact absurd h h2
    | exact absurd rfl hi
    | exact absurd rfl hj

theorem RemoveScaling_row_kept (InvSqrt : ℚ → ℚ) (m : FMatrix) (Tolerance : ℚ) (i j : Fin 4)
    (h : i ≠ 3 → j ≠ 3 → ¬ m.SquareSum i - Tolerance ≥ 0) :
    (m.RemoveScaling InvSqrt Tolerance).M i j = m.M i j := by
  unfold FMatrix.RemoveScaling FMath.FloatSelect
  unfold FMatrix.SquareSum at h
  by_cases h0 : m.M 0 0 * m.M 0 0 + m.M 0 1 * m.M 0 1 + m.M 0 2 * m.M 0 2 - Tolerance ≥ 0 <;>
  by_cases h1 : m.M 1 0 * m.M 1 0 + m.M 1 1 * m.M 1 1 + m.M 1 2 * m.M 1 2 - Tolerance ≥ 0 <;>
  by_cases h2 : m.M 2 0 * m.M 2 0 + m.M 2 1 * m.M 2 1 + m.M 2 2 * m.M 2 2 - Tolerance ≥ 0 <;>
  simp only [h0, h1, h2, if_true, if_false] <;>
  fin_cases i <;> fin_cases j <;>
  first
    | (simp only [mul_one]; rfl)
    | rfl
    | exact absurd h0 (h (of_decide_eq_true rfl) (of_decide_eq_true rfl))
    | exact absurd h1 (h (of_decide_eq_true rfl) (of_decide_eq_true rfl))
    | exact absurd h2 (h (of_decide_eq_true rfl) (of_decide_eq_true rfl))

theorem RemoveScaling_eq_ExtractScaling_off_boundary (Sqrt InvSqrt : ℚ → ℚ) (m : FMatrix)
    (Tolerance : ℚ) (hne : ∀ i : Fin 4, i ≠ 3 → m.SquareSum i ≠ Tolerance)
    (hInv : ∀ i : Fin 4, i ≠ 3 → m.SquareSum i > Tolerance →
      InvSqrt (m.SquareSum i) = 1 / Sqrt (m.SquareSum i)) :
    m.RemoveScaling InvSqrt Tolerance = (m.ExtractScaling Sqrt Tolerance).2 := by
  apply FMatrix.ext
  funext i j
  by_cases c : i ≠ 3 ∧ j ≠ 3 ∧ m.SquareSum i > Tolerance
  · obtain ⟨hi, hj, h⟩ := c
    rw [RemoveScaling_row_scaled InvSqrt m Tolerance i j hi hj (by linarith),
      ExtractScaling_row_scaled Sqrt m Tolerance i j hi hj h, hInv i hi h]
  · rw [ExtractScaling_row_kept Sqrt m Tolerance i j (fun hi hj h => c ⟨hi, hj, h⟩)]
    apply RemoveScaling_row_kept
    intro hi hj h
    have h1 : m.SquareSum i ≠ Tolerance := hne i hi
    have h2 : m.SquareSum i > Tolerance := lt_of_le_of_ne (by linarith) (Ne.symm h1)
    exact c ⟨hi, hj, h2⟩

/-! ## Claims on FMatrix: scale, translation, frustum planes -/

/-- C16. For every matrix `M` and tolerance, the vector `M.ExtractScaling(tolerance)` returns
equals `M.GetScaleVector(tolerance)` computed on `M` before the call. -/
theorem FMatrix.ExtractScaling_returns_GetScaleVector (Sqrt : ℚ → ℚ) (m : FMatrix)
    (Tolerance : ℚ) :
    (m.ExtractScaling Sqrt Tolerance).1 = m.GetScaleVector Sqrt Tolerance := by
  rw [ExtractScaling_scale, GetScaleVector_eq]

theorem sampleUniform2_M (i j : Fin 4) :
    sampleUniform2.M i j = if i = j then (if i = 3 then 1 else 2) else 0 := by
  fin_cases i <;> fin_cases j <;> rfl

/-- C18, the code at the boundary. On `sampleUniform2` (each row of squared length 4) with
tolerance 4, `ExtractScaling` leaves the matrix as it is (4 is not `> 4`) while
`RemoveScaling` normalises it to `Identity` (`FloatSelect` takes `4 - 4 >= 0`): the two final
states differ. -/
theorem FMatrix.RemoveScaling_differs_at_boundary :
    (sampleUniform2.ExtractScaling sampleSqrt 4).2 = sampleUniform2
      ∧ sampleUniform2.RemoveScaling sampleInvSqrt 4 = FMatrix.Identity
      ∧ sampleUniform2.RemoveScaling sampleInvSqrt 4
          ≠ (sampleUniform2.ExtractScaling sampleSqrt 4).2 := by
  have hS : ∀ i : Fin 4, i ≠ 3 → sampleUniform2.SquareSum i = 4 := by
    intro i hi
    fin_cases i <;>
      first
        | exact absurd rfl hi
        | norm_num [FMatrix.SquareSum, sampleUniform2, Matrix.vecHead, Matrix.vecTail]
  have hE : (sampleUniform2.ExtractScaling sampleSqrt 4).2 = sampleUniform2 := by
    apply FMatrix.ext
    funext i j
    apply ExtractScaling_row_kept
    intro hi _ h
    rw [hS i hi] at h
    exact lt_irrefl _ h
  have hI : sampleInvSqrt 4 = 1 / 2 := by norm_num [sampleInvSqrt, sampleSqrt]
  have hR : sampleUniform2.RemoveScaling sampleInvSqrt 4 = FMatrix.Identity := by
    apply FMatrix.ext
    funext i j
    rw [Identity_M]
    by_cases c : i ≠ 3 ∧ j ≠ 3
    · rw [RemoveScaling_row_scaled sampleInvSqrt sampleUniform2 4 i j c.1 c.2
        (by rw [hS i c.1]; norm_num), hS i c.1, hI, sampleUniform2_M]
      obtain ⟨hi, hj⟩ := c
      split_ifs <;> norm_num
    · rw [RemoveScaling_row_kept sampleInvSqrt sampleUniform2 4 i j
        (fun hi hj _ => c ⟨hi, hj⟩), sampleUniform2_M]
      split_ifs with h1 h2
      · rfl
      · exact absurd ⟨h2, fun h3 => h2 (h1.trans h3)⟩ c
      · rfl
  refine ⟨hE, hR, ?_⟩
  rw [hE, hR]
  intro h
  have h00 : FMatrix.Identity.M 0 0 = sampleUniform2.M 0 0 := by rw [h]
  norm_num [FMatrix.Identity, sampleUniform2] at h00

/-- C19. For every matrix `M` and vector `T`, `M.ConcatTranslation(T)` returns a matrix whose
entries `[3][0]`, `[3][1]`, `[3][2]` are those of `M` plus `T.X`, `T.Y`, `T.Z`, and whose
other thirteen entries are those of `M`. (`ConcatTranslation` is `const`; the function has no
other output.) -/
theorem FMatrix.ConcatTranslation_entries (m : FMatrix) (T : FVector) :
    (m.ConcatTranslation T).M 3 0 = m.M 3 0 + T.X
      ∧ (m.ConcatTranslation T).M 3 1 = m.M 3 1 + T.Y
      ∧ (m.ConcatTranslation T).M 3 2 = m.M 3 2 + T.Z
      ∧ ∀ i j : Fin 4, (i ≠ 3 ∨ j = 3) → (m.ConcatTranslation T).M i j = m.M i j := by
  refine ⟨rfl, rfl, rfl, ?_⟩
  intro i j h
  fin_cases i <;> fin_cases j <;>
    first
      | rfl
      | (rcases h with h | h
         · exact absurd rfl h
         · exact absurd h (of_decide_eq_true rfl))

theorem FBasisVectorMatrix_M (XAxis YAxis ZAxis Origin : FVector) :
    (FBasisVectorMatrix XAxis YAxis ZAxis Origin).M
      = ![![XAxis.X, YAxis.X, ZAxis.X, 0],
          ![XAxis.Y, YAxis.Y, ZAxis.Y, 0],
          ![XAxis.Z, YAxis.Z, ZAxis.Z, 0],
          ![Origin.dot XAxis, Origin.dot YAxis, Origin.dot ZAxis, 1]] := by
  funext i j
  fin_cases i <;> fin_cases j <;> rfl

theorem FLookAtMatrix_eq_basis (InvSqrt : ℚ → ℚ) (Eye LookAt Up : FVector) :
    FLookAtMatrix InvSqrt Eye LookAt Up
      = FBasisVectorMatrix (FLookAtMatrix.XAxis InvSqrt Eye LookAt Up)
          (FLookAtMatrix.YAxis InvSqrt Eye LookAt Up) (FLookAtMatrix.ZAxis InvSqrt Eye LookAt)
          Eye.neg := rfl

theorem neg_dot (V W : FVector) : V.neg.dot W = -(V.dot W) := by
  simp only [FVector.neg, FVector.dot]
  ring

theorem GetSafeNormal_unit (InvSqrt : ℚ → ℚ) (h1 : InvSqrt 1 = 1) (V : FVector)
    (hV : V.X * V.X + V.Y * V.Y + V.Z * V.Z = 1) :
    V.GetSafeNormal InvSqrt SMALL_NUMBER = V := by
  unfold FVector.GetSafeNormal
  simp only [hV, h1, mul_one]
  rw [if_pos (by norm_num [SMALL_NUMBER])]

theorem lookAt_sample_axes (InvSqrt : ℚ → ℚ) (h1 : InvSqrt 1 = 1) (e : ℚ) :
    FLookAtMatrix.ZAxis InvSqrt ⟨0, 0, e⟩ ⟨0, 0, e + 1⟩ = ⟨0, 0, 1⟩
      ∧ FLookAtMatrix.XAxis InvSqrt ⟨0, 0, e⟩ ⟨0, 0, e + 1⟩ ⟨0, 1, 0⟩ = ⟨1, 0, 0⟩
      ∧ FLookAtMatrix.YAxis InvSqrt ⟨0, 0, e⟩ ⟨0, 0, e + 1⟩ ⟨0, 1, 0⟩ = ⟨0, 1, 0⟩ := by
  have hz : FLookAtMatrix.ZAxis InvSqrt ⟨0, 0, e⟩ ⟨0, 0, e + 1⟩ = ⟨0, 0, 1⟩ := by
    unfold FLookAtMatrix.ZAxis
    have e1 : (FVector.mk 0 0 (e + 1)).sub ⟨0, 0, e⟩ = ⟨0, 0, 1⟩ := by
      simp [FVector.sub]
    rw [e1]
    exact GetSafeNormal_unit InvSqrt h1 _ (by norm_num)
  have hx : FLookAtMatrix.XAxis InvSqrt ⟨0, 0, e⟩ ⟨0, 0, e + 1⟩ ⟨0, 1, 0⟩ = ⟨1, 0, 0⟩ := by
    unfold FLookAtMatrix.XAxis
    rw [hz]
    have e2 : (FVector.mk 0 1 0).cross ⟨0, 0, 1⟩ = ⟨1, 0, 0⟩ := by
      simp [FVector.cross]
    rw [e2]
    exact GetSafeNormal_unit InvSqrt h1 _ (by norm_num)
  refine ⟨hz, hx, ?_⟩
  unfold FLookAtMatrix.YAxis
  rw [hz, hx]
  simp [FVector.cross]

theorem sampleInvSqrtUnit_one : sampleInvSqrtUnit 1 = 1 := by
  simp [sampleInvSqrtUnit]

theorem TransformFVector4_mul_aux (A B : FMatrix) (v : FVector4) :
    (A * B).TransformFVector4 v = B.TransformFVector4 (A.TransformFVector4 v) := by
  simp only [FMatrix.TransformFVector4, VectorTransformVector, mul_M, FVector4.mk.injEq]
  refine ⟨?_, ?_, ?_, ?_⟩ <;> ring

theorem TransformFVector4_Identity (v : FVector4) : FMatrix.Identity.TransformFVector4 v = v := by
  simp [FMatrix.TransformFVector4, VectorTransformVector, Identity_M]

theorem inverse_round_trip (m : FMatrix) (hDet : m.Determinant ≠ 0) (v : FVector4) :
    m.InverseFast.TransformFVector4 (m.TransformFVector4 v) = v := by
  unfold FMatrix.InverseFast
  rw [← TransformFVector4_mul_aux, mul_VectorMatrixInverse m hDet, TransformFVector4_Identity]

theorem Identity_M_00 : FMatrix.Identity.M 0 0 = 1 := rfl
theorem Identity_M_01 : FMatrix.Identity.M 0 1 = 0 := rfl
theorem Identity_M_02 : FMatrix.Identity.M 0 2 = 0 := rfl
theorem Identity_M_03 : FMatrix.Identity.M 0 3 = 0 := rfl
theorem Identity_M_10 : FMatrix.Identity.M 1 0 = 0 := rfl
theorem Identity_M_11 : FMatrix.Identity.M 1 1 = 1 := rfl
theorem Identity_M_12 : FMatrix.Identity.M 1 2 = 0 := rfl
theorem Identity_M_13 : FMatrix.Identity.M 1 3 = 0 := rfl
theorem Identity_M_20 : FMatrix.Identity.M 2 0 = 0 := rfl
theorem Identity_M_21 : FMatrix.Identity.M 2 1 = 0 := rfl
theorem Identity_M_22 : FMatrix.Identity.M 2 2 = 1 := rfl
theorem Identity_M_23 : FMatrix.Identity.M 2 3 = 0 := rfl
theorem Identity_M_30 : FMatrix.Identity.M 3 0 = 0 := rfl
theorem Identity_M_31 : FMatrix.Identity.M 3 1 = 0 := rfl
theorem Identity_M_32 : FMatrix.Identity.M 3 2 = 0 := rfl
theorem Identity_M_33 : FMatrix.Identity.M 3 3 = 1 := rfl

theorem identity_plane (InvSqrt : ℚ → ℚ) (DELTA : ℚ) (hD : DELTA * DELTA < 1)
    (h1 : InvSqrt 1 = 1) (A B C D : ℚ) (OutPlane : FPlane)
    (hL : A * A + B * B + C * C = 1) :
    MakeFrustumPlane InvSqrt DELTA A B C D OutPlane = (true, ⟨-A, -B, -C, D⟩) := by
  unfold MakeFrustumPlane
  simp only [hL, h1, mul_one]
  rw [if_pos hD]

/-! ## Claims on frustum planes, basis matrices, mirroring and inverse transforms -/

/-- C22. For the `Identity` matrix, with `DELTA^2 < 1` and `FMath::InvSqrt(1) = 1`, all six
`GetFrustum*Plane` calls return true, with the planes (X,Y,Z,W): near `(0,0,-1,0)`, far
`(0,0,1,1)`, left `(-1,0,0,1)`, right `(1,0,0,1)`, top `(0,1,0,1)`, bottom `(0,-1,0,1)`. -/
theorem FMatrix.Identity_frustum_planes (InvSqrt : ℚ → ℚ) (DELTA : ℚ) (OutPlane : FPlane)
    (hD : DELTA * DELTA < 1) (h1 : InvSqrt 1 = 1) :
    FMatrix.Identity.GetFrustumNearPlane InvSqrt DELTA OutPlane = (true, ⟨0, 0, -1, 0⟩)
      ∧ FMatrix.Identity.GetFrustumFarPlane InvSqrt DELTA OutPlane = (true, ⟨0, 0, 1, 1⟩)
      ∧ FMatrix.Identity.GetFrustumLeftPlane InvSqrt DELTA OutPlane = (true, ⟨-1, 0, 0, 1⟩)
      ∧ FMatrix.Identity.GetFrustumRightPlane InvSqrt DELTA OutPlane = (true, ⟨1, 0, 0, 1⟩)
      ∧ FMatrix.Identity.GetFrustumTopPlane InvSqrt DELTA OutPlane = (true, ⟨0, 1, 0, 1⟩)
      ∧ FMatrix.Identity.GetFrustumBottomPlane InvSqrt DELTA OutPlane
          = (true, ⟨0, -1, 0, 1⟩) := by
  refine ⟨?_, ?_, ?_, ?_, ?_, ?_⟩
  · unfold FMatrix.GetFrustumNearPlane
    simp only [Identity_M_00, Identity_M_01, Identity_M_02, Identity_M_03, Identity_M_10,
      Identity_M_11, Identity_M_12, Identity_M_13, Identity_M_20, Identity_M_21, Identity_M_22,
      Identity_M_23, Identity_M_30, Identity_M_31, Identity_M_32, Identity_M_33]
    rw [identity_plane InvSqrt DELTA hD h1 _ _ _ _ _ (by norm_num)]
    norm_num
  · unfold FMatrix.GetFrustumFarPlane
    simp only [Identity_M_00, Identity_M_01, Identity_M_02, Identity_M_03, Identity_M_10,
      Identity_M_11, Identity_M_12, Identity_M_13, Identity_M_20, Identity_M_21, Identity_M_22,
      Identity_M_23, Identity_M_30, Identity_M_31, Identity_M_32, Identity_M_33]
    rw [identity_plane InvSqrt DELTA hD h1 _ _ _ _ _ (by norm_num)]
    norm_num
  · unfold FMatrix.GetFrustumLeftPlane
    simp only [Identity_M_00, Identity_M_01, Identity_M_02, Identity_M_03, Identity_M_10,
      Identity_M_11, Identity_M_12, Identity_M_13, Identity_M_20, Identity_M_21, Identity_M_22,
      Identity_M_23, Identity_M_30, Identity_M_31, Identity_M_32, Identity_M_33]
    rw [identity_plane InvSqrt DELTA hD h1 _ _ _ _ _ (by norm_num)]
    norm_num
  · unfold FMatrix.GetFrustumRightPlane
    simp only [Identity_M_00, Identity_M_01, Identity_M_02, Identity_M_03, Identity_M_10,
      Identity_M_11, Identity_M_12, Identity_M_13, Identity_M_20, Identity_M_21, Identity_M_22,
      Identity_M_23, Identity_M_30, Identity_M_31, Identity_M_32, Identity_M_33]
    rw [identity_plane InvSqrt DELTA hD h1 _ _ _ _ _ (by norm_num)]
    norm_num
  · unfold FMatrix.GetFrustumTopPlane
    simp only [Identity_M_00, Identity_M_01, Identity_M_02, Identity_M_03, Identity_M_10,
      Identity_M_11, Identity_M_12, Identity_M_13, Identity_M_20, Identity_M_21, Identity_M_22,
      Identity_M_23, Identity_M_30, Identity_M_31, Identity_M_32, Identity_M_33]
    rw [identity_plane InvSqrt DELTA hD h1 _ _ _ _ _ (by norm_num)]
    norm_num
  · unfold FMatrix.GetFrustumBottomPlane
    simp only [Identity_M_00, Identity_M_01, Identity_M_02, Identity_M_03, Identity_M_10,
      Identity_M_11, Identity_M_12, Identity_M_13, Identity_M_20, Identity_M_21, Identity_M_22,
      Identity_M_23, Identity_M_30, Identity_M_31, Identity_M_32, Identity_M_33]
    rw [identity_plane InvSqrt DELTA hD h1 _ _ _ _ _ (by norm_num)]
    norm_num

/-- Witness of C22 at `DELTA = 1e-5`, with `sampleInvSqrtUnit` for `FMath::InvSqrt`. -/
theorem FMatrix.Identity_frustum_planes_witness :
    (1 / 100000 : ℚ) * (1 / 100000) < 1 ∧ sampleInvSqrtUnit 1 = 1
      ∧ FMatrix.Identity.GetFrustumNearPlane sampleInvSqrtUnit (1 / 100000) ⟨0, 0, 0, 0⟩
          = (true, ⟨0, 0, -1, 0⟩)
      ∧ FMatrix.Identity.GetFrustumLeftPlane sampleInvSqrtUnit (1 / 100000) ⟨0, 0, 0, 0⟩
          = (true, ⟨-1, 0, 0, 1⟩) := by
  have h := FMatrix.Identity_frustum_planes sampleInvSqrtUnit (1 / 100000) ⟨0, 0, 0, 0⟩
    (by norm_num) sampleInvSqrtUnit_one
  exact ⟨by norm_num, sampleInvSqrtUnit_one, h.1, h.2.2.1⟩

/-- C23, as stated, fails: for `XAxis = (1,2,3)`, `YAxis = (4,5,6)`, `ZAxis = (7,8,9)` row 0 of
`FBasisVectorMatrix` is `(1,4,7,0)`, not `(XAxis, 0) = (1,2,3,0)`. -/
theorem FBasisVectorMatrix_rows_counterexample :
    (FBasisVectorMatrix ⟨1, 2, 3⟩ ⟨4, 5, 6⟩ ⟨7, 8, 9⟩ ⟨0, 0, 0⟩).M 0 0 = 1
      ∧ (FBasisVectorMatrix ⟨1, 2, 3⟩ ⟨4, 5, 6⟩ ⟨7, 8, 9⟩ ⟨0, 0, 0⟩).M 0 1 = 4
      ∧ (FBasisVectorMatrix ⟨1, 2, 3⟩ ⟨4, 5, 6⟩ ⟨7, 8, 9⟩ ⟨0, 0, 0⟩).M 0 2 = 7
      ∧ (FBasisVectorMatrix ⟨1, 2, 3⟩ ⟨4, 5, 6⟩ ⟨7, 8, 9⟩ ⟨0, 0, 0⟩).M 0 3 = 0
      ∧ ¬ ((FBasisVectorMatrix ⟨1, 2, 3⟩ ⟨4, 5, 6⟩ ⟨7, 8, 9⟩ ⟨0, 0, 0⟩).M 0 1
            = (FVector.mk 1 2 3).Y) := by
  refine ⟨rfl, rfl, rfl, rfl, ?_⟩
  rw [show (FBasisVectorMatrix ⟨1, 2, 3⟩ ⟨4, 5, 6⟩ ⟨7, 8, 9⟩ ⟨0, 0, 0⟩).M 0 1 = 4 from rfl]
  norm_num

/-- C23, amended. For every `XAxis`, `YAxis`, `ZAxis`, `Origin`, `FBasisVectorMatrix` places
the three axis vectors as its first three columns: for `i` in 0, 1, 2, row `i` is
`(XAxis[i], YAxis[i], ZAxis[i], 0)`. -/
theorem FBasisVectorMatrix_columns (XAxis YAxis ZAxis Origin : FVector) (i : Fin 3) :
    (FBasisVectorMatrix XAxis YAxis ZAxis Origin).M i.castSucc 0 = XAxis.Component i
      ∧ (FBasisVectorMatrix XAxis YAxis ZAxis Origin).M i.castSucc 1 = YAxis.Component i
      ∧ (FBasisVectorMatrix XAxis YAxis ZAxis Origin).M i.castSucc 2 = ZAxis.Component i
      ∧ (FBasisVectorMatrix XAxis YAxis ZAxis Origin).M i.castSucc 3 = 0 := by
  fin_cases i <;> exact ⟨rfl, rfl, rfl, rfl⟩

/-- C24. For every `XAxis`, `YAxis`, `ZAxis`, `Origin`, row 3 of `FBasisVectorMatrix` is
`(Origin . XAxis, Origin . YAxis, Origin . ZAxis, 1)`. -/
theorem FBasisVectorMatrix_origin_row (XAxis YAxis ZAxis Origin : FVector) :
    (FBasisVectorMatrix XAxis YAxis ZAxis Origin).M 3 0
        = Origin.X * XAxis.X + Origin.Y * XAxis.Y + Origin.Z * XAxis.Z
      ∧ (FBasisVectorMatrix XAxis YAxis ZAxis Origin).M 3 1
        = Origin.X * YAxis.X + Origin.Y * YAxis.Y + Origin.Z * YAxis.Z
      ∧ (FBasisVectorMatrix XAxis YAxis ZAxis Origin).M 3 2
        = Origin.X * ZAxis.X + Origin.Y * ZAxis.Y + Origin.Z * ZAxis.Z
      ∧ (FBasisVectorMatrix XAxis YAxis ZAxis Origin).M 3 3 = 1 :=
  ⟨rfl, rfl, rfl, rfl⟩

/-- C25, as stated, fails: for `Eye = (0,0,5)`, `LookAt = (0,0,6)`, `Up = (0,1,0)` the axes are
`X = (1,0,0)`, `Y = (0,1,0)`, `Z = (0,0,1)`; entry `[3][2]` of `FLookAtMatrix` is `-5`, that of
`FBasisVectorMatrix(XAxis, YAxis, ZAxis, Eye)` is `5`. -/
theorem FLookAtMatrix_origin_counterexample :
    (FLookAtMatrix sampleInvSqrtUnit ⟨0, 0, 5⟩ ⟨0, 0, 6⟩ ⟨0, 1, 0⟩).M 3 2 = -5
      ∧ (FBasisVectorMatrix
            (FLookAtMatrix.XAxis sampleInvSqrtUnit ⟨0, 0, 5⟩ ⟨0, 0, 6⟩ ⟨0, 1, 0⟩)
            (FLookAtMatrix.YAxis sampleInvSqrtUnit ⟨0, 0, 5⟩ ⟨0, 0, 6⟩ ⟨0, 1, 0⟩)
            (FLookAtMatrix.ZAxis sampleInvSqrtUnit ⟨0, 0, 5⟩ ⟨0, 0, 6⟩) ⟨0, 0, 5⟩).M 3 2 = 5
      ∧ FLookAtMatrix sampleInvSqrtUnit ⟨0, 0, 5⟩ ⟨0, 0, 6⟩ ⟨0, 1, 0⟩
          ≠ FBasisVectorMatrix
            (FLookAtMatrix.XAxis sampleInvSqrtUnit ⟨0, 0, 5⟩ ⟨0, 0, 6⟩ ⟨0, 1, 0⟩)
            (FLookAtMatrix.YAxis sampleInvSqrtUnit ⟨0, 0, 5⟩ ⟨0, 0, 6⟩ ⟨0, 1, 0⟩)
            (FLookAtMatrix.ZAxis sampleInvSqrtUnit ⟨0, 0, 5⟩ ⟨0, 0, 6⟩) ⟨0, 0, 5⟩ := by
  obtain ⟨hz, hx, hy⟩ := lookAt_sample_axes sampleInvSqrtUnit sampleInvSqrtUnit_one 5
  have e6 : (5 : ℚ) + 1 = 6 := by norm_num
  rw [e6] at hz hx hy
  have a : (FLookAtMatrix sampleInvSqrtUnit ⟨0, 0, 5⟩ ⟨0, 0, 6⟩ ⟨0, 1, 0⟩).M 3 2 = -5 := by
    rw [FLookAtMatrix_eq_basis, hz, hx, hy, FBasisVectorMatrix_M]
    norm_num [FVector.dot, FVector.neg, Matrix.vecHead, Matrix.vecTail]
  have b : (FBasisVectorMatrix
            (FLookAtMatrix.XAxis sampleInvSqrtUnit ⟨0, 0, 5⟩ ⟨0, 0, 6⟩ ⟨0, 1, 0⟩)
            (FLookAtMatrix.YAxis sampleInvSqrtUnit ⟨0, 0, 5⟩ ⟨0, 0, 6⟩ ⟨0, 1, 0⟩)
            (FLookAtMatrix.ZAxis sampleInvSqrtUnit ⟨0, 0, 5⟩ ⟨0, 0, 6⟩) ⟨0, 0, 5⟩).M 3 2 = 5 := by
    rw [hz, hx, hy, FBasisVectorMatrix_M]
    norm_num [FVector.dot, Matrix.vecHead, Matrix.vecTail]
  refine ⟨a, b, ?_⟩
  intro h
  rw [h, b] at a
  norm_num at a

/-- C25, amended. For every `Eye`, `LookAt`, `Up`, `FLookAtMatrix(Eye, LookAt, Up)` equals the
basis-vector construction `FBasisVectorMatrix(XAxis, YAxis, ZAxis, Origin = -Eye)` where
`ZAxis = normalize(LookAt - Eye)`, `XAxis = normalize(Up x ZAxis)` and `YAxis = ZAxis x XAxis`. -/
theorem FLookAtMatrix_eq_FBasisVectorMatrix (InvSqrt : ℚ → ℚ) (Eye LookAt Up : FVector) :
    FLookAtMatrix InvSqrt Eye LookAt Up
      = FBasisVectorMatrix
          (((Up.cross ((LookAt.sub Eye).GetSafeNormal InvSqrt SMALL_NUMBER)).GetSafeNormal
            InvSqrt SMALL_NUMBER))
          (((LookAt.sub Eye).GetSafeNormal InvSqrt SMALL_NUMBER).cross
            ((Up.cross ((LookAt.sub Eye).GetSafeNormal InvSqrt SMALL_NUMBER)).GetSafeNormal
              InvSqrt SMALL_NUMBER))
          ((LookAt.sub Eye).GetSafeNormal InvSqrt SMALL_NUMBER)
          (Eye.neg) :=
  FLookAtMatrix_eq_basis InvSqrt Eye LookAt Up

/-- C26. For every `Eye`, `LookAt`, `Up`, row 3 of `FLookAtMatrix` is
`(-Eye . XAxis, -Eye . YAxis, -Eye . ZAxis, 1)`; with `FMath::InvSqrt(1) = 1`, for
`Eye = (0,0,0)`, `LookAt = (0,0,1)`, `Up = (0,1,0)` row 2 of the matrix is `(0,0,1)` on columns
0-2 and row 3 is `(0,0,0,1)`. -/
theorem FLookAtMatrix_origin_row (InvSqrt : ℚ → ℚ) (h1 : InvSqrt 1 = 1) :
    (∀ Eye LookAt Up : FVector,
        (FLookAtMatrix InvSqrt Eye LookAt Up).M 3 0
            = -(Eye.dot (FLookAtMatrix.XAxis InvSqrt Eye LookAt Up))
          ∧ (FLookAtMatrix InvSqrt Eye LookAt Up).M 3 1
            = -(Eye.dot (FLookAtMatrix.YAxis InvSqrt Eye LookAt Up))
          ∧ (FLookAtMatrix InvSqrt Eye LookAt Up).M 3 2
            = -(Eye.dot (FLookAtMatrix.ZAxis InvSqrt Eye LookAt))
          ∧ (FLookAtMatrix InvSqrt Eye LookAt Up).M 3 3 = 1)
      ∧ (FLookAtMatrix InvSqrt ⟨0, 0, 0⟩ ⟨0, 0, 1⟩ ⟨0, 1, 0⟩).M 2 0 = 0
      ∧ (FLookAtMatrix InvSqrt ⟨0, 0, 0⟩ ⟨0, 0, 1⟩ ⟨0, 1, 0⟩).M 2 1 = 0
      ∧ (FLookAtMatrix InvSqrt ⟨0, 0, 0⟩ ⟨0, 0, 1⟩ ⟨0, 1, 0⟩).M 2 2 = 1
      ∧ (FLookAtMatrix InvSqrt ⟨0, 0, 0⟩ ⟨0, 0, 1⟩ ⟨0, 1, 0⟩).M 3 0 = 0
      ∧ (FLookAtMatrix InvSqrt ⟨0, 0, 0⟩ ⟨0, 0, 1⟩ ⟨0, 1, 0⟩).M 3 1 = 0
      ∧ (FLookAtMatrix InvSqrt ⟨0, 0, 0⟩ ⟨0, 0, 1⟩ ⟨0, 1, 0⟩).M 3 2 = 0
      ∧ (FLookAtMatrix InvSqrt ⟨0, 0, 0⟩ ⟨0, 0, 1⟩ ⟨0, 1, 0⟩).M 3 3 = 1 := by
  constructor
  · intro Eye LookAt Up
    rw [FLookAtMatrix_eq_basis, FBasisVectorMatrix_M]
    exact ⟨neg_dot _ _, neg_dot _ _, neg_dot _ _, rfl⟩
  · obtain ⟨hz, hx, hy⟩ := lookAt_sample_axes InvSqrt h1 0
    have e1 : (0 : ℚ) + 1 = 1 := by norm_num
    rw [e1] at hz hx hy
    rw [FLookAtMatrix_eq_basis, hz, hx, hy, FBasisVectorMatrix_M]
    norm_num [FVector.dot, FVector.neg, Matrix.vecHead, Matrix.vecTail]

/-- Witness of C26 with `sampleInvSqrtUnit` for `FMath::InvSqrt`. -/
theorem FLookAtMatrix_origin_row_witness :
    sampleInvSqrtUnit 1 = 1
      ∧ (FLookAtMatrix sampleInvSqrtUnit ⟨0, 0, 0⟩ ⟨0, 0, 1⟩ ⟨0, 1, 0⟩).M 2 2 = 1
      ∧ (FLookAtMatrix sampleInvSqrtUnit ⟨0, 0, 0⟩ ⟨0, 0, 1⟩ ⟨0, 1, 0⟩).M 3 3 = 1 := by
  have h := FLookAtMatrix_origin_row sampleInvSqrtUnit sampleInvSqrtUnit_one
  exact ⟨sampleInvSqrtUnit_one, h.2.2.2.1, h.2.2.2.2.2.2.2⟩

theorem set_M_apply (m : FMatrix) (i j : Fin 4) (v : ℚ) (a b : Fin 4) :
    (m.set i j v).M a b = if a = i ∧ b = j then v else m.M a b := rfl

/-- C27, as stated, fails: on `sampleDistinct`, `Mirror(X, Y)` leaves entry `[0][2]` at 3 and
turns entry `[2][0]` into `-9`. Row 0 (the axis `GetScaledAxis(X)` reads) is not negated, and
the column negated is column 0, chosen by `MirrorAxis`, not column 1. -/
theorem FMatrix.Mirror_rows_counterexample :
    sampleDistinct.M 0 2 = 3 ∧ (sampleDistinct.Mirror EAxis.X EAxis.Y).M 0 2 = 3
      ∧ sampleDistinct.M 2 0 = 9 ∧ (sampleDistinct.Mirror EAxis.X EAxis.Y).M 2 0 = -9
      ∧ sampleDistinct.M 2 1 = 10 ∧ (sampleDistinct.Mirror EAxis.X EAxis.Y).M 2 1 = 10 := by
  refine ⟨rfl, rfl, rfl, ?_, rfl, rfl⟩
  show (9 : ℚ) * -1 = -9
  norm_num

/-- C27, amended. For every matrix `M` and axes `MirrorAxis`, `FlipAxis`,
`Mirror(MirrorAxis, FlipAxis)` negates the column selected by `MirrorAxis` (column 0, 1, 2 for
X, Y, Z, in all four rows) and negates the matrix axis selected by `FlipAxis` (row 0, 1, 2 on
columns 0-2, the row `GetScaledAxis` reads), as two independent negations: the entry in both
is negated twice, every other entry is unchanged. -/
theorem FMatrix.Mirror_entries (m : FMatrix) (MirrorAxis FlipAxis : EAxis) (i j : Fin 4) :
    (m.Mirror MirrorAxis FlipAxis).M i j
      = (if (MirrorAxis = EAxis.X ∧ j = 0) ∨ (MirrorAxis = EAxis.Y ∧ j = 1)
            ∨ (MirrorAxis = EAxis.Z ∧ j = 2) then -1 else 1)
        * (if j ≠ 3 ∧ ((FlipAxis = EAxis.X ∧ i = 0) ∨ (FlipAxis = EAxis.Y ∧ i = 1)
            ∨ (FlipAxis = EAxis.Z ∧ i = 2)) then -1 else 1)
        * m.M i j := by
  cases MirrorAxis <;> cases FlipAxis <;>
    simp only [FMatrix.Mirror, reduceCtorEq, if_true, if_false, set_M_apply, true_and,
      false_and, and_false, or_false, false_or, one_mul] <;>
    fin_cases i <;> fin_cases j <;> simp

/-- C28, the code at a pair that differs in `W` only: `operator==` returns true for
`(0,0,0,0)` and `(0,0,0,1)`, and `operator!=` returns true for the same pair. -/
theorem FIntVector4.eq_ignores_W :
    FIntVector4.eq ⟨0, 0, 0, 0⟩ ⟨0, 0, 0, 1⟩ = true
      ∧ FIntVector4.ne ⟨0, 0, 0, 0⟩ ⟨0, 0, 0, 1⟩ = true
      ∧ (FIntVector4.mk 0 0 0 0).W ≠ (FIntVector4.mk 0 0 0 1).W := by
  decide

/-- C29, the code on a vector at or below the tolerance: `GetSafeNormal` returns
`FVector4(0.f)`, which is `(0, 0, 0, 1)`; its `W` is 1, not 0. -/
theorem FVector4.GetSafeNormal_degenerate_W (InvSqrt : ℚ → ℚ) :
    FVector4.GetSafeNormal InvSqrt ⟨0, 0, 0, 0⟩ SMALL_NUMBER = ⟨0, 0, 0, 1⟩
      ∧ (FVector4.GetSafeNormal InvSqrt ⟨0, 0, 0, 0⟩ SMALL_NUMBER).W ≠ 0 := by
  have h : FVector4.GetSafeNormal InvSqrt ⟨0, 0, 0, 0⟩ SMALL_NUMBER = ⟨0, 0, 0, 1⟩ := by
    unfold FVector4.GetSafeNormal
    simp only
    rw [if_neg (by norm_num [SMALL_NUMBER])]
    rfl
  refine ⟨h, ?_⟩
  rw [h]
  norm_num

theorem GetSafeNormal4_degenerate (InvSqrt : ℚ → ℚ) (V : FVector4) (Tolerance : ℚ)
    (h : V.X ^ 2 + V.Y ^ 2 + V.Z ^ 2 ≤ Tolerance) :
    FVector4.GetSafeNormal InvSqrt V Tolerance = ⟨0, 0, 0, 1⟩ := by
  unfold FVector4.GetSafeNormal
  simp only [← pow_two]
  rw [if_neg (not_lt.mpr h)]
  rfl

/-- C30. For every matrix `M` whose column 3 is `(0,0,0,1)` and whose determinant is not zero,
and every vector `V`, over exact arithmetic
`M.InverseTransformPosition(M.TransformPosition(V)) = V` and
`M.InverseTransformVector(M.TransformVector(V)) = V`. -/
theorem FMatrix.InverseTransform_round_trip (m : FMatrix) (V : FVector)
    (h03 : m.M 0 3 = 0) (h13 : m.M 1 3 = 0) (h23 : m.M 2 3 = 0) (h33 : m.M 3 3 = 1)
    (hDet : m.Determinant ≠ 0) :
    m.InverseTransformPosition (FVector.ofFVector4 (m.TransformPosition V)) = V
      ∧ m.InverseTransformVector (FVector.ofFVector4 (m.TransformVector V)) = V := by
  have hP : (m.TransformPosition V).W = 1 := by
    simp [FMatrix.TransformPosition, FMatrix.TransformFVector4, VectorTransformVector,
      h03, h13, h23, h33]
  have hV : (m.TransformVector V).W = 0 := by
    simp [FMatrix.TransformVector, FMatrix.TransformFVector4, VectorTransformVector,
      h03, h13, h23]
  constructor
  · unfold FMatrix.InverseTransformPosition
    simp only
    have e : m.InverseFast.TransformPosition (FVector.ofFVector4 (m.TransformPosition V))
        = m.InverseFast.TransformFVector4 (m.TransformFVector4 ⟨V.X, V.Y, V.Z, 1⟩) := by
      unfold FMatrix.TransformPosition FVector.ofFVector4
      simp only
      congr 1
      rw [FVector4.mk.injEq]
      exact ⟨rfl, rfl, rfl, hP.symm⟩
    rw [e, inverse_round_trip m hDet]
    rfl
  · unfold FMatrix.InverseTransformVector
    simp only
    have e : m.InverseFast.TransformVector (FVector.ofFVector4 (m.TransformVector V))
        = m.InverseFast.TransformFVector4 (m.TransformFVector4 ⟨V.X, V.Y, V.Z, 0⟩) := by
      unfold FMatrix.TransformVector FVector.ofFVector4
      simp only
      congr 1
      rw [FVector4.mk.injEq]
      exact ⟨rfl, rfl, rfl, hV.symm⟩
    rw [e, inverse_round_trip m hDet]
    rfl

/-- Witness of C30 at `sampleAffine` (column 3 is `(0,0,0,1)`, determinant 8) and
`V = (1, 2, 3)`. -/
theorem FMatrix.InverseTransform_round_trip_witness :
    sampleAffine.M 0 3 = 0 ∧ sampleAffine.M 1 3 = 0 ∧ sampleAffine.M 2 3 = 0
      ∧ sampleAffine.M 3 3 = 1 ∧ sampleAffine.Determinant ≠ 0
      ∧ sampleAffine.InverseTransformPosition
          (FVector.ofFVector4 (sampleAffine.TransformPosition ⟨1, 2, 3⟩)) = ⟨1, 2, 3⟩
      ∧ sampleAffine.InverseTransformVector
          (FVector.ofFVector4 (sampleAffine.TransformVector ⟨1, 2, 3⟩)) = ⟨1, 2, 3⟩ := by
  have hd : sampleAffine.Determinant ≠ 0 := by
    norm_num [FMatrix.Determinant, sampleAffine]
  have h := FMatrix.InverseTransform_round_trip sampleAffine ⟨1, 2, 3⟩ rfl rfl rfl rfl hd
  exact ⟨rfl, rfl, rfl, rfl, hd, h.1, h.2⟩


/-! ## Helper lemmas: the adjugate computed by `Inverse4x4` -/

theorem flat_ofFlat (src : Fin 16 → ℚ) : (FMatrix.ofFlat src).flat = src := by
  funext k
  fin_cases k <;> rfl

theorem Determinant_eq_det_aux (m : FMatrix) :
    m.Determinant = Matrix.det (Matrix.of m.M) := by
  have h3 : (Fin.succ 2 : Fin 4) = 3 := rfl
  have h2 : (Fin.castSucc 2 : Fin 4) = 2 := rfl
  have h1 : (1 : Fin 4) < 3 := by decide
  rw [Matrix.det_succ_row_zero]
  simp [Fin.sum_univ_succ, Matrix.det_fin_three, Matrix.submatrix, Fin.succAbove,
    FMatrix.Determinant, h3, h2, h1]
  ring

theorem Inverse4x4_inv_eq_adjugate (m : FMatrix) (i j : Fin 4) :
    (FMatrix.ofFlat (Inverse4x4.inv m.flat)).M i j = Matrix.adjugate (Matrix.of m.M) i j := by
  have h3 : (Fin.succ 2 : Fin 4) = 3 := rfl
  have h2 : (Fin.castSucc 2 : Fin 4) = 2 := rfl
  have h1 : (1 : Fin 4) < 3 := by decide
  rw [Matrix.adjugate_fin_succ_eq_det_submatrix]
  fin_cases i <;> fin_cases j <;>
    simp [Matrix.det_fin_three, Matrix.submatrix, Fin.succAbove, Inverse4x4.inv, h3, h2, h1,
      flat_0, flat_1, flat_2, flat_3, flat_4, flat_5, flat_6, flat_7, flat_8, flat_9, flat_10,
      flat_11, flat_12, flat_13, flat_14, flat_15, ofFlat_0, ofFlat_1, ofFlat_2, ofFlat_3,
      ofFlat_4, ofFlat_5, ofFlat_6, ofFlat_7, ofFlat_8, ofFlat_9, ofFlat_10, ofFlat_11,
      ofFlat_12, ofFlat_13, ofFlat_14, ofFlat_15, vec16_0, vec16_1, vec16_2, vec16_3, vec16_4,
      vec16_5, vec16_6, vec16_7, vec16_8, vec16_9, vec16_10, vec16_11, vec16_12, vec16_13,
      vec16_14, vec16_15] <;>
    ring

theorem Inverse4x4_expansion_src (src : Fin 16 → ℚ) :
    src 0 * Inverse4x4.inv src 0 + src 1 * Inverse4x4.inv src 4
      + src 2 * Inverse4x4.inv src 8 + src 3 * Inverse4x4.inv src 12
      = (FMatrix.ofFlat src).Determinant := by
  have h := Inverse4x4_det_expansion (FMatrix.ofFlat src)
  rw [flat_ofFlat] at h
  exact h

theorem Inverse4x4_det_src (src : Fin 16 → ℚ) :
    Inverse4x4.det src
      = if (FMatrix.ofFlat src).Determinant = 0 then 0
        else 1 / (FMatrix.ofFlat src).Determinant := by
  unfold Inverse4x4.det
  simp only [Inverse4x4_expansion_src]
  by_cases h : (FMatrix.ofFlat src).Determinant = 0
  · rw [if_neg (not_not.mpr h), if_pos h, h]
  · rw [if_pos h, if_neg h]

theorem Inverse4x4_M (src : Fin 16 → ℚ) (i j : Fin 4) :
    (FMatrix.ofFlat (Inverse4x4 src)).M i j
      = (FMatrix.ofFlat (Inverse4x4.inv src)).M i j * Inverse4x4.det src := rfl

/-! ## Claims on `Inverse4x4` -/

/-- C36. For every sixteen entries, the determinant `Inverse4x4` computes,
`s0*inv[0] + s1*inv[4] + s2*inv[8] + s3*inv[12]`, equals `FMatrix::Determinant()` of the
matrix storing the same entries, over exact arithmetic; so `Inverse4x4` takes the reciprocal
exactly when `Determinant()` is not zero, the case in which `FMatrix::Inverse` calls it. -/
theorem Inverse4x4_det_eq_Determinant (src : Fin 16 → ℚ) :
    src 0 * Inverse4x4.inv src 0 + src 1 * Inverse4x4.inv src 4
        + src 2 * Inverse4x4.inv src 8 + src 3 * Inverse4x4.inv src 12
        = (FMatrix.ofFlat src).Determinant
      ∧ Inverse4x4.det src
        = (if (FMatrix.ofFlat src).Determinant = 0 then 0
           else 1 / (FMatrix.ofFlat src).Determinant)
      ∧ (∀ m : FMatrix,
          m.flat 0 * Inverse4x4.inv m.flat 0 + m.flat 1 * Inverse4x4.inv m.flat 4
            + m.flat 2 * Inverse4x4.inv m.flat 8 + m.flat 3 * Inverse4x4.inv m.flat 12
            = m.Determinant) :=
  ⟨Inverse4x4_expansion_src src, Inverse4x4_det_src src, Inverse4x4_det_expansion⟩

/-! ## Helper lemmas: transposition, 3x3 determinant, adjugate -/

theorem GetTransposed_M (m : FMatrix) (i j : Fin 4) : m.GetTransposed.M i j = m.M j i := by
  fin_cases i <;> fin_cases j <;> rfl

theorem block3_apply (m : FMatrix) (i j : Fin 3) :
    m.block3 i j = m.M i.castSucc j.castSucc := rfl

theorem TransposeAdjoint_block (m : FMatrix) :
    m.TransposeAdjoint.block3
      = Matrix.of ![![m.M 1 1 * m.M 2 2 - m.M 1 2 * m.M 2 1,
                      m.M 1 2 * m.M 2 0 - m.M 1 0 * m.M 2 2,
                      m.M 1 0 * m.M 2 1 - m.M 1 1 * m.M 2 0],
                    ![m.M 2 1 * m.M 0 2 - m.M 2 2 * m.M 0 1,
                      m.M 2 2 * m.M 0 0 - m.M 2 0 * m.M 0 2,
                      m.M 2 0 * m.M 0 1 - m.M 2 1 * m.M 0 0],
                    ![m.M 0 1 * m.M 1 2 - m.M 0 2 * m.M 1 1,
                      m.M 0 2 * m.M 1 0 - m.M 0 0 * m.M 1 2,
                      m.M 0 0 * m.M 1 1 - m.M 0 1 * m.M 1 0]] := by
  ext i j
  fin_cases i <;> fin_cases j <;> rfl

theorem block3_eq (m : FMatrix) :
    m.block3 = Matrix.of ![![m.M 0 0, m.M 0 1, m.M 0 2],
                           ![m.M 1 0, m.M 1 1, m.M 1 2],
                           ![m.M 2 0, m.M 2 1, m.M 2 2]] := by
  ext i j
  fin_cases i <;> fin_cases j <;> rfl

theorem RotDeterminant_eq_det (m : FMatrix) : m.RotDeterminant = Matrix.det m.block3 := by
  rw [block3_eq, Matrix.det_fin_three]
  simp [FMatrix.RotDeterminant]
  ring

/-! ## Claims on determinants, transposition and the adjugate -/

/-- C32, amended. Over exact arithmetic, for every matrix `M`, `RotDeterminant()` is the
determinant of the upper-left 3x3
block of `M` (rows 0-2, columns 0-2); overwriting any entry of row 3 or of column 3 does not
change it. -/
theorem FMatrix.RotDeterminant_eq_det_block (m : FMatrix) :
    m.RotDeterminant = Matrix.det m.block3
      ∧ (∀ (j : Fin 4) (v : ℚ), (m.set 3 j v).RotDeterminant = m.RotDeterminant)
      ∧ (∀ (i : Fin 4) (v : ℚ), (m.set i 3 v).RotDeterminant = m.RotDeterminant) := by
  refine ⟨RotDeterminant_eq_det m, ?_, ?_⟩
  · intro j v
    simp [FMatrix.RotDeterminant, set_M_apply]
  · intro i v
    simp [FMatrix.RotDeterminant, set_M_apply]

/-- C33, amended. Over exact arithmetic, for every matrix `M`, with `A` the upper-left 3x3
block of `M` and `C` the upper-left 3x3 block of `M.TransposeAdjoint()`: `A * transpose(C) = transpose(C) * A =
RotDeterminant(M) * I3`, `transpose(C)` is the adjugate of `A` (so `C` is its cofactor
matrix), and row 3 and column 3 of `TransposeAdjoint()` are those of the identity matrix. -/
theorem FMatrix.TransposeAdjoint_cofactor (m : FMatrix) :
    m.block3 * (m.TransposeAdjoint.block3).transpose
        = m.RotDeterminant • (1 : Matrix (Fin 3) (Fin 3) ℚ)
      ∧ (m.TransposeAdjoint.block3).transpose * m.block3
        = m.RotDeterminant • (1 : Matrix (Fin 3) (Fin 3) ℚ)
      ∧ (m.TransposeAdjoint.block3).transpose = Matrix.adjugate m.block3
      ∧ (∀ j : Fin 4, m.TransposeAdjoint.M 3 j = FMatrix.Identity.M 3 j)
      ∧ (∀ i : Fin 4, m.TransposeAdjoint.M i 3 = FMatrix.Identity.M i 3) := by
  have hadj : (m.TransposeAdjoint.block3).transpose = Matrix.adjugate m.block3 := by
    rw [TransposeAdjoint_block, block3_eq, Matrix.adjugate_fin_three]
    ext i j
    fin_cases i <;> fin_cases j <;> simp <;> ring
  refine ⟨?_, ?_, hadj, ?_, ?_⟩
  · rw [hadj, Matrix.mul_adjugate, RotDeterminant_eq_det]
  · rw [hadj, Matrix.adjugate_mul, RotDeterminant_eq_det]
  · intro j
    rw [Identity_M]
    fin_cases j <;> simp [FMatrix.TransposeAdjoint, Matrix.vecHead, Matrix.vecTail]
  · intro i
    rw [Identity_M]
    fin_cases i <;> simp [FMatrix.TransposeAdjoint, Matrix.vecHead, Matrix.vecTail]

/-- C37. For every matrix `M`, transposing twice gives `M` back, and the transposed matrix has
the same `Determinant()`, over exact arithmetic. -/
theorem FMatrix.GetTransposed_involutive_Determinant (m : FMatrix) :
    m.GetTransposed.GetTransposed = m
      ∧ m.GetTransposed.Determinant = m.Determinant := by
  constructor
  · apply FMatrix.ext
    funext i j
    rw [GetTransposed_M, GetTransposed_M]
  · simp only [FMatrix.Determinant, GetTransposed_M]
    ring

/-- C38. For every matrix `M` and every `MirrorAxis`, `FlipAxis` in X, Y, Z (equal or
different), `Mirror(MirrorAxis, FlipAxis)` leaves `RotDeterminant()` unchanged. -/
theorem FMatrix.Mirror_RotDeterminant (m : FMatrix) (MirrorAxis FlipAxis : EAxis)
    (hMirror : MirrorAxis ≠ EAxis.None) (hFlip : FlipAxis ≠ EAxis.None) :
    (m.Mirror MirrorAxis FlipAxis).RotDeterminant = m.RotDeterminant := by
  cases MirrorAxis <;> cases FlipAxis <;>
    first
    | exact absurd rfl hMirror
    | exact absurd rfl hFlip
    | (simp only [FMatrix.Mirror, FMatrix.RotDeterminant, reduceCtorEq, if_true, if_false,
        set_M_apply]
       simp
       ring)

theorem sampleAffine_RotDeterminant : sampleAffine.RotDeterminant = 8 := by
  norm_num [FMatrix.RotDeterminant, sampleAffine, Matrix.vecHead, Matrix.vecTail]

theorem FMatrix.Mirror_RotDeterminant_witness :
    sampleAffine.RotDeterminant = 8
      ∧ (sampleAffine.Mirror EAxis.X EAxis.Y).RotDeterminant = sampleAffine.RotDeterminant :=
  ⟨sampleAffine_RotDeterminant,
    FMatrix.Mirror_RotDeterminant sampleAffine EAxis.X EAxis.Y (by decide) (by decide)⟩

/-! ## Helper lemmas: shortest route, symmetry, compression of decompressed values -/

theorem abs_add_turn_ge (x : ℚ) (m : ℤ) (h1 : -180 < x) (h2 : x ≤ 180) :
    |x| ≤ |x + 360 * (m : ℚ)| := by
  rcases lt_trichotomy m 0 with hm | hm | hm
  · have hq : (m : ℚ) ≤ -1 := by exact_mod_cast Int.le_sub_one_of_lt hm
    rw [abs_of_nonpos (by linarith : x + 360 * (m : ℚ) ≤ 0)]
    exact abs_le.mpr ⟨by linarith, by linarith⟩
  · subst hm
    simp
  · have hq : (1 : ℚ) ≤ (m : ℚ) := by exact_mod_cast Int.add_one_le_of_lt hm
    rw [abs_of_nonneg (by linarith : 0 ≤ x + 360 * (m : ℚ))]
    exact abs_le.mpr ⟨by linarith, by linarith⟩

theorem abs_NormalizeAxis_neg (x : ℚ) :
    |FRotator.NormalizeAxis (-x)| = |FRotator.NormalizeAxis x| := by
  obtain ⟨k, hk⟩ := NormalizeAxis_eq_sub x
  obtain ⟨l, hl⟩ := NormalizeAxis_eq_sub (-x)
  obtain ⟨a1, a2⟩ := NormalizeAxis_range x
  obtain ⟨b1, b2⟩ := NormalizeAxis_range (-x)
  have hsum : FRotator.NormalizeAxis (-x) + FRotator.NormalizeAxis x
      = 360 * ((-(k + l) : ℤ) : ℚ) := by
    rw [hk, hl]; push_cast; ring
  have hlo : ((-1 : ℤ) : ℚ) < ((-(k + l) : ℤ) : ℚ) := by
    have : (-360 : ℚ) < 360 * ((-(k + l) : ℤ) : ℚ) := by rw [← hsum]; linarith
    push_cast at this ⊢
    linarith
  have hhi : ((-(k + l) : ℤ) : ℚ) < ((2 : ℤ) : ℚ) := by
    have : 360 * ((-(k + l) : ℤ) : ℚ) ≤ 360 := by rw [← hsum]; linarith
    push_cast at this ⊢
    linarith
  have ilo : (-1 : ℤ) < -(k + l) := by exact_mod_cast hlo
  have ihi : -(k + l) < (2 : ℤ) := by exact_mod_cast hhi
  have hcase : -(k + l) = 0 ∨ -(k + l) = 1 := by omega
  rcases hcase with h0 | h1
  · rw [h0] at hsum
    have e : FRotator.NormalizeAxis (-x) = -FRotator.NormalizeAxis x := by
      push_cast at hsum; linarith
    rw [e, abs_neg]
  · rw [h1] at hsum
    push_cast at hsum
    have e1 : FRotator.NormalizeAxis x = 180 := by linarith
    have e2 : FRotator.NormalizeAxis (-x) = 180 := by linarith
    rw [e1, e2]

theorem RoundToInt_natCast (n : ℕ) : FMath.RoundToInt (n : ℚ) = (n : ℤ) := by
  unfold FMath.RoundToInt
  rw [if_pos (Nat.cast_nonneg n), Int.floor_eq_iff]
  push_cast
  constructor <;> linarith

theorem compress_of_natCast (N : ℕ) (n : ℕ) (hn : n < N) :
    ((FMath.RoundToInt (n : ℚ)) % (N : ℤ)).toNat = n := by
  rw [RoundToInt_natCast]
  have h : ((n : ℤ)) % (N : ℤ) = (n : ℤ) :=
    Int.emod_eq_of_lt (Int.natCast_nonneg n) (by exact_mod_cast hn)
  rw [h]
  exact Int.toNat_natCast n

/-! ## Claims on FRotator: shortest route, symmetry, compression after decompression -/

/-- C34, amended. Over exact arithmetic, for every angle `a`, `NormalizeAxis(a) - a` is an
integer multiple of 360 and `|NormalizeAxis(a)| <= |a + 360*k|` for every integer `k` (the
shortest-route representative); likewise `ClampAxis(a) - a` is an integer multiple of 360. -/
theorem FRotator.NormalizeAxis_shortest_route (a : ℚ) :
    (∃ n : ℤ, FRotator.NormalizeAxis a - a = 360 * (n : ℚ))
      ∧ (∀ k : ℤ, |FRotator.NormalizeAxis a| ≤ |a + 360 * (k : ℚ)|)
      ∧ (∃ n : ℤ, FRotator.ClampAxis a - a = 360 * (n : ℚ)) := by
  obtain ⟨t, ht⟩ := NormalizeAxis_eq_sub a
  obtain ⟨c, hc⟩ := ClampAxis_eq_sub a
  obtain ⟨r1, r2⟩ := NormalizeAxis_range a
  refine ⟨⟨-t, by rw [ht]; push_cast; ring⟩, ?_, ⟨-c, by rw [hc]; push_cast; ring⟩⟩
  intro k
  have e : a + 360 * (k : ℚ) = FRotator.NormalizeAxis a + 360 * ((k + t : ℤ) : ℚ) := by
    rw [ht]; push_cast; ring
  rw [e]
  exact abs_add_turn_ge _ _ r1 r2

/-- C39, amended. Over exact arithmetic, for every pair of rotators `A`, `B` and every
tolerance,
`A.Equals(B, tolerance) = B.Equals(A, tolerance)`. -/
theorem FRotator.Equals_symm (A B : FRotator) (Tolerance : ℚ) :
    A.Equals B Tolerance = B.Equals A Tolerance := by
  have e : ∀ x y : ℚ, FMath.Abs (FRotator.NormalizeAxis (x - y))
      = FMath.Abs (FRotator.NormalizeAxis (y - x)) := by
    intro x y
    rw [Abs_eq_abs, Abs_eq_abs, ← abs_NormalizeAxis_neg (y - x), neg_sub]
  unfold FRotator.Equals
  rw [e A.Pitch B.Pitch, e A.Yaw B.Yaw, e A.Roll B.Roll]

/-- C40. For every byte `b` in `[0, 255]`, `CompressAxisToByte(DecompressAxisFromByte(b)) = b`
and `DecompressAxisFromByte(b)` lies in `[0, 360)`; for every 16-bit value `s` in
`[0, 65535]`, `CompressAxisToShort(DecompressAxisFromShort(s)) = s` and
`DecompressAxisFromShort(s)` lies in `[0, 360)`. -/
theorem FRotator.compress_decompress (b s : ℕ) (hb : b ≤ 255) (hs : s ≤ 65535) :
    FRotator.CompressAxisToByte (FRotator.DecompressAxisFromByte b) = b
      ∧ 0 ≤ FRotator.DecompressAxisFromByte b ∧ FRotator.DecompressAxisFromByte b < 360
      ∧ FRotator.CompressAxisToShort (FRotator.DecompressAxisFromShort s) = s
      ∧ 0 ≤ FRotator.DecompressAxisFromShort s ∧ FRotator.DecompressAxisFromShort s < 360 := by
  have hbq : (b : ℚ) ≤ 255 := by exact_mod_cast hb
  have hsq : (s : ℚ) ≤ 65535 := by exact_mod_cast hs
  have hb0 : (0 : ℚ) ≤ (b : ℚ) := Nat.cast_nonneg b
  have hs0 : (0 : ℚ) ≤ (s : ℚ) := Nat.cast_nonneg s
  have eb : (b : ℚ) * 360 / 256 * 256 / 360 = (b : ℚ) := by ring
  have es : (s : ℚ) * 360 / 65536 * 65536 / 360 = (s : ℚ) := by ring
  refine ⟨?_, ?_, ?_, ?_, ?_, ?_⟩
  · unfold FRotator.CompressAxisToByte FRotator.DecompressAxisFromByte
    rw [eb]
    exact compress_of_natCast 256 b (by omega)
  · unfold FRotator.DecompressAxisFromByte
    positivity
  · unfold FRotator.DecompressAxisFromByte
    linarith
  · unfold FRotator.CompressAxisToShort FRotator.DecompressAxisFromShort
    rw [es]
    exact compress_of_natCast 65536 s (by omega)
  · unfold FRotator.DecompressAxisFromShort
    positivity
  · unfold FRotator.DecompressAxisFromShort
    linarith

theorem FRotator.compress_decompress_witness :
    FRotator.CompressAxisToByte (FRotator.DecompressAxisFromByte 255) = 255
      ∧ 0 ≤ FRotator.DecompressAxisFromByte 255 ∧ FRotator.DecompressAxisFromByte 255 < 360
      ∧ FRotator.CompressAxisToShort (FRotator.DecompressAxisFromShort 65535) = 65535
      ∧ 0 ≤ FRotator.DecompressAxisFromShort 65535
      ∧ FRotator.DecompressAxisFromShort 65535 < 360 :=
  FRotator.compress_decompress 255 65535 (by decide) (by decide)

/-! ## Helper lemmas: best axis vectors -/

theorem roundHalfEven_of_near (x : ℚ) (n : ℤ) (h1 : (n : ℚ) - 1 / 2 < x)
    (h2 : x < (n : ℚ) + 1 / 2) : roundHalfEven x = n := by
  unfold roundHalfEven
  have hf1 := Int.floor_le x
  have hf2 := Int.lt_floor_add_one x
  by_cases hx : (n : ℚ) ≤ x
  · have hfl : ⌊x⌋ = n := by
      rw [Int.floor_eq_iff]; constructor <;> linarith
    rw [hfl, if_pos (by linarith)]
  · have hfl : ⌊x⌋ = n - 1 := by
      rw [Int.floor_eq_iff]; push_cast; constructor <;> linarith
    rw [hfl]
    push_cast
    rw [if_neg (by linarith), if_pos (by linarith)]
    ring

theorem roundHalfEven_tie_even (x : ℚ) (n : ℤ) (h : x = (n : ℚ) + 1 / 2) (hn : n % 2 = 0) :
    roundHalfEven x = n := by
  unfold roundHalfEven
  have hfl : ⌊x⌋ = n := by
    rw [Int.floor_eq_iff]; constructor <;> linarith
  rw [hfl, if_neg (by linarith), if_neg (by linarith), if_pos hn]

theorem roundHalfEven_tie_odd (x : ℚ) (n : ℤ) (h : x = (n : ℚ) + 1 / 2) (hn : n % 2 = 1) :
    roundHalfEven x = n + 1 := by
  unfold roundHalfEven
  have hfl : ⌊x⌋ = n := by
    rw [Int.floor_eq_iff]; constructor <;> linarith
  rw [hfl, if_neg (by linarith), if_neg (by linarith), if_neg (by omega)]

theorem roundHalfEven_intCast (n : ℤ) : roundHalfEven (n : ℚ) = n :=
  roundHalfEven_of_near _ n (by linarith) (by linarith)

theorem log_two_eq (q : ℚ) (e : ℤ) (h1 : (2 : ℚ) ^ e ≤ q) (h2 : q < (2 : ℚ) ^ (e + 1)) :
    Int.log 2 q = e := by
  have hq : 0 < q := lt_of_lt_of_le (by positivity) h1
  have a : e ≤ Int.log 2 q :=
    (Int.zpow_le_iff_le_log (by norm_num) hq).mp (by exact_mod_cast h1)
  have b : Int.log 2 q < e + 1 :=
    (Int.lt_zpow_iff_log_lt (by norm_num) hq).mp (by exact_mod_cast h2)
  omega

theorem ulpExponent_normal (p : ℕ) (emin : ℤ) (q : ℚ) (e : ℤ) (h1 : (2 : ℚ) ^ e ≤ |q|)
    (h2 : |q| < (2 : ℚ) ^ (e + 1)) (he : emin ≤ e) :
    ulpExponent p emin q = e - ((p : ℤ) - 1) := by
  unfold ulpExponent
  rw [log_two_eq _ e h1 h2, max_eq_left he]

theorem ulpExponent_subnormal (p : ℕ) (emin : ℤ) (q : ℚ) (h0 : 0 < |q|)
    (h : |q| < (2 : ℚ) ^ emin) : ulpExponent p emin q = emin - ((p : ℤ) - 1) := by
  unfold ulpExponent
  have hl : Int.log 2 |q| < emin :=
    (Int.lt_zpow_iff_log_lt (by norm_num) h0).mp (by exact_mod_cast h)
  rw [max_eq_right (le_of_lt hl)]

theorem roundTo_zero (p : ℕ) (emin : ℤ) : roundTo p emin 0 = 0 := by
  unfold roundTo
  rw [zero_div]
  have h : roundHalfEven 0 = 0 := by
    have := roundHalfEven_intCast 0
    simpa using this
  rw [h]
  simp

theorem roundTo_eval (p : ℕ) (emin : ℤ) (q u : ℚ) (e n : ℤ) (h1 : (2 : ℚ) ^ e ≤ |q|)
    (h2 : |q| < (2 : ℚ) ^ (e + 1)) (he : emin ≤ e) (hu : u = (2 : ℚ) ^ (e - ((p : ℤ) - 1)))
    (h3 : roundHalfEven (q / u) = n) : roundTo p emin q = (n : ℚ) * u := by
  unfold roundTo
  rw [ulpExponent_normal p emin q e h1 h2 he, ← hu, h3]

theorem roundTo_eval_subnormal (p : ℕ) (emin : ℤ) (q u : ℚ) (n : ℤ) (h0 : 0 < |q|)
    (h2 : |q| < (2 : ℚ) ^ emin) (hu : u = (2 : ℚ) ^ (emin - ((p : ℤ) - 1)))
    (h3 : roundHalfEven (q / u) = n) : roundTo p emin q = (n : ℚ) * u := by
  unfold roundTo
  rw [ulpExponent_subnormal p emin q h0 h2, ← hu, h3]

theorem F32_round_zero : F32.round 0 = 0 := roundTo_zero 24 (-126)

theorem F64_round_zero : F64.round 0 = 0 := roundTo_zero 53 (-1022)

theorem F32_round_eval (q u : ℚ) (e n : ℤ) (h1 : (2 : ℚ) ^ e ≤ |q|)
    (h2 : |q| < (2 : ℚ) ^ (e + 1)) (he : -126 ≤ e) (hu : u = (2 : ℚ) ^ (e - 23))
    (h3 : roundHalfEven (q / u) = n) : F32.round q = (n : ℚ) * u :=
  roundTo_eval 24 (-126) q u e n h1 h2 he (by rw [hu]; norm_num) h3

theorem F32_round_eval_subnormal (q u : ℚ) (n : ℤ) (h0 : 0 < |q|)
    (h2 : |q| < (2 : ℚ) ^ (-126 : ℤ)) (hu : u = (2 : ℚ) ^ (-149 : ℤ))
    (h3 : roundHalfEven (q / u) = n) : F32.round q = (n : ℚ) * u :=
  roundTo_eval_subnormal 24 (-126) q u n h0 h2 (by rw [hu]; norm_num) h3

theorem F64_round_eval (q u : ℚ) (e n : ℤ) (h1 : (2 : ℚ) ^ e ≤ |q|)
    (h2 : |q| < (2 : ℚ) ^ (e + 1)) (he : -1022 ≤ e) (hu : u = (2 : ℚ) ^ (e - 52))
    (h3 : roundHalfEven (q / u) = n) : F64.round q = (n : ℚ) * u :=
  roundTo_eval 53 (-1022) q u e n h1 h2 he (by rw [hu]; norm_num) h3

theorem Fmod_of_small (x : ℚ) (h1 : -360 < x) (h2 : x < 360) : FMath.Fmod x 360 = x := by
  unfold FMath.Fmod FMath.TruncToInt
  split_ifs with h
  · have : ⌊x / 360⌋ = 0 := by
      rw [Int.floor_eq_iff]
      constructor
      · simpa using h
      · rw [div_lt_iff₀ (by norm_num)]; simpa using h2
    rw [this]; simp
  · have : ⌈x / 360⌉ = 0 := by
      rw [Int.ceil_eq_iff]
      constructor
      · rw [lt_div_iff₀ (by norm_num)]; norm_num; linarith
      · exact le_of_lt (not_le.mp h)
    rw [this]; simp

/-! ## Binary32 evaluations: angles -/

theorem F32_round_neg_unit_step : F32.round (-(1 + 1 / 2 ^ 20)) = -(1 + 1 / 2 ^ 20) := by
  have h := F32_round_eval (-(1 + 1 / 2 ^ 20)) (1 / 2 ^ 23) (0) (-8388616)
    (by norm_num [abs_of_pos]) (by norm_num [abs_of_pos]) (by norm_num) (by norm_num)
    (roundHalfEven_of_near _ _ (by norm_num) (by norm_num))
  rw [h]
  norm_num

theorem F32_round_unit_step_sub_zero : F32.round (1 + 1 / 2 ^ 20 - 0) = 1 + 1 / 2 ^ 20 := by
  have h := F32_round_eval (1 + 1 / 2 ^ 20 - 0) (1 / 2 ^ 23) (0) 8388616
    (by norm_num [abs_of_pos]) (by norm_num [abs_of_pos]) (by norm_num) (by norm_num)
    (roundHalfEven_of_near _ _ (by norm_num) (by norm_num))
  rw [h]
  norm_num

theorem F32_round_zero_sub_unit_step : F32.round (0 - (1 + 1 / 2 ^ 20)) = -(1 + 1 / 2 ^ 20) := by
  have h := F32_round_eval (0 - (1 + 1 / 2 ^ 20)) (1 / 2 ^ 23) (0) (-8388616)
    (by norm_num [abs_of_pos]) (by norm_num [abs_of_pos]) (by norm_num) (by norm_num)
    (roundHalfEven_of_near _ _ (by norm_num) (by norm_num))
  rw [h]
  norm_num

theorem F32_round_neg_unit_step_add_360 : F32.round (-(1 + 1 / 2 ^ 20) + 360) = 359 := by
  have h := F32_round_eval (-(1 + 1 / 2 ^ 20) + 360) (1 / 2 ^ 15) (8) 11763712
    (by norm_num [abs_of_pos]) (by norm_num [abs_of_pos]) (by norm_num) (by norm_num)
    (roundHalfEven_of_near _ _ (by norm_num) (by norm_num))
  rw [h]
  norm_num

theorem F32_round_359_sub_360 : F32.round (359 - 360) = -1 := by
  have h := F32_round_eval (359 - 360) (1 / 2 ^ 23) (0) (-8388608)
    (by norm_num [abs_of_pos]) (by norm_num [abs_of_pos]) (by norm_num) (by norm_num)
    (roundHalfEven_of_near _ _ (by norm_num) (by norm_num))
  rw [h]
  norm_num

theorem F32_round_712 : F32.round (712) = 712 := by
  have h := F32_round_eval (712) (1 / 2 ^ 14) (9) 11665408
    (by norm_num [abs_of_pos]) (by norm_num [abs_of_pos]) (by norm_num) (by norm_num)
    (roundHalfEven_of_near _ _ (by norm_num) (by norm_num))
  rw [h]
  norm_num

theorem F32_round_neg_two_pow_27 : F32.round (-134217728) = -134217728 := by
  have h := F32_round_eval (-134217728) (2 ^ 4) (27) (-8388608)
    (by norm_num [abs_of_pos]) (by norm_num [abs_of_pos]) (by norm_num) (by norm_num)
    (roundHalfEven_of_near _ _ (by norm_num) (by norm_num))
  rw [h]
  norm_num

theorem F32_round_turns_difference : F32.round (-134217728 - 712) = -134218432 := by
  have h := F32_round_eval (-134217728 - 712) (2 ^ 4) (27) ((-8388653) + 1)
    (by norm_num [abs_of_pos]) (by norm_num [abs_of_pos]) (by norm_num) (by norm_num)
    (roundHalfEven_tie_odd _ (-8388653) (by norm_num) (by norm_num))
  rw [h]
  norm_num

theorem F32_round_neg_352_add_360 : F32.round (-352 + 360) = 8 := by
  have h := F32_round_eval (-352 + 360) (1 / 2 ^ 20) (3) 8388608
    (by norm_num [abs_of_pos]) (by norm_num [abs_of_pos]) (by norm_num) (by norm_num)
    (roundHalfEven_of_near _ _ (by norm_num) (by norm_num))
  rw [h]
  norm_num

theorem F32_round_three_steps : F32.round (3 / 2 ^ 18) = 3 / 2 ^ 18 := by
  have h := F32_round_eval (3 / 2 ^ 18) (1 / 2 ^ 40) (-17) 12582912
    (by norm_num [abs_of_pos]) (by norm_num [abs_of_pos]) (by norm_num) (by norm_num)
    (roundHalfEven_of_near _ _ (by norm_num) (by norm_num))
  rw [h]
  norm_num

theorem F32_round_180_sub_three_steps : F32.round (180 - 3 / 2 ^ 18) = 180 - 1 / 2 ^ 16 := by
  have h := F32_round_eval (180 - 3 / 2 ^ 18) (1 / 2 ^ 16) (7) 11796479
    (by norm_num [abs_of_pos]) (by norm_num [abs_of_pos]) (by norm_num) (by norm_num)
    (roundHalfEven_of_near _ _ (by norm_num) (by norm_num))
  rw [h]
  norm_num

theorem F32_round_180_sub_180_sub_step : F32.round (180 - (180 - 1 / 2 ^ 16)) = 1 / 2 ^ 16 := by
  have h := F32_round_eval (180 - (180 - 1 / 2 ^ 16)) (1 / 2 ^ 39) (-16) 8388608
    (by norm_num [abs_of_pos]) (by norm_num [abs_of_pos]) (by norm_num) (by norm_num)
    (roundHalfEven_of_near _ _ (by norm_num) (by norm_num))
  rw [h]
  norm_num

theorem F32_round_0_add_180 : F32.round (0 + 180) = 180 := by
  have h := F32_round_eval (0 + 180) (1 / 2 ^ 16) (7) 11796480
    (by norm_num [abs_of_pos]) (by norm_num [abs_of_pos]) (by norm_num) (by norm_num)
    (roundHalfEven_of_near _ _ (by norm_num) (by norm_num))
  rw [h]
  norm_num

theorem F32_round_180_add_180 : F32.round (180 + 180) = 360 := by
  have h := F32_round_eval (180 + 180) (1 / 2 ^ 15) (8) 11796480
    (by norm_num [abs_of_pos]) (by norm_num [abs_of_pos]) (by norm_num) (by norm_num)
    (roundHalfEven_of_near _ _ (by norm_num) (by norm_num))
  rw [h]
  norm_num

theorem F32_round_step_sub_three_steps : F32.round (1 / 2 ^ 16 - 3 / 2 ^ 18) = 1 / 2 ^ 18 := by
  have h := F32_round_eval (1 / 2 ^ 16 - 3 / 2 ^ 18) (1 / 2 ^ 41) (-18) 8388608
    (by norm_num [abs_of_pos]) (by norm_num [abs_of_pos]) (by norm_num) (by norm_num)
    (roundHalfEven_of_near _ _ (by norm_num) (by norm_num))
  rw [h]
  norm_num

theorem F32_round_360_sub_0 : F32.round (360 - 0) = 360 := by
  have h := F32_round_eval (360 - 0) (1 / 2 ^ 15) (8) 11796480
    (by norm_num [abs_of_pos]) (by norm_num [abs_of_pos]) (by norm_num) (by norm_num)
    (roundHalfEven_of_near _ _ (by norm_num) (by norm_num))
  rw [h]
  norm_num

theorem F32_round_ten_pow_eight : F32.round (100000000) = 100000000 := by
  have h := F32_round_eval (100000000) (2 ^ 3) (26) 12500000
    (by norm_num [abs_of_pos]) (by norm_num [abs_of_pos]) (by norm_num) (by norm_num)
    (roundHalfEven_of_near _ _ (by norm_num) (by norm_num))
  rw [h]
  norm_num

theorem F32_round_lerp_target : F32.round (100000176) = 100000176 := by
  have h := F32_round_eval (100000176) (2 ^ 3) (26) 12500022
    (by norm_num [abs_of_pos]) (by norm_num [abs_of_pos]) (by norm_num) (by norm_num)
    (roundHalfEven_of_near _ _ (by norm_num) (by norm_num))
  rw [h]
  norm_num

theorem F32_round_lerp_difference : F32.round (100000176 - 100000000) = 176 := by
  have h := F32_round_eval (100000176 - 100000000) (1 / 2 ^ 16) (7) 11534336
    (by norm_num [abs_of_pos]) (by norm_num [abs_of_pos]) (by norm_num) (by norm_num)
    (roundHalfEven_of_near _ _ (by norm_num) (by norm_num))
  rw [h]
  norm_num

theorem F32_round_lerp_step : F32.round (176 * (1 / 32)) = 11 / 2 := by
  have h := F32_round_eval (176 * (1 / 32)) (1 / 2 ^ 21) (2) 11534336
    (by norm_num [abs_of_pos]) (by norm_num [abs_of_pos]) (by norm_num) (by norm_num)
    (roundHalfEven_of_near _ _ (by norm_num) (by norm_num))
  rw [h]
  norm_num

theorem F32_round_lerp_sum : F32.round (100000000 + 11 / 2) = 100000008 := by
  have h := F32_round_eval (100000000 + 11 / 2) (2 ^ 3) (26) 12500001
    (by norm_num [abs_of_pos]) (by norm_num [abs_of_pos]) (by norm_num) (by norm_num)
    (roundHalfEven_of_near _ _ (by norm_num) (by norm_num))
  rw [h]
  norm_num

theorem F32_round_280_sub_10 : F32.round (280 - 10) = 270 := by
  have h := F32_round_eval (280 - 10) (1 / 2 ^ 15) (8) 8847360
    (by norm_num [abs_of_pos]) (by norm_num [abs_of_pos]) (by norm_num) (by norm_num)
    (roundHalfEven_of_near _ _ (by norm_num) (by norm_num))
  rw [h]
  norm_num

theorem F32_round_270_sub_360 : F32.round (270 - 360) = -90 := by
  have h := F32_round_eval (270 - 360) (1 / 2 ^ 17) (6) (-11796480)
    (by norm_num [abs_of_pos]) (by norm_num [abs_of_pos]) (by norm_num) (by norm_num)
    (roundHalfEven_of_near _ _ (by norm_num) (by norm_num))
  rw [h]
  norm_num

theorem F32_round_short_step : F32.round (-90 * (1 / 2 ^ 30)) = -(45 / 2 ^ 29) := by
  have h := F32_round_eval (-90 * (1 / 2 ^ 30)) (1 / 2 ^ 47) (-24) (-11796480)
    (by norm_num [abs_of_pos]) (by norm_num [abs_of_pos]) (by norm_num) (by norm_num)
    (roundHalfEven_of_near _ _ (by norm_num) (by norm_num))
  rw [h]
  norm_num

theorem F32_round_10_add_short_step : F32.round (10 + -(45 / 2 ^ 29)) = 10 := by
  have h := F32_round_eval (10 + -(45 / 2 ^ 29)) (1 / 2 ^ 20) (3) 10485760
    (by norm_num [abs_of_pos]) (by norm_num [abs_of_pos]) (by norm_num) (by norm_num)
    (roundHalfEven_of_near _ _ (by norm_num) (by norm_num))
  rw [h]
  norm_num

theorem F32_round_one_sub_tiny : F32.round (1 - 1 / 2 ^ 30) = 1 := by
  have h := F32_round_eval (1 - 1 / 2 ^ 30) (1 / 2 ^ 24) (-1) 16777216
    (by norm_num [abs_of_pos]) (by norm_num [abs_of_pos]) (by norm_num) (by norm_num)
    (roundHalfEven_of_near _ _ (by norm_num) (by norm_num))
  rw [h]
  norm_num

theorem F32_round_10_mul_one : F32.round (10 * 1) = 10 := by
  have h := F32_round_eval (10 * 1) (1 / 2 ^ 20) (3) 10485760
    (by norm_num [abs_of_pos]) (by norm_num [abs_of_pos]) (by norm_num) (by norm_num)
    (roundHalfEven_of_near _ _ (by norm_num) (by norm_num))
  rw [h]
  norm_num

theorem F32_round_280_mul_tiny : F32.round (280 * (1 / 2 ^ 30)) = 35 / 2 ^ 27 := by
  have h := F32_round_eval (280 * (1 / 2 ^ 30)) (1 / 2 ^ 45) (-22) 9175040
    (by norm_num [abs_of_pos]) (by norm_num [abs_of_pos]) (by norm_num) (by norm_num)
    (roundHalfEven_of_near _ _ (by norm_num) (by norm_num))
  rw [h]
  norm_num

theorem F32_round_10_add_range_step : F32.round (10 + 35 / 2 ^ 27) = 10 := by
  have h := F32_round_eval (10 + 35 / 2 ^ 27) (1 / 2 ^ 20) (3) 10485760
    (by norm_num [abs_of_pos]) (by norm_num [abs_of_pos]) (by norm_num) (by norm_num)
    (roundHalfEven_of_near _ _ (by norm_num) (by norm_num))
  rw [h]
  norm_num

theorem F32_round_0_mul : F32.round (0 * (1 / 2 ^ 30)) = 0 := by
  have h : (0 * (1 / 2 ^ 30) : ℚ) = 0 := by norm_num
  rw [h, F32_round_zero]

theorem F32_round_large_angle : F32.round (4000001 / 4) = 4000001 / 4 := by
  have h := F32_round_eval (4000001 / 4) (1 / 2 ^ 4) (19) 16000004
    (by norm_num [abs_of_pos]) (by norm_num [abs_of_pos]) (by norm_num) (by norm_num)
    (roundHalfEven_of_near _ _ (by norm_num) (by norm_num))
  rw [h]
  norm_num

theorem F32_round_large_angle_scaled : F32.round (4000001 / 4 * 65536) = 65536016384 := by
  have h := F32_round_eval (4000001 / 4 * 65536) (2 ^ 12) (35) 16000004
    (by norm_num [abs_of_pos]) (by norm_num [abs_of_pos]) (by norm_num) (by norm_num)
    (roundHalfEven_of_near _ _ (by norm_num) (by norm_num))
  rw [h]
  norm_num

theorem F32_round_large_angle_quotient : F32.round (65536016384 / 360) = 182044496 := by
  have h := F32_round_eval (65536016384 / 360) (2 ^ 4) (27) 11377781
    (by norm_num [abs_of_pos]) (by norm_num [abs_of_pos]) (by norm_num) (by norm_num)
    (roundHalfEven_of_near _ _ (by norm_num) (by norm_num))
  rw [h]
  norm_num

theorem F32_round_short_product : F32.round (51024 * 360) = 18368640 := by
  have h := F32_round_eval (51024 * 360) (2 ^ 1) (24) 9184320
    (by norm_num [abs_of_pos]) (by norm_num [abs_of_pos]) (by norm_num) (by norm_num)
    (roundHalfEven_of_near _ _ (by norm_num) (by norm_num))
  rw [h]
  norm_num

theorem F32_round_short_quotient : F32.round (18368640 / 65536) = 143505 / 512 := by
  have h := F32_round_eval (18368640 / 65536) (1 / 2 ^ 15) (8) 9184320
    (by norm_num [abs_of_pos]) (by norm_num [abs_of_pos]) (by norm_num) (by norm_num)
    (roundHalfEven_of_near _ _ (by norm_num) (by norm_num))
  rw [h]
  norm_num

theorem F32_round_360_sub_tiny : F32.round (-(1 / 2 ^ 30) + 360) = 360 := by
  have h := F32_round_eval (-(1 / 2 ^ 30) + 360) (1 / 2 ^ 15) 8 11796480
    (by norm_num [abs_of_pos]) (by norm_num [abs_of_pos]) (by norm_num) (by norm_num)
    (roundHalfEven_of_near _ _ (by norm_num) (by norm_num))
  rw [h]
  norm_num


theorem Rounded_ClampAxis_of_nonneg (rnd : ℚ → ℚ) (x : ℚ) (h0 : 0 ≤ x) (h1 : x < 360) :
    Rounded.FRotator.ClampAxis rnd x = x := by
  unfold Rounded.FRotator.ClampAxis
  simp only [Fmod_of_small x (by linarith) h1]
  rw [if_neg (not_lt.mpr h0)]

theorem Rounded_ClampAxis_of_neg (rnd : ℚ → ℚ) (x : ℚ) (h0 : -360 < x) (h1 : x < 0) :
    Rounded.FRotator.ClampAxis rnd x = rnd (x + 360) := by
  unfold Rounded.FRotator.ClampAxis
  simp only [Fmod_of_small x h0 (by linarith)]
  rw [if_pos h1]

theorem Rounded_NormalizeAxis_of_small (rnd : ℚ → ℚ) (x : ℚ) (h0 : 0 ≤ x) (h1 : x ≤ 180) :
    Rounded.FRotator.NormalizeAxis rnd x = x := by
  unfold Rounded.FRotator.NormalizeAxis
  simp only [Rounded_ClampAxis_of_nonneg rnd x h0 (by linarith)]
  rw [if_neg (not_lt.mpr h1)]

theorem Rounded_NormalizeAxis_zero (rnd : ℚ → ℚ) : Rounded.FRotator.NormalizeAxis rnd 0 = 0 :=
  Rounded_NormalizeAxis_of_small rnd 0 (le_refl 0) (by norm_num)

theorem Rounded_NormalizeAxis_of_neg (rnd : ℚ → ℚ) (x : ℚ) (h0 : -360 < x) (h1 : x < 0)
    (h2 : 180 < rnd (x + 360)) :
    Rounded.FRotator.NormalizeAxis rnd x = rnd (rnd (x + 360) - 360) := by
  unfold Rounded.FRotator.NormalizeAxis
  simp only [Rounded_ClampAxis_of_neg rnd x h0 h1]
  rw [if_pos h2]

theorem binary32_ClampAxis_neg_unit_step :
    Rounded.FRotator.ClampAxis F32.round (-(1 + 1 / 2 ^ 20)) = 359 := by
  rw [Rounded_ClampAxis_of_neg _ _ (by norm_num) (by norm_num), F32_round_neg_unit_step_add_360]

theorem binary32_NormalizeAxis_neg_unit_step :
    Rounded.FRotator.NormalizeAxis F32.round (-(1 + 1 / 2 ^ 20)) = -1 := by
  rw [Rounded_NormalizeAxis_of_neg _ _ (by norm_num) (by norm_num)
    (by rw [F32_round_neg_unit_step_add_360]; norm_num),
    F32_round_neg_unit_step_add_360, F32_round_359_sub_360]

theorem not_int_of_between (x : ℚ) (m : ℤ) (h0 : (m : ℚ) < x) (h1 : x < (m : ℚ) + 1) :
    ¬ ∃ n : ℤ, x = (n : ℚ) := by
  rintro ⟨n, hn⟩
  rw [hn] at h0 h1
  have a : m < n := by exact_mod_cast h0
  have b : n < m + 1 := by exact_mod_cast h1
  omega


theorem binary32_Lerp_short_step :
    Rounded.FMath.Lerp F32.round ⟨0, 10, 0⟩ ⟨0, 280, 0⟩ (1 / 2 ^ 30) = ⟨0, 10, 0⟩ := by
  have z : F32.round (0 - 0) = 0 := by rw [sub_zero, F32_round_zero]
  have z2 : F32.round (0 + 0) = 0 := by rw [add_zero, F32_round_zero]
  have n270 : Rounded.FRotator.NormalizeAxis F32.round 270 = -90 := by
    unfold Rounded.FRotator.NormalizeAxis
    simp only [Rounded_ClampAxis_of_nonneg F32.round 270 (by norm_num) (by norm_num)]
    rw [if_pos (by norm_num), F32_round_270_sub_360]
  simp only [Rounded.FMath.Lerp, Rounded.FRotator.add, Rounded.FRotator.scale,
    Rounded.FRotator.GetNormalized, Rounded.FRotator.Normalize, Rounded.FRotator.sub,
    F32_round_280_sub_10, z, Rounded_NormalizeAxis_zero, n270, F32_round_short_step,
    F32_round_10_add_short_step, F32_round_0_mul, z2]

theorem binary32_LerpRange_short_step :
    Rounded.FMath.LerpRange F32.round ⟨0, 10, 0⟩ ⟨0, 280, 0⟩ (1 / 2 ^ 30) = ⟨0, 10, 0⟩ := by
  have z2 : F32.round (0 + 0) = 0 := by rw [add_zero, F32_round_zero]
  have z3 : F32.round (0 * 1) = 0 := by rw [zero_mul, F32_round_zero]
  have n10 : Rounded.FRotator.NormalizeAxis F32.round 10 = 10 :=
    Rounded_NormalizeAxis_of_small _ 10 (by norm_num) (by norm_num)
  simp only [Rounded.FMath.LerpRange, Rounded.FRotator.add, Rounded.FRotator.scale,
    Rounded.FRotator.GetNormalized, Rounded.FRotator.Normalize, F32_round_one_sub_tiny,
    F32_round_10_mul_one, F32_round_280_mul_tiny, F32_round_10_add_range_step, F32_round_0_mul,
    z2, z3, Rounded_NormalizeAxis_zero, n10]

theorem binary32_CompressAxisToShort_large :
    Rounded.FRotator.CompressAxisToShort F32.round (4000001 / 4) = 51024 := by
  unfold Rounded.FRotator.CompressAxisToShort
  rw [F32_round_large_angle_scaled, F32_round_large_angle_quotient]
  have h : FMath.RoundToInt 182044496 = 182044496 := by
    have := RoundToInt_natCast 182044496
    exact_mod_cast this
  rw [h]
  rfl

theorem binary32_short_round_trip_large :
    Rounded.FRotator.DecompressAxisFromShort F32.round
        (Rounded.FRotator.CompressAxisToShort F32.round (4000001 / 4)) = 143505 / 512 := by
  rw [binary32_CompressAxisToShort_large]
  unfold Rounded.FRotator.DecompressAxisFromShort
  have e : ((51024 : ℕ) : ℚ) * 360 = 51024 * 360 := by norm_num
  rw [e, F32_round_short_product, F32_round_short_quotient]

theorem binary32_ClampAxis_large :
    Rounded.FRotator.ClampAxis F32.round (4000001 / 4) = 1121 / 4 := by
  have hf : ⌊(4000001 / 4 : ℚ) / 360⌋ = 2777 := by
    rw [Int.floor_eq_iff]; norm_num
  have hm : FMath.Fmod (4000001 / 4) 360 = 1121 / 4 := by
    unfold FMath.Fmod FMath.TruncToInt
    rw [if_pos (by norm_num), hf]
    norm_num
  unfold Rounded.FRotator.ClampAxis
  simp only [hm]
  rw [if_neg (by norm_num)]

/-! ## Claims on FRotator: the binary32 code -/

/-- C6, the binary32 code at the angle `-2^-30` (a value of the format): `FMath::Fmod` returns
the angle, the addition `Angle += 360.f` rounds to `360.0f`, and `ClampAxis` returns 360,
outside `[0, 360)`. -/
theorem FRotator.ClampAxis_binary32_returns_360 :
    F32.round (-(1 / 2 ^ 30)) = -(1 / 2 ^ 30)
      ∧ FMath.Fmod (-(1 / 2 ^ 30)) 360 = -(1 / 2 ^ 30)
      ∧ Rounded.FRotator.ClampAxis F32.round (-(1 / 2 ^ 30)) = 360
      ∧ ¬ (Rounded.FRotator.ClampAxis F32.round (-(1 / 2 ^ 30)) < 360) := by
  have hf : FMath.Fmod (-(1 / 2 ^ 30)) 360 = -(1 / 2 ^ 30) :=
    Fmod_of_small _ (by norm_num) (by norm_num)
  have hc : Rounded.FRotator.ClampAxis F32.round (-(1 / 2 ^ 30)) = 360 := by
    unfold Rounded.FRotator.ClampAxis
    simp only [hf]
    rw [if_pos (by norm_num), F32_round_360_sub_tiny]
  refine ⟨?_, hf, hc, by rw [hc]; norm_num⟩
  have h := F32_round_eval (-(1 / 2 ^ 30)) (1 / 2 ^ 53) (-30) (-8388608)
    (by norm_num [abs_of_pos]) (by norm_num [abs_of_pos]) (by norm_num) (by norm_num)
    (roundHalfEven_of_near _ _ (by norm_num) (by norm_num))
  rw [h]
  norm_num

/-- C34, as stated, fails on the binary32 code: at the angle `a = -(1 + 2^-20)`, a value of
the format, `ClampAxis` returns 359 and `NormalizeAxis` returns `-1`, so neither
`NormalizeAxis(a) - a = 2^-20` nor `ClampAxis(a) - a = 360 + 2^-20` is an integer multiple of
360. -/
theorem FRotator.NormalizeAxis_binary32_counterexample :
    F32.round (-(1 + 1 / 2 ^ 20)) = -(1 + 1 / 2 ^ 20)
      ∧ Rounded.FRotator.ClampAxis F32.round (-(1 + 1 / 2 ^ 20)) = 359
      ∧ Rounded.FRotator.NormalizeAxis F32.round (-(1 + 1 / 2 ^ 20)) = -1
      ∧ (¬ ∃ n : ℤ, Rounded.FRotator.NormalizeAxis F32.round (-(1 + 1 / 2 ^ 20))
            - -(1 + 1 / 2 ^ 20) = 360 * (n : ℚ))
      ∧ (¬ ∃ n : ℤ, Rounded.FRotator.ClampAxis F32.round (-(1 + 1 / 2 ^ 20))
            - -(1 + 1 / 2 ^ 20) = 360 * (n : ℚ)) := by
  refine ⟨F32_round_neg_unit_step, binary32_ClampAxis_neg_unit_step,
    binary32_NormalizeAxis_neg_unit_step, ?_, ?_⟩
  · rw [binary32_NormalizeAxis_neg_unit_step]
    rintro ⟨n, hn⟩
    exact not_int_of_between ((-1 - -(1 + 1 / 2 ^ 20)) / 360) 0 (by norm_num) (by norm_num)
      ⟨n, by rw [hn]; ring⟩
  · rw [binary32_ClampAxis_neg_unit_step]
    rintro ⟨n, hn⟩
    exact not_int_of_between ((359 - -(1 + 1 / 2 ^ 20)) / 360) 1 (by norm_num) (by norm_num)
      ⟨n, by rw [hn]; ring⟩

/-- C39, as stated, fails on the binary32 code: for `A = (1 + 2^-20, 0, 0)`, `B = (0, 0, 0)`
and tolerance 1, `A.Equals(B, 1)` is false (the normalised difference is `1 + 2^-20`) and
`B.Equals(A, 1)` is true (the difference `-(1 + 2^-20)` is clamped to `359`, the sum
`358.99999905` rounded, and normalised to `-1`). -/
theorem FRotator.Equals_binary32_counterexample :
    F32.round (1 + 1 / 2 ^ 20) = 1 + 1 / 2 ^ 20
      ∧ Rounded.FRotator.Equals F32.round ⟨1 + 1 / 2 ^ 20, 0, 0⟩ ⟨0, 0, 0⟩ 1 = false
      ∧ Rounded.FRotator.Equals F32.round ⟨0, 0, 0⟩ ⟨1 + 1 / 2 ^ 20, 0, 0⟩ 1 = true := by
  have z : F32.round (0 - 0) = 0 := by rw [sub_zero, F32_round_zero]
  refine ⟨?_, ?_, ?_⟩
  · have h := F32_round_unit_step_sub_zero
    rwa [sub_zero] at h
  · unfold Rounded.FRotator.Equals
    simp only [F32_round_unit_step_sub_zero, z, Rounded_NormalizeAxis_zero]
    rw [Rounded_NormalizeAxis_of_small _ _ (by norm_num) (by norm_num)]
    norm_num [FMath.Abs]
  · unfold Rounded.FRotator.Equals
    simp only [F32_round_zero_sub_unit_step, z, Rounded_NormalizeAxis_zero,
      binary32_NormalizeAxis_neg_unit_step]
    norm_num [FMath.Abs]

theorem binary32_NormalizeAxis_turns_difference :
    Rounded.FRotator.NormalizeAxis F32.round (-134218432) = 8 := by
  have hc : ⌈(-134218432 : ℚ) / 360⌉ = -372828 := by
    rw [Int.ceil_eq_iff]; norm_num
  have hf : FMath.Fmod (-134218432) 360 = -352 := by
    unfold FMath.Fmod FMath.TruncToInt
    rw [if_neg (by norm_num), hc]
    norm_num
  have hcl : Rounded.FRotator.ClampAxis F32.round (-134218432) = 8 := by
    unfold Rounded.FRotator.ClampAxis
    simp only [hf]
    rw [if_pos (by norm_num), F32_round_neg_352_add_360]
  unfold Rounded.FRotator.NormalizeAxis
  simp only [hcl]
  rw [if_neg (by norm_num)]

/-- C9, as stated, fails on the binary32 code: `R = (712, 0, 0)` and
`R' = (-2^27, 0, 0) = (712 + 360 * (-372829), 0, 0)` are values of the format, the difference
`R'.Pitch - R.Pitch` rounds to `-134218432`, which normalises to 8, and `R'.Equals(R, 1)` is
false. -/
theorem FRotator.Equals_whole_turns_binary32_counterexample :
    (-134217728 : ℚ) = 712 + 360 * ((-372829 : ℤ) : ℚ)
      ∧ F32.round 712 = 712 ∧ F32.round (-134217728) = -134217728
      ∧ Rounded.FRotator.NormalizeAxis F32.round (F32.round (-134217728 - 712)) = 8
      ∧ Rounded.FRotator.Equals F32.round ⟨-134217728, 0, 0⟩ ⟨712, 0, 0⟩ 1 = false := by
  have z : F32.round (0 - 0) = 0 := by rw [sub_zero, F32_round_zero]
  refine ⟨by norm_num, F32_round_712, F32_round_neg_two_pow_27, ?_, ?_⟩
  · rw [F32_round_turns_difference, binary32_NormalizeAxis_turns_difference]
  · unfold Rounded.FRotator.Equals
    simp only [F32_round_turns_difference, binary32_NormalizeAxis_turns_difference, z,
      Rounded_NormalizeAxis_zero]
    norm_num [FMath.Abs]

/-- C10, as stated, fails on the binary32 code: for `R = (3 * 2^-18, 0, 0)`, a value of the
format, `180.0f - Pitch` rounds to `180 - 2^-16`, so the rotator equivalent to the equivalent
of `R` has Pitch `2^-16`, not `R.Pitch`, and it does not equal `R` at tolerance 0. -/
theorem FRotator.GetEquivalentRotator_binary32_counterexample :
    F32.round (3 / 2 ^ 18) = 3 / 2 ^ 18
      ∧ Rounded.FRotator.GetEquivalentRotator F32.round
          (Rounded.FRotator.GetEquivalentRotator F32.round ⟨3 / 2 ^ 18, 0, 0⟩)
        = ⟨1 / 2 ^ 16, 360, 360⟩
      ∧ (⟨1 / 2 ^ 16, 360, 360⟩ : FRotator) ≠ ⟨3 / 2 ^ 18, 0 + 360, 0 + 360⟩
      ∧ Rounded.FRotator.Equals F32.round
          (Rounded.FRotator.GetEquivalentRotator F32.round
            (Rounded.FRotator.GetEquivalentRotator F32.round ⟨3 / 2 ^ 18, 0, 0⟩))
          ⟨3 / 2 ^ 18, 0, 0⟩ 0 = false := by
  have e : Rounded.FRotator.GetEquivalentRotator F32.round
      (Rounded.FRotator.GetEquivalentRotator F32.round ⟨3 / 2 ^ 18, 0, 0⟩)
      = ⟨1 / 2 ^ 16, 360, 360⟩ := by
    simp only [Rounded.FRotator.GetEquivalentRotator, F32_round_180_sub_three_steps,
      F32_round_0_add_180, F32_round_180_add_180, F32_round_180_sub_180_sub_step]
  refine ⟨F32_round_three_steps, e, ?_, ?_⟩
  · intro h
    have := congrArg FRotator.Pitch h
    norm_num at this
  · rw [e]
    unfold Rounded.FRotator.Equals
    simp only [F32_round_step_sub_three_steps]
    rw [Rounded_NormalizeAxis_of_small _ (1 / 2 ^ 18) (by norm_num) (by norm_num)]
    norm_num [FMath.Abs]

/-- C12, as stated, fails on the binary32 code: for `A.Yaw = 10^8`, `B.Yaw = 100000176`
(values of the format) and `alpha = 1/32`, the normalised difference is 176, the step
`176 / 32 = 5.5` is added to `10^8`, where the spacing of the format is 8, and the Yaw of
`Lerp(A, B, alpha)` is `100000008`: it differs from `A.Yaw` by 8, more than
`180 * alpha = 5.625`. -/
theorem FMath.Lerp_binary32_counterexample :
    F32.round 100000000 = 100000000 ∧ F32.round 100000176 = 100000176
      ∧ (Rounded.FMath.Lerp F32.round ⟨0, 100000000, 0⟩ ⟨0, 100000176, 0⟩ (1 / 32)).Yaw
        = 100000008
      ∧ ¬ (|(Rounded.FMath.Lerp F32.round ⟨0, 100000000, 0⟩ ⟨0, 100000176, 0⟩ (1 / 32)).Yaw
            - 100000000| ≤ 180 * (1 / 32)) := by
  have hy : (Rounded.FMath.Lerp F32.round ⟨0, 100000000, 0⟩ ⟨0, 100000176, 0⟩ (1 / 32)).Yaw
      = 100000008 := by
    simp only [Rounded.FMath.Lerp, Rounded.FRotator.add, Rounded.FRotator.scale,
      Rounded.FRotator.GetNormalized, Rounded.FRotator.Normalize, Rounded.FRotator.sub,
      F32_round_lerp_difference]
    rw [Rounded_NormalizeAxis_of_small _ 176 (by norm_num) (by norm_num), F32_round_lerp_step,
      F32_round_lerp_sum]
  refine ⟨F32_round_ten_pow_eight, F32_round_lerp_target, hy, ?_⟩
  rw [hy]
  norm_num [abs_of_pos]

/-- C13, as stated, fails. Over exact arithmetic: from `A = (0,0,0)` to `B = (0,270,0)` the yaw
difference is 270, above 180, yet `Lerp` and `LerpRange` agree at `alpha = 1` (both give
`(0,-90,0)`) and at `alpha = 0` (both give `A`). On the binary32 code: from `(0,10,0)` to
`(0,280,0)` at `alpha = 2^-30` both functions return `(0,10,0)`, the steps being below half
the spacing of the format at 10. -/
theorem FMath.Lerp_eq_LerpRange_counterexample :
    (180 < |(270 : ℚ) - 0|
        ∧ FMath.Lerp ⟨0, 0, 0⟩ ⟨0, 270, 0⟩ 1 = ⟨0, -90, 0⟩
        ∧ FMath.LerpRange ⟨0, 0, 0⟩ ⟨0, 270, 0⟩ 1 = ⟨0, -90, 0⟩
        ∧ FMath.Lerp ⟨0, 0, 0⟩ ⟨0, 270, 0⟩ 0 = FMath.LerpRange ⟨0, 0, 0⟩ ⟨0, 270, 0⟩ 0)
      ∧ (180 < |(280 : ℚ) - 10|
        ∧ Rounded.FMath.Lerp F32.round ⟨0, 10, 0⟩ ⟨0, 280, 0⟩ (1 / 2 ^ 30)
          = Rounded.FMath.LerpRange F32.round ⟨0, 10, 0⟩ ⟨0, 280, 0⟩ (1 / 2 ^ 30)) := by
  refine ⟨Lerp_eq_LerpRange_at_ends, by norm_num, ?_⟩
  rw [binary32_Lerp_short_step, binary32_LerpRange_short_step]

/-- C14, as stated, fails. Over exact arithmetic, at the top of the range: `359.5` degrees
compresses to the byte 0, which decompresses to 0, at distance `359.5` from
`ClampAxis(359.5) = 359.5`, and `359.999` degrees compresses to the short 0. On the binary32
code: the angle `1000000.25` scales to `182044489.96`, which rounds to `182044496` (the
spacing of the format there is 16), so it compresses to the short `51024` and decompresses to
`280.283203125`, at distance `0.0332` from `ClampAxis(1000000.25) = 280.25`, more than
`360/65536`. -/
theorem FRotator.compress_wraps_counterexample :
    (FRotator.ClampAxis (719 / 2) = 719 / 2
        ∧ FRotator.CompressAxisToByte (719 / 2) = 0
        ∧ FRotator.DecompressAxisFromByte (FRotator.CompressAxisToByte (719 / 2)) = 0
        ∧ ¬ (|FRotator.DecompressAxisFromByte (FRotator.CompressAxisToByte (719 / 2))
              - FRotator.ClampAxis (719 / 2)| ≤ 360 / 256)
        ∧ FRotator.ClampAxis (359999 / 1000) = 359999 / 1000
        ∧ FRotator.CompressAxisToShort (359999 / 1000) = 0
        ∧ ¬ (|FRotator.DecompressAxisFromShort (FRotator.CompressAxisToShort (359999 / 1000))
              - FRotator.ClampAxis (359999 / 1000)| ≤ 360 / 65536))
      ∧ (F32.round (4000001 / 4) = 4000001 / 4
        ∧ Rounded.FRotator.CompressAxisToShort F32.round (4000001 / 4) = 51024
        ∧ Rounded.FRotator.ClampAxis F32.round (4000001 / 4) = 1121 / 4
        ∧ ¬ (|Rounded.FRotator.DecompressAxisFromShort F32.round
                (Rounded.FRotator.CompressAxisToShort F32.round (4000001 / 4))
              - Rounded.FRotator.ClampAxis F32.round (4000001 / 4)| ≤ 360 / 65536)) := by
  refine ⟨compress_wraps_at_top, F32_round_large_angle, binary32_CompressAxisToShort_large,
    binary32_ClampAxis_large, ?_⟩
  rw [binary32_short_round_trip_large, binary32_ClampAxis_large]
  norm_num [abs_of_pos]

/-! ## Binary32 evaluations: matrices -/

theorem F32_round_one : F32.round (1) = 1 := by
  have h := F32_round_eval (1) (1 / 2 ^ 23) (0) 8388608
    (by norm_num [abs_of_pos]) (by norm_num [abs_of_pos]) (by norm_num) (by norm_num)
    (roundHalfEven_of_near _ _ (by norm_num) (by norm_num))
  rw [h]
  norm_num

theorem F32_round_10000 : F32.round (10000) = 10000 := by
  have h := F32_round_eval (10000) (1 / 2 ^ 10) (13) 10240000
    (by norm_num [abs_of_pos]) (by norm_num [abs_of_pos]) (by norm_num) (by norm_num)
    (roundHalfEven_of_near _ _ (by norm_num) (by norm_num))
  rw [h]
  norm_num

theorem F32_round_10001 : F32.round (10001) = 10001 := by
  have h := F32_round_eval (10001) (1 / 2 ^ 10) (13) 10241024
    (by norm_num [abs_of_pos]) (by norm_num [abs_of_pos]) (by norm_num) (by norm_num)
    (roundHalfEven_of_near _ _ (by norm_num) (by norm_num))
  rw [h]
  norm_num

theorem F32_round_10002 : F32.round (10002) = 10002 := by
  have h := F32_round_eval (10002) (1 / 2 ^ 10) (13) 10242048
    (by norm_num [abs_of_pos]) (by norm_num [abs_of_pos]) (by norm_num) (by norm_num)
    (roundHalfEven_of_near _ _ (by norm_num) (by norm_num))
  rw [h]
  norm_num

theorem F32_round_cancel_left : F32.round (10000 * 10002) = 100020000 := by
  have h := F32_round_eval (10000 * 10002) (2 ^ 3) (26) 12502500
    (by norm_num [abs_of_pos]) (by norm_num [abs_of_pos]) (by norm_num) (by norm_num)
    (roundHalfEven_of_near _ _ (by norm_num) (by norm_num))
  rw [h]
  norm_num

theorem F32_round_cancel_right : F32.round (10001 * 10001) = 100020000 := by
  have h := F32_round_eval (10001 * 10001) (2 ^ 3) (26) 12502500
    (by norm_num [abs_of_pos]) (by norm_num [abs_of_pos]) (by norm_num) (by norm_num)
    (roundHalfEven_of_near _ _ (by norm_num) (by norm_num))
  rw [h]
  norm_num

theorem F32_round_cancel_value : F32.round (100020000) = 100020000 := by
  have h := F32_round_eval (100020000) (2 ^ 3) (26) 12502500
    (by norm_num [abs_of_pos]) (by norm_num [abs_of_pos]) (by norm_num) (by norm_num)
    (roundHalfEven_of_near _ _ (by norm_num) (by norm_num))
  rw [h]
  norm_num

theorem F32_round_tiny : F32.round (1 / 2 ^ 80) = 1 / 2 ^ 80 := by
  have h := F32_round_eval (1 / 2 ^ 80) (1 / 2 ^ 103) (-80) 8388608
    (by norm_num [abs_of_pos]) (by norm_num [abs_of_pos]) (by norm_num) (by norm_num)
    (roundHalfEven_of_near _ _ (by norm_num) (by norm_num))
  rw [h]
  norm_num

theorem F32_round_tiny_sq : F32.round (1 / 2 ^ 80 * (1 / 2 ^ 80)) = 0 := by
  have h := F32_round_eval_subnormal (1 / 2 ^ 80 * (1 / 2 ^ 80)) (1 / 2 ^ 149) 0
    (by norm_num [abs_of_pos]) (by norm_num [abs_of_pos]) (by norm_num)
    (roundHalfEven_of_near _ _ (by norm_num) (by norm_num))
  rw [h]
  norm_num

theorem sampleCancel_M :
    sampleCancel.M 0 0 = 10000 ∧ sampleCancel.M 0 1 = 10001 ∧ sampleCancel.M 0 2 = 0
      ∧ sampleCancel.M 1 0 = 10001 ∧ sampleCancel.M 1 1 = 10002 ∧ sampleCancel.M 1 2 = 0
      ∧ sampleCancel.M 2 0 = 0 ∧ sampleCancel.M 2 1 = 0 ∧ sampleCancel.M 2 2 = 1 := by
  refine ⟨?_, ?_, ?_, ?_, ?_, ?_, ?_, ?_, ?_⟩ <;>
    simp [sampleCancel, Matrix.vecHead, Matrix.vecTail]

theorem sampleUnderflow_entries :
    sampleUnderflow.M 0 0 = 1 ∧ sampleUnderflow.M 0 1 = 0 ∧ sampleUnderflow.M 0 2 = 0
      ∧ sampleUnderflow.M 0 3 = 0
      ∧ sampleUnderflow.M 1 0 = 0 ∧ sampleUnderflow.M 1 1 = 1 / 2 ^ 80
      ∧ sampleUnderflow.M 1 2 = 0 ∧ sampleUnderflow.M 1 3 = 0
      ∧ sampleUnderflow.M 2 0 = 0 ∧ sampleUnderflow.M 2 1 = 0
      ∧ sampleUnderflow.M 2 2 = 1 / 2 ^ 80 ∧ sampleUnderflow.M 2 3 = 0
      ∧ sampleUnderflow.M 3 0 = 0 ∧ sampleUnderflow.M 3 1 = 0 ∧ sampleUnderflow.M 3 2 = 0
      ∧ sampleUnderflow.M 3 3 = 1 :=
  ⟨rfl, rfl, rfl, rfl, rfl, rfl, rfl, rfl, rfl, rfl, rfl, rfl, rfl, rfl, rfl, rfl⟩

theorem Rounded_TransposeAdjoint_M22 (rnd : ℚ → ℚ) (m : FMatrix) :
    (Rounded.FMatrix.TransposeAdjoint rnd m).M 2 2
      = rnd (rnd (m.M 0 0 * m.M 1 1) - rnd (m.M 0 1 * m.M 1 0)) := by
  simp [Rounded.FMatrix.TransposeAdjoint, Matrix.vecHead, Matrix.vecTail]

/-! ## Claims on FMatrix: the binary32 code -/

/-- C32, as stated, fails on the binary32 code: the upper 3x3 block of `sampleCancel` has
determinant `-1`, and `RotDeterminant()` returns 0, because the products `10000 * 10002` and
`10001 * 10001 = 100020001` both round to `100020000`. -/
theorem FMatrix.RotDeterminant_binary32_counterexample :
    Matrix.det sampleCancel.block3 = -1
      ∧ Rounded.FMatrix.RotDeterminant F32.round sampleCancel = 0 := by
  obtain ⟨h00, h01, h02, h10, h11, h12, h20, h21, h22⟩ := sampleCancel_M
  constructor
  · rw [← RotDeterminant_eq_det]
    simp only [FMatrix.RotDeterminant, h00, h01, h02, h10, h11, h12, h20, h21, h22]
    norm_num
  · simp only [Rounded.FMatrix.RotDeterminant, h00, h01, h02, h10, h11, h12, h20, h21, h22,
      mul_one, mul_zero, zero_mul, sub_zero, add_zero, sub_self, F32_round_zero,
      F32_round_10002, F32_round_10001, F32_round_cancel_left, F32_round_cancel_right]

/-- C33, as stated, fails on the binary32 code: on `sampleCancel` the entry `[2][2]` of
`TransposeAdjoint()` is 0, where the cofactor `10000 * 10002 - 10001 * 10001` of the block is
`-1`. -/
theorem FMatrix.TransposeAdjoint_binary32_counterexample :
    Matrix.adjugate sampleCancel.block3 2 2 = -1
      ∧ (Rounded.FMatrix.TransposeAdjoint F32.round sampleCancel).M 2 2 = 0 := by
  obtain ⟨h00, h01, h02, h10, h11, h12, h20, h21, h22⟩ := sampleCancel_M
  constructor
  · rw [block3_eq, Matrix.adjugate_fin_three]
    simp [h00, h01, h10, h11]
    norm_num
  · rw [Rounded_TransposeAdjoint_M22]
    simp only [h00, h01, h10, h11, F32_round_cancel_left, F32_round_cancel_right, sub_self,
      F32_round_zero]

/-- C1, as stated, fails on the binary32 code: `sampleUnderflow` has determinant `2^-160`,
not zero, and its X axis is `(1, 0, 0)`, not nearly zero; `Determinant()` underflows to 0, so
`Inverse()` returns `Identity` whatever `VectorMatrixInverse` does, and the product
`M * M.Inverse()` is `M`, whose entry `[1][1] = 2^-80` is further than `1e-3` from 1. -/
theorem FMatrix.mul_Inverse_binary32_counterexample :
    sampleUnderflow.Determinant ≠ 0 ∧ sampleUnderflow.IsNilMatrix = false
      ∧ Rounded.FMatrix.Determinant F32.round sampleUnderflow = 0
      ∧ (∀ V : FMatrix → FMatrix,
          Rounded.FMatrix.Inverse F32.round V sampleUnderflow = FMatrix.Identity)
      ∧ (Rounded.VectorMatrixMultiply F32.round sampleUnderflow FMatrix.Identity).M 1 1
        = 1 / 2 ^ 80
      ∧ ¬ (|(Rounded.VectorMatrixMultiply F32.round sampleUnderflow FMatrix.Identity).M 1 1
            - FMatrix.Identity.M 1 1| ≤ 1 / 1000) := by
  obtain ⟨h00, h01, h02, h03, h10, h11, h12, h13, h20, h21, h22, h23, h30, h31, h32, h33⟩ :=
    sampleUnderflow_entries
  have hdet : Rounded.FMatrix.Determinant F32.round sampleUnderflow = 0 := by
    simp only [Rounded.FMatrix.Determinant, h00, h01, h02, h03, h10, h11, h12, h13, h20, h21,
      h22, h23, h30, h31, h32, h33, mul_zero, zero_mul, mul_one, one_mul, sub_zero, add_zero,
      sub_self, F32_round_zero, F32_round_tiny, F32_round_tiny_sq]
  have hprod : (Rounded.VectorMatrixMultiply F32.round sampleUnderflow FMatrix.Identity).M 1 1
      = 1 / 2 ^ 80 := by
    simp only [Rounded.VectorMatrixMultiply, h10, h11, h12, h13, Identity_M_01, Identity_M_11,
      Identity_M_21, Identity_M_31, mul_zero, zero_mul, mul_one, add_zero, zero_add,
      F32_round_zero, F32_round_tiny]
  refine ⟨?_, ?_, hdet, ?_, hprod, ?_⟩
  · simp only [FMatrix.Determinant, h00, h01, h02, h03, h10, h11, h12, h13, h20, h21,
      h22, h23, h30, h31, h32, h33]
    norm_num
  · simp only [FMatrix.IsNilMatrix, FVector.IsNearlyZero, FVector.SizeSquared,
      FMatrix.GetScaledAxis, h00, h01, h02]
    norm_num [SMALL_NUMBER]
  · intro V
    have hx : Rounded.FVector.IsNearlyZero F32.round (sampleUnderflow.GetScaledAxis EAxis.X)
        SMALL_NUMBER = false := by
      simp only [Rounded.FVector.IsNearlyZero, FMatrix.GetScaledAxis, h00, h01, h02, mul_one,
        mul_zero, add_zero, F32_round_zero, F32_round_one]
      norm_num [SMALL_NUMBER]
    unfold Rounded.FMatrix.Inverse
    simp only [hx, Bool.false_and, hdet]
    simp
  · rw [hprod, Identity_M_11]
    norm_num [abs_of_pos]

/-! ## Binary64 evaluations: `Inverse4x4` -/

theorem F64_round_b_c : F64.round (3 * 65537) = 196611 := by
  have h := F64_round_eval (3 * 65537) (1 / 2 ^ 35) (17) 6755502520270848
    (by norm_num [abs_of_pos]) (by norm_num [abs_of_pos]) (by norm_num) (by norm_num)
    (roundHalfEven_of_near _ _ (by norm_num) (by norm_num))
  rw [h]
  norm_num

theorem F64_round_b_c_d : F64.round (196611 * 65537) = 12885295107 := by
  have h := F64_round_eval (196611 * 65537) (1 / 2 ^ 19) (33) 6755605601058816
    (by norm_num [abs_of_pos]) (by norm_num [abs_of_pos]) (by norm_num) (by norm_num)
    (roundHalfEven_of_near _ _ (by norm_num) (by norm_num))
  rw [h]
  norm_num

theorem F64_round_inv0 : F64.round (12885295107) = 12885295107 := by
  have h := F64_round_eval (12885295107) (1 / 2 ^ 19) (33) 6755605601058816
    (by norm_num [abs_of_pos]) (by norm_num [abs_of_pos]) (by norm_num) (by norm_num)
    (roundHalfEven_of_near _ _ (by norm_num) (by norm_num))
  rw [h]
  norm_num

theorem F64_round_a_c : F64.round (-8388611 * 65537) = -549764399107 := by
  have h := F64_round_eval (-8388611 * 65537) (1 / 2 ^ 13) (39) (-4503669957484544)
    (by norm_num [abs_of_pos]) (by norm_num [abs_of_pos]) (by norm_num) (by norm_num)
    (roundHalfEven_of_near _ _ (by norm_num) (by norm_num))
  rw [h]
  norm_num

theorem F64_round_a_c_d : F64.round (-549764399107 * 65537) = -36029909424275456 := by
  have h := F64_round_eval (-549764399107 * 65537) (2 ^ 3) (55) (-4503738678034432)
    (by norm_num [abs_of_pos]) (by norm_num [abs_of_pos]) (by norm_num) (by norm_num)
    (roundHalfEven_of_near _ _ (by norm_num) (by norm_num))
  rw [h]
  norm_num

theorem F64_round_inv4 : F64.round (-36029909424275456) = -36029909424275456 := by
  have h := F64_round_eval (-36029909424275456) (2 ^ 3) (55) (-4503738678034432)
    (by norm_num [abs_of_pos]) (by norm_num [abs_of_pos]) (by norm_num) (by norm_num)
    (roundHalfEven_of_near _ _ (by norm_num) (by norm_num))
  rw [h]
  norm_num

theorem F64_round_s0_inv0 : F64.round (8388611 * 12885295107) = 108089728272826384 := by
  have h := F64_round_eval (8388611 * 12885295107) (2 ^ 4) (56) 6755608017051649
    (by norm_num [abs_of_pos]) (by norm_num [abs_of_pos]) (by norm_num) (by norm_num)
    (roundHalfEven_of_near _ _ (by norm_num) (by norm_num))
  rw [h]
  norm_num

theorem F64_round_s1_inv4 : F64.round (3 * -36029909424275456) = -108089728272826368 := by
  have h := F64_round_eval (3 * -36029909424275456) (2 ^ 4) (56) (-6755608017051648)
    (by norm_num [abs_of_pos]) (by norm_num [abs_of_pos]) (by norm_num) (by norm_num)
    (roundHalfEven_of_near _ _ (by norm_num) (by norm_num))
  rw [h]
  norm_num

theorem F64_round_det_sum : F64.round (108089728272826384 + -108089728272826368) = 16 := by
  have h := F64_round_eval (108089728272826384 + -108089728272826368) (1 / 2 ^ 48) (4) 4503599627370496
    (by norm_num [abs_of_pos]) (by norm_num [abs_of_pos]) (by norm_num) (by norm_num)
    (roundHalfEven_of_near _ _ (by norm_num) (by norm_num))
  rw [h]
  norm_num

theorem F64_round_16 : F64.round (16) = 16 := by
  have h := F64_round_eval (16) (1 / 2 ^ 48) (4) 4503599627370496
    (by norm_num [abs_of_pos]) (by norm_num [abs_of_pos]) (by norm_num) (by norm_num)
    (roundHalfEven_of_near _ _ (by norm_num) (by norm_num))
  rw [h]
  norm_num

theorem F64_round_reciprocal : F64.round (1 / 16) = 1 / 16 := by
  have h := F64_round_eval (1 / 16) (1 / 2 ^ 56) (-4) 4503599627370496
    (by norm_num [abs_of_pos]) (by norm_num [abs_of_pos]) (by norm_num) (by norm_num)
    (roundHalfEven_of_near _ _ (by norm_num) (by norm_num))
  rw [h]
  norm_num

theorem F64_round_dst0 : F64.round (12885295107 * (1 / 16)) = 12885295107 / 16 := by
  have h := F64_round_eval (12885295107 * (1 / 16)) (1 / 2 ^ 23) (29) 6755605601058816
    (by norm_num [abs_of_pos]) (by norm_num [abs_of_pos]) (by norm_num) (by norm_num)
    (roundHalfEven_of_near _ _ (by norm_num) (by norm_num))
  rw [h]
  norm_num

theorem sampleSingularFloat_entries :
    sampleSingularFloat 0 = 8388611 ∧ sampleSingularFloat 1 = 3 ∧ sampleSingularFloat 2 = 0
      ∧ sampleSingularFloat 3 = 0 ∧ sampleSingularFloat 4 = 8388611
      ∧ sampleSingularFloat 5 = 3 ∧ sampleSingularFloat 6 = 0 ∧ sampleSingularFloat 7 = 0
      ∧ sampleSingularFloat 8 = 0 ∧ sampleSingularFloat 9 = 0
      ∧ sampleSingularFloat 10 = 65537 ∧ sampleSingularFloat 11 = 0
      ∧ sampleSingularFloat 12 = 0 ∧ sampleSingularFloat 13 = 0 ∧ sampleSingularFloat 14 = 0
      ∧ sampleSingularFloat 15 = 65537 := by
  unfold sampleSingularFloat
  exact ⟨vec16_0 .., vec16_1 .., vec16_2 .., vec16_3 .., vec16_4 .., vec16_5 .., vec16_6 ..,
    vec16_7 .., vec16_8 .., vec16_9 .., vec16_10 .., vec16_11 .., vec16_12 .., vec16_13 ..,
    vec16_14 .., vec16_15 ..⟩

theorem binary64_inv_0 : Rounded.Inverse4x4.inv F64.round sampleSingularFloat 0 = 12885295107 := by
  obtain ⟨e0, e1, e2, e3, e4, e5, e6, e7, e8, e9, e10, e11, e12, e13, e14, e15⟩ :=
    sampleSingularFloat_entries
  simp only [Rounded.Inverse4x4.inv, vec16_0, e0, e1, e2, e3, e4, e5, e6, e7, e8, e9, e10, e11,
    e12, e13, e14, e15, mul_zero, zero_mul, sub_zero, add_zero, zero_add, neg_zero,
    F64_round_zero, F64_round_b_c, F64_round_b_c_d, F64_round_inv0]

theorem binary64_inv_4 :
    Rounded.Inverse4x4.inv F64.round sampleSingularFloat 4 = -36029909424275456 := by
  obtain ⟨e0, e1, e2, e3, e4, e5, e6, e7, e8, e9, e10, e11, e12, e13, e14, e15⟩ :=
    sampleSingularFloat_entries
  simp only [Rounded.Inverse4x4.inv, vec16_4, e0, e1, e2, e3, e4, e5, e6, e7, e8, e9, e10, e11,
    e12, e13, e14, e15, mul_zero, zero_mul, sub_zero, add_zero, zero_add, neg_zero,
    F64_round_zero, F64_round_a_c, F64_round_a_c_d, F64_round_inv4]

theorem binary64_det : Rounded.Inverse4x4.det F64.round sampleSingularFloat = 16 := by
  obtain ⟨e0, e1, e2, e3, e4, e5, e6, e7, e8, e9, e10, e11, e12, e13, e14, e15⟩ :=
    sampleSingularFloat_entries
  simp only [Rounded.Inverse4x4.det, binary64_inv_0, binary64_inv_4, e0, e1, e2, e3, zero_mul,
    add_zero, F64_round_zero, F64_round_s0_inv0, F64_round_s1_inv4, F64_round_det_sum,
    F64_round_16]

theorem sampleSingularFloat_Determinant :
    (FMatrix.ofFlat sampleSingularFloat).Determinant = 0 := by
  obtain ⟨e0, e1, e2, e3, e4, e5, e6, e7, e8, e9, e10, e11, e12, e13, e14, e15⟩ :=
    sampleSingularFloat_entries
  simp only [FMatrix.Determinant, ofFlat_0, ofFlat_1, ofFlat_2, ofFlat_3, ofFlat_4, ofFlat_5,
    ofFlat_6, ofFlat_7, ofFlat_8, ofFlat_9, ofFlat_10, ofFlat_11, ofFlat_12, ofFlat_13,
    ofFlat_14, ofFlat_15, e0, e1, e2, e3, e4, e5, e6, e7, e8, e9, e10, e11, e12, e13, e14, e15]
  norm_num

theorem Rounded_Inverse4x4_isSome (rnd : ℚ → ℚ) (src : Fin 16 → ℚ) :
    (Rounded.Inverse4x4 rnd src).isSome = true := by
  unfold Rounded.Inverse4x4 Rounded.reciprocal
  by_cases h : Rounded.Inverse4x4.det rnd src = 0
  · simp [h]
  · simp [h]

theorem Rounded_Inverse4x4_of_det_eq_zero (rnd : ℚ → ℚ) (src : Fin 16 → ℚ)
    (h : Rounded.Inverse4x4.det rnd src = 0) :
    Rounded.Inverse4x4 rnd src
      = some (fun i => rnd (Rounded.Inverse4x4.inv rnd src i * 0)) := by
  unfold Rounded.Inverse4x4
  simp [h]

theorem Rounded_Inverse4x4_of_det_ne_zero (rnd : ℚ → ℚ) (src : Fin 16 → ℚ)
    (h : Rounded.Inverse4x4.det rnd src ≠ 0) :
    Rounded.Inverse4x4 rnd src
      = some (fun i => rnd (Rounded.Inverse4x4.inv rnd src i
          * rnd (1 / Rounded.Inverse4x4.det rnd src))) := by
  unfold Rounded.Inverse4x4 Rounded.reciprocal
  simp [h]

theorem Rounded_Inverse4x4_inv_id (src : Fin 16 → ℚ) :
    Rounded.Inverse4x4.inv id src = Inverse4x4.inv src := rfl

theorem Rounded_Inverse4x4_id (src : Fin 16 → ℚ) :
    Rounded.Inverse4x4 id src = some (Inverse4x4 src) := by
  by_cases h : Rounded.Inverse4x4.det id src = 0
  · rw [Rounded_Inverse4x4_of_det_eq_zero id src h]
    congr 1
    funext i
    have hd : Inverse4x4.det src = 0 := by
      unfold Inverse4x4.det
      unfold Rounded.Inverse4x4.det at h
      simp only [id, Rounded_Inverse4x4_inv_id] at h
      simp only [h]
      simp
    show Rounded.Inverse4x4.inv id src i * 0 = Inverse4x4.inv src i * Inverse4x4.det src
    rw [hd]
    simp
  · rw [Rounded_Inverse4x4_of_det_ne_zero id src h]
    congr 1
    funext i
    have hd : Inverse4x4.det src = 1 / Rounded.Inverse4x4.det id src := by
      unfold Inverse4x4.det
      unfold Rounded.Inverse4x4.det at h ⊢
      simp only [id, Rounded_Inverse4x4_inv_id] at h ⊢
      simp only [if_pos h]
    show Rounded.Inverse4x4.inv id src i * (1 / Rounded.Inverse4x4.det id src)
      = Inverse4x4.inv src i * Inverse4x4.det src
    rw [hd]
    rfl

/-! ## Claims on `Inverse4x4`: the guard and the binary64 code -/

/-- C31, as stated, fails on the code: the sixteen `float` entries of `sampleSingularFloat`
have determinant 0 (rows 0 and 1 are equal), and in binary64 the products
`s0 * inv[0] = 108089728272826377` and `s1 * inv[4]` round differently, so the determinant
`Inverse4x4` computes is 16, not 0; the code divides and writes `dst[0] = inv[0] / 16`, not
zero. -/
theorem Inverse4x4_binary64_counterexample :
    Matrix.det (Matrix.of (FMatrix.ofFlat sampleSingularFloat).M) = 0
      ∧ Rounded.Inverse4x4.det F64.round sampleSingularFloat = 16
      ∧ ∃ dst : Fin 16 → ℚ, Rounded.Inverse4x4 F64.round sampleSingularFloat = some dst
          ∧ dst 0 = 12885295107 / 16 := by
  refine ⟨?_, binary64_det, ?_⟩
  · rw [← Determinant_eq_det_aux, sampleSingularFloat_Determinant]
  · refine ⟨_, Rounded_Inverse4x4_of_det_ne_zero F64.round sampleSingularFloat
      (by rw [binary64_det]; norm_num), ?_⟩
    simp only [binary64_det, binary64_inv_0, F64_round_reciprocal, F64_round_dst0]

/-- C31, amended. In every rounded arithmetic `Inverse4x4` never divides by zero: it always
returns the sixteen entries, and when the determinant it computes,
`s0*inv[0] + s1*inv[4] + s2*inv[8] + s3*inv[12]`, is zero, it does not divide and every entry
it writes is `inv[i] * 0` rounded, that is zero. Over exact arithmetic, with `A` the matrix
stored in the source: the scale factor is 0 when `det A = 0` and `1 / det A` otherwise, and
entry `[i][j]` (flat index `4 * i + j`) written is 0 when `det A = 0` and
`adjugate(A) i j / det A` otherwise. -/
theorem Inverse4x4_zero_or_adjugate (rnd : ℚ → ℚ) (hrnd : rnd 0 = 0) (src : Fin 16 → ℚ) :
    (Rounded.Inverse4x4 rnd src).isSome = true
      ∧ (Rounded.Inverse4x4.det rnd src = 0 →
          Rounded.Inverse4x4 rnd src = some (fun _ => 0))
      ∧ Rounded.Inverse4x4 id src = some (Inverse4x4 src)
      ∧ Inverse4x4.det src
        = (if Matrix.det (Matrix.of (FMatrix.ofFlat src).M) = 0 then 0
           else 1 / Matrix.det (Matrix.of (FMatrix.ofFlat src).M))
      ∧ (∀ i j : Fin 4, (FMatrix.ofFlat (Inverse4x4 src)).M i j
          = if Matrix.det (Matrix.of (FMatrix.ofFlat src).M) = 0 then 0
            else Matrix.adjugate (Matrix.of (FMatrix.ofFlat src).M) i j
              / Matrix.det (Matrix.of (FMatrix.ofFlat src).M))
      ∧ (∀ k : Fin 16, Inverse4x4 src k
          = if Matrix.det (Matrix.of (FMatrix.ofFlat src).M) = 0 then 0
            else Inverse4x4.inv src k / Matrix.det (Matrix.of (FMatrix.ofFlat src).M)) := by
  have hd := Inverse4x4_det_src src
  rw [Determinant_eq_det_aux] at hd
  refine ⟨Rounded_Inverse4x4_isSome rnd src, ?_, Rounded_Inverse4x4_id src, hd, ?_, ?_⟩
  · intro h
    rw [Rounded_Inverse4x4_of_det_eq_zero rnd src h]
    simp only [mul_zero, hrnd]
  · intro i j
    have ha := Inverse4x4_inv_eq_adjugate (FMatrix.ofFlat src) i j
    rw [flat_ofFlat] at ha
    rw [Inverse4x4_M, ha, hd]
    split_ifs
    · ring
    · ring
  · intro k
    show Inverse4x4.inv src k * Inverse4x4.det src = _
    rw [hd]
    split_ifs
    · ring
    · ring

/-- Witness of the amended C31 in binary64 at `sampleSingularFloat`: rounding maps 0 to 0, no
division by zero takes place, and over exact arithmetic the result is that of `Inverse4x4`. -/
theorem Inverse4x4_zero_or_adjugate_witness :
    F64.round 0 = 0
      ∧ (Rounded.Inverse4x4 F64.round sampleSingularFloat).isSome = true
      ∧ Rounded.Inverse4x4 id sampleSingularFloat = some (Inverse4x4 sampleSingularFloat) :=
  ⟨F64_round_zero, (Inverse4x4_zero_or_adjugate F64.round F64_round_zero sampleSingularFloat).1,
    (Inverse4x4_zero_or_adjugate F64.round F64_round_zero sampleSingularFloat).2.2.1⟩

/-! ## Helper lemmas: squares of rationals -/

end UE4Math
